import Mathlib

/-!
Verification of the engram-mcp memory engine against its specification.

This file contains a shallow embedding of the core of the Python sources
src/engram/storage.py (class MemoryStore) and src/engram/graph.py
(class KnowledgeGraph), together with theorems settling the spec claims.

Modelling conventions, used consistently below:
* SQLite tables are association lists keyed by id; an UPDATE is a map over
  the list, an INSERT appends, a DELETE filters.  Each executed statement
  takes effect immediately (the engine commits after every logical step;
  transaction buffering is not modelled).
* The ChromaDB collection is an association list from id to the stored
  metadata tuple.  Embeddings are opaque: the answer of a top-k query is a
  parameter (a list of (id, cosine-distance) pairs), constrained by
  well-formedness hypotheses where a claim needs them.
* Python floats are modelled as rationals where the code only compares,
  adds and multiplies them, and as reals for the scoring formula (which
  uses exp, log and a real power).  The composite score inside recall is
  abstracted by a score-function parameter; the real-valued formula itself
  is embedded separately as compositeScore.
* Python regular-expression match lists (re.findall results) are oracle
  inputs; everything done with the matches (truncation, length gates,
  take-two limits, entity construction) is embedded concretely.
* datetime values are natural numbers (an abstract clock); the whole-day
  difference used by the decay factor is an integer parameter.
* Optional strings keep Python None as Option.none; Python truthiness of a
  string (None and the empty string are falsy) is the predicate truthyStr.
-/

namespace Engram

/-- Python truthiness of an optional string: None and the empty string are falsy. -/
def truthyStr : Option String → Bool
  | none => false
  | some s => !s.isEmpty

/-- Contiguous-sublist test on char lists (Python substring containment). -/
def infixB (needle : List Char) : List Char → Bool
  | [] => needle.isEmpty
  | c :: cs => needle.isPrefixOf (c :: cs) || infixB needle cs

/-- Substring test on already-lowercased strings (Python a in b). -/
def substr (needle hay : String) : Bool :=
  infixB needle.data hay.data

/-- Python str.lower (on character data, so that proofs can evaluate it). -/
def strLower (s : String) : String :=
  ⟨s.data.map Char.toLower⟩

/-- Python str.upper. -/
def strUpper (s : String) : String :=
  ⟨s.data.map Char.toUpper⟩

/-- Python slicing s[:n]: the first n characters. -/
def strTake (s : String) (n : ℕ) : String :=
  ⟨s.data.take n⟩

/-- Python str.strip: drop whitespace from both ends. -/
def strTrim (s : String) : String :=
  ⟨((s.data.dropWhile Char.isWhitespace).reverse.dropWhile Char.isWhitespace).reverse⟩

/-- Lookup by key in an association list (dict/SQL primary-key access);
first match wins, ids are unique in the modelled flows. -/
def lookupL {β : Type} : List (String × β) → String → Option β
  | [], _ => none
  | p :: rest, k => if p.1 = k then some p.2 else lookupL rest k

/-- Case-insensitive substring test (entity.lower() in text.lower()). -/
def containsLower (text sub : String) : Bool :=
  substr (strLower sub) (strLower text)

/-- Valid entity types: the EntityType enum of graph.py. -/
def entityTypeValues : List String :=
  ["project", "episode", "phase", "tool", "concept",
   "goal", "blocker", "pattern", "decision_point", "person"]

/-- Valid relation types: the RelationType enum of graph.py. -/
def relationTypeValues : List String :=
  ["mentions",
   "supersedes", "precedes", "evolved_from", "active_during",
   "caused_by", "motivated_by", "resulted_in", "blocked_by", "enabled_by", "triggered_by",
   "part_of", "contains", "instance_of", "phase_of", "version_of",
   "requires", "enables", "blocks", "conflicts_with", "depends_on",
   "similar_to", "related_to", "example_of", "contradicts", "reinforces", "applies_to"]

/-- Attributes of a graph memory node (dataclass MemoryNode of graph.py;
the id field is the association-list key, trigger_context and domains are
always None/[] in the modelled flows and are omitted). -/
structure GMemNode where
  memory_type : String
  project : Option String
  source_role : Option String
  status : String
  confidence : ℚ
  impact : String
  validation_count : ℕ
  last_validated : Option ℕ
deriving Repr, DecidableEq

/-- Attributes of a graph entity node (dataclass EntityNode of graph.py). -/
structure GEntityNode where
  entity_type : String
  name : String
  status : String
  priority : Option String
  description : Option String
deriving Repr, DecidableEq

/-- A graph node is a memory node or an entity node (node_type attribute). -/
inductive GNode
  | memory (m : GMemNode)
  | entity (e : GEntityNode)
deriving Repr, DecidableEq

/-- Edge attributes (dataclass EdgeAttributes of graph.py; the created_at
timestamp is omitted, no claim reads it). -/
structure EdgeAttrs where
  edge_type : String
  strength : ℚ
  confidence : ℚ
  created_by : String
  evidence : Option String
  bidirectional : Bool
deriving Repr, DecidableEq

/-- The knowledge graph: a networkx DiGraph, as a node list (insertion
order) and an edge list (insertion order, at most one edge per ordered
pair in the modelled flows exactly as in DiGraph). -/
structure Graph where
  nodes : List (String × GNode)
  edges : List (String × String × EdgeAttrs)
deriving Repr, DecidableEq

def Graph.hasNode (g : Graph) (id : String) : Bool :=
  (lookupL g.nodes id).isSome

/-- networkx add_node: insert the node, or replace the attributes if the id
is already present (all attribute keys are supplied at every call site). -/
def Graph.addNode (g : Graph) (id : String) (n : GNode) : Graph :=
  if g.hasNode id then
    { g with nodes := g.nodes.map (fun p => if p.1 = id then (id, n) else p) }
  else
    { g with nodes := g.nodes ++ [(id, n)] }

/-- networkx DiGraph add_edge: overwrite the (src, dst) edge if present,
append otherwise.  Call sites guarantee both endpoints exist. -/
def Graph.addEdge (g : Graph) (src dst : String) (a : EdgeAttrs) : Graph :=
  if g.edges.any (fun e => decide (e.1 = src ∧ e.2.1 = dst)) then
    { g with edges := g.edges.map (fun e =>
        if e.1 = src ∧ e.2.1 = dst then (src, dst, a) else e) }
  else
    { g with edges := g.edges ++ [(src, dst, a)] }

/-- networkx remove_node: drop the node and all incident edges. -/
def Graph.removeNode (g : Graph) (id : String) : Graph :=
  { nodes := g.nodes.filter (fun p => decide (p.1 ≠ id)),
    edges := g.edges.filter (fun e => decide (e.1 ≠ id ∧ e.2.1 ≠ id)) }

/-- KnowledgeGraph._make_entity_id: f-string "entity:{type}:{name.lower()}". -/
def makeEntityId (entity_type name : String) : String :=
  "entity:" ++ entity_type ++ ":" ++ strLower name

/-- KnowledgeGraph.add_entity: build the canonical id and add (or replace)
the entity node.  Returns the updated graph and the id. -/
def Graph.addEntity (g : Graph) (entity_type name status : String)
    (priority description : Option String) : Graph × String :=
  let id := makeEntityId entity_type name
  (g.addNode id (.entity ⟨entity_type, name, status, priority, description⟩), id)

/-- Status update shared by memory and entity nodes
(graph.nodes[id]["status"] = value works on either kind). -/
def setStatus : GNode → String → GNode
  | .memory m, s => .memory { m with status := s }
  | .entity e, s => .entity { e with status := s }

/-- KnowledgeGraph.update_memory_status. -/
def Graph.updateMemoryStatus (g : Graph) (id status : String) : Graph :=
  if g.hasNode id then
    { g with nodes := g.nodes.map (fun p =>
        if p.1 = id then (id, setStatus p.2 status) else p) }
  else g

/-- Node transform of KnowledgeGraph.validate_memory: bump
validation_count, stamp last_validated, recompute
confidence = min(0.95, 0.5 + 0.1 * count).  Only ever applied to memory
nodes; entity nodes are left unchanged. -/
def validatedNode (now : ℕ) : GNode → GNode
  | .memory m =>
      .memory { m with
        validation_count := m.validation_count + 1,
        last_validated := some now,
        confidence := min (95/100 : ℚ) (1/2 + (1/10) * ((m.validation_count + 1 : ℕ) : ℚ)) }
  | .entity e => .entity e

/-- KnowledgeGraph.validate_memory. -/
def Graph.validateMemory (g : Graph) (id : String) (now : ℕ) : Graph :=
  { g with nodes := g.nodes.map (fun p =>
      if p.1 = id then (id, validatedNode now p.2) else p) }

/-- KnowledgeGraph._get_reverse_relation. -/
def reverseRelation : String → Option String
  | "part_of" => some "contains"
  | "contains" => some "part_of"
  | "requires" => some "enables"
  | "enables" => some "requires"
  | "blocks" => some "blocked_by"
  | "blocked_by" => some "blocks"
  | "supersedes" => some "precedes"
  | "caused_by" => some "resulted_in"
  | "resulted_in" => some "caused_by"
  | _ => none

/-- KnowledgeGraph.add_relationship: both endpoints must exist; add the
edge, and the reverse edge when bidirectional and a reverse type exists. -/
def Graph.addRelationship (g : Graph) (src dst rel : String)
    (strength confidence : ℚ) (created_by : String) (evidence : Option String)
    (bidirectional : Bool) : Graph × Bool :=
  if !g.hasNode src then (g, false)
  else if !g.hasNode dst then (g, false)
  else
    let g1 := g.addEdge src dst ⟨rel, strength, confidence, created_by, evidence, bidirectional⟩
    let g2 :=
      if bidirectional then
        match reverseRelation rel with
        | some rrel =>
            g1.addEdge dst src ⟨rrel, strength, confidence, created_by, evidence, true⟩
        | none => g1
      else g1
    (g2, true)

/-- KnowledgeGraph.supersede: supersedes edge (strength 1, confidence 1,
created_by auto) then status update of the old memory. -/
def Graph.supersede (g : Graph) (newId oldId : String) : Graph :=
  ((g.addRelationship newId oldId "supersedes" 1 1 "auto" none false).1).updateMemoryStatus
    oldId "superseded"

/-- First predecessor of cur whose edge into cur has type supersedes
(the for/break loop body of get_current_version, with predecessor order
given by edge insertion order). -/
def Graph.firstSupersedesPred (g : Graph) (cur : String) : Option String :=
  (g.edges.find? (fun e => decide (e.2.1 = cur ∧ e.2.2.edge_type = "supersedes"))).map (·.1)

/-- Fueled loop of get_current_version; the fuel bounds the number of
iterations, each of which visits a previously unvisited node, so graph
size + 1 fuel is always sufficient. -/
def Graph.currentVersionAux (g : Graph) : ℕ → String → List String → String
  | 0, cur, _ => cur
  | fuel + 1, cur, visited =>
      match g.firstSupersedesPred cur with
      | some p => if p ∈ visited then cur else g.currentVersionAux fuel p (p :: visited)
      | none => cur

/-- KnowledgeGraph.get_current_version: follow reverse supersedes edges,
with cycle detection through the visited set. -/
def Graph.getCurrentVersion (g : Graph) (id : String) : String :=
  g.currentVersionAux (g.nodes.length + 1) id [id]

/-- Known entity names of KnowledgeGraph.KNOWN_ENTITIES, flattened in the
dict iteration order of the source. -/
def knownEntities : List (String × String) :=
  [("project", "CHANNEL"), ("project", "studioflow"), ("project", "avatar-factory"),
   ("project", "engram"), ("project", "engram-mcp"), ("project", "hallo2"),
   ("project", "chatterbox"), ("project", "ai-products"), ("project", "creator-ai-ecosystem"),
   ("tool", "proj"), ("tool", "sf"), ("tool", "ks"), ("tool", "engram-bridge"),
   ("tool", "resolve"), ("tool", "kitty"), ("tool", "claude"), ("tool", "git"),
   ("tool", "docker"), ("tool", "ffmpeg"), ("tool", "whisper"),
   ("concept", "episode"), ("concept", "script"), ("concept", "teleprompter"),
   ("concept", "recording"), ("concept", "post-production"), ("concept", "publishing"),
   ("concept", "MVP"), ("concept", "shipping"), ("concept", "retention"),
   ("concept", "hook"), ("concept", "thumbnail"), ("concept", "monetization"),
   ("phase", "research"), ("phase", "scripting"), ("phase", "recording"),
   ("phase", "editing"), ("phase", "publishing"), ("phase", "pre-production"),
   ("phase", "post-production"),
   ("goal", "monetization"), ("goal", "consistent publishing"), ("goal", "product launch"),
   ("blocker", "shiny object syndrome"), ("blocker", "perfectionism"),
   ("blocker", "scope creep"), ("blocker", "context switching"),
   ("blocker", "decision paralysis"),
   ("decision_point", "new idea arrives"), ("decision_point", "stuck on task"),
   ("decision_point", "feature request"), ("decision_point", "tool choice"),
   ("decision_point", "architecture decision")]

/-- Order-preserving dedup of extracted entities keyed by (type, lowercased name). -/
def dedupEntitiesAux (seen : List (String × String)) :
    List (String × String) → List (String × String)
  | [] => []
  | e :: rest =>
      let key := (e.1, strLower e.2)
      if key ∈ seen then dedupEntitiesAux seen rest
      else e :: dedupEntitiesAux (key :: seen) rest

def dedupEntities (l : List (String × String)) : List (String × String) :=
  dedupEntitiesAux [] l

/-- Path-fragment filter of extract_entities:
len(match) > 2 and not re.match(r'^[\d_]+$', match). -/
def pathHitOk (s : String) : Bool :=
  decide (s.length > 2) && !(s.data.all (fun c => c.isDigit || c == '_'))

/-- KnowledgeGraph.extract_entities.  The two regex scans (episode codes
and /mnt/dev paths) are oracle inputs episodeHits / pathHits; the
known-entity substring scan and the dedup are embedded concretely. -/
def extractEntities (text : String) (episodeHits pathHits : List String) :
    List (String × String) :=
  let fromKnown := knownEntities.filter (fun e => containsLower text e.2)
  let fromEpisodes := episodeHits.map (fun m => ("episode", strUpper m))
  let fromPaths := (pathHits.filter pathHitOk).map (fun m => ("project", m))
  dedupEntities (fromKnown ++ fromEpisodes ++ fromPaths)

/-- Entity-and-mentions loop of KnowledgeGraph.add_memory: for each
extracted (type, name), create the entity node if absent and add a
mentions edge of strength 0.5 from the memory. -/
def addMentions (memory_id : String) : Graph → List (String × String) → Graph
  | g, [] => g
  | g, (t, n) :: rest =>
      let eid := makeEntityId t n
      let g1 := if g.hasNode eid then g
                else g.addNode eid (.entity ⟨t, n, "active", none, none⟩)
      let g2 := g1.addEdge memory_id eid ⟨"mentions", 1/2, 1, "auto", none, false⟩
      addMentions memory_id g2 rest

/-- KnowledgeGraph.add_memory: memory node with rich attributes, then
entity extraction (plus the project tag) and mentions edges. -/
def Graph.addMemory (g : Graph) (memory_id content memory_type : String)
    (project source_role : Option String) (status : String) (confidence : ℚ)
    (impact : String) (episodeHits pathHits : List String) : Graph :=
  let g1 := g.addNode memory_id
    (.memory ⟨memory_type, project, source_role, status, confidence, impact, 0, none⟩)
  let entities := extractEntities content episodeHits pathHits ++
    (match project with | some p => [("project", p)] | none => [])
  addMentions memory_id g1 entities

/-- A row of the SQLite memories table.  metadata is modelled by the two
keys the engine writes that the claims read (superseded_by,
consolidated_into); caller-supplied metadata is not modelled. -/
structure MemRow where
  content : String
  memory_type : String
  project : Option String
  source_role : Option String
  importance : ℚ
  created_at : ℕ
  accessed_at : Option ℕ
  access_count : ℕ
  surface_count : ℕ
  validated : Bool
  superseded_by : Option String
  consolidated_into : Option String
deriving Repr, DecidableEq

/-- A row of the access_log table. -/
structure LogRow where
  memory_id : String
  query : Option String
  role : Option String
  project : Option String
  relevance : ℚ
  timestamp : ℕ
deriving Repr, DecidableEq

/-- Metadata tuple stored with each ChromaDB vector entry
(project or "", source_role or "", as in the source). -/
structure VecMeta where
  memory_type : String
  project : String
  source_role : String
  importance : ℚ
deriving Repr, DecidableEq

/-- Combined state of the three stores. -/
structure SysState where
  mems : List (String × MemRow)
  log : List LogRow
  vec : List (String × VecMeta)
  graph : Graph
deriving Repr, DecidableEq

/-- UPDATE memories ... WHERE id = ?: rewrite every row with the given id
(ids are unique in the modelled flows). -/
def updateMem (mems : List (String × MemRow)) (id : String) (f : MemRow → MemRow) :
    List (String × MemRow) :=
  mems.map (fun p => if p.1 = id then (p.1, f p.2) else p)

/-- Stopword set of MemoryStore.recall, verbatim. -/
def stopwords : List String :=
  ["the", "a", "an", "is", "are", "was", "were", "be", "been",
   "being", "have", "has", "had", "do", "does", "did", "will",
   "would", "could", "should", "may", "might", "must", "shall",
   "can", "need", "dare", "ought", "used", "to", "of", "in",
   "for", "on", "with", "at", "by", "from", "as", "into",
   "through", "during", "before", "after", "above", "below",
   "between", "under", "again", "further", "then", "once",
   "here", "there", "when", "where", "why", "how", "all",
   "each", "few", "more", "most", "other", "some", "such",
   "no", "nor", "not", "only", "own", "same", "so", "than",
   "too", "very", "just", "and", "but", "if", "or", "because",
   "until", "while", "what", "which", "who", "this", "that",
   "these", "those", "am", "it", "its", "i", "me", "my", "we",
   "our", "you", "your", "he", "him", "his", "she", "her",
   "they", "them", "their", "best", "practices", "tips", "help"]

/-- Maximal-alphanumeric-run tokenizer: the regex \b[a-zA-Z0-9]+\b applied
to a lowercased string (non-alphanumeric characters separate tokens). -/
def tokenizeAux : List Char → List Char → List String
  | [], [] => []
  | [], acc => [String.mk acc.reverse]
  | c :: cs, acc =>
      if c.isAlphanum then tokenizeAux cs (c :: acc)
      else if acc.isEmpty then tokenizeAux cs []
      else String.mk acc.reverse :: tokenizeAux cs []

def tokenize (s : String) : List String :=
  tokenizeAux s.data []

/-- Keyword extraction of MemoryStore.recall: tokenize the lowercased
query, drop stopwords and tokens of length at most 2. -/
def extractKeywords (query : String) : List String :=
  (tokenize (strLower query)).filter
    (fun w => decide (w ∉ stopwords ∧ w.length > 2))

/-- Filter construction of MemoryStore.recall (lines 602-607): push the
project key when project is truthy, and the memory_type key when exactly
one memory type was requested; both can be pushed at once. -/
def buildWhereFilter (project : Option String) (memory_types : Option (List String)) :
    List (String × String) :=
  (if truthyStr project then [("project", project.getD "")] else []) ++
  (match memory_types with
   | some ts => if ts.length == 1 then [("memory_type", ts.headD "")] else []
   | none => [])

/-- Satisfaction of one pushed equality predicate by a vector entry. -/
def vecMetaMatches (m : VecMeta) (f : String × String) : Bool :=
  if f.1 == "project" then m.project == f.2
  else if f.1 == "memory_type" then m.memory_type == f.2
  else false

/-- Number of query keywords appearing (substring, keywords are already
lowercase) in the lowercased content. -/
def countKeywordMatches (keywords : List String) (content : String) : ℕ :=
  (keywords.filter (fun k => substr k (strLower content))).length

/-- Keyword boost of recall: 1 + match_ratio * 0.25, or 1.0 with no keywords. -/
def keywordBoostQ (keywords : List String) (content : String) : ℚ :=
  if keywords.isEmpty then 1
  else 1 + ((countKeywordMatches keywords content : ℚ) / (keywords.length : ℚ)) * (1/4)

/-- Role affinity of recall: 1.15 when current_role and source_role are
both truthy and equal, else 1.0. -/
def roleAffinityQ (current source : Option String) : ℚ :=
  if truthyStr current && truthyStr source && current == source then 23/20 else 1

/-- Inputs read by the composite-score computation of recall. -/
structure ScoreIn where
  similarity : ℚ
  row : MemRow
  now : ℕ
  current_role : Option String
  query_keywords : List String

/-- Arguments of MemoryStore.recall. -/
structure RecallArgs where
  query : String
  limit : ℕ
  project : Option String
  memory_types : Option (List String)
  current_role : Option String
  hybrid_search : Bool

/-- One element of the list recall returns (the real-valued diagnostic
fields freshness is omitted: it is the abstracted decay factor). -/
structure RecallResult where
  id : String
  content : String
  memory_type : String
  project : Option String
  source_role : Option String
  importance : ℚ
  relevance : ℚ
  similarity : ℚ
  role_affinity : ℚ
  keyword_boost : ℚ
  keyword_matches : ℕ
  access_count : ℕ
  created_at : ℕ
deriving Repr, DecidableEq

/-- The per-row access/surface/validated update executed by recall
(the two UPDATE statements combined; validated is set exactly when the
new surface count reaches 5 and it was not set before). -/
def touchRow (r : MemRow) (now : ℕ) : MemRow :=
  { r with
    accessed_at := some now,
    access_count := r.access_count + 1,
    surface_count := r.surface_count + 1,
    validated := r.validated || decide (r.surface_count + 1 ≥ 5) }

/-- Does the recall loop auto-validate this id in state st: the row
exists, its new surface count reaches 5, and it is not yet validated. -/
def triggersValidationB (st : SysState) (id : String) : Bool :=
  match lookupL st.mems id with
  | some r => decide (5 ≤ r.surface_count + 1) && !r.validated
  | none => false

/-- Result-dict construction of recall; all fields read the row as fetched
before the counter update, exactly as the source does. -/
def mkRecallResult (id : String) (r : MemRow) (dist : ℚ) (score : ScoreIn → ℚ)
    (a : RecallArgs) (keywords : List String) (now : ℕ) : RecallResult :=
  let sim := 1 - dist
  { id := id, content := r.content, memory_type := r.memory_type,
    project := r.project, source_role := r.source_role, importance := r.importance,
    relevance := score ⟨sim, r, now, a.current_role, keywords⟩,
    similarity := sim,
    role_affinity := roleAffinityQ a.current_role r.source_role,
    keyword_boost := keywordBoostQ keywords r.content,
    keyword_matches := countKeywordMatches keywords r.content,
    access_count := r.access_count, created_at := r.created_at }

/-- Main loop of recall over the ids returned by the vector query: fetch
the row, update counters, auto-validate at surface count 5, build the
scored result, and append the access-log row. -/
def recallLoop (score : ScoreIn → ℚ) (a : RecallArgs) (keywords : List String)
    (now : ℕ) : List (String × ℚ) → SysState → SysState × List RecallResult
  | [], st => (st, [])
  | (id, dist) :: rest, st =>
      match lookupL st.mems id with
      | none => recallLoop score a keywords now rest st
      | some row =>
          let validateNow := decide (row.surface_count + 1 ≥ 5) && !row.validated
          let g1 := if validateNow then st.graph.validateMemory id now else st.graph
          let res := mkRecallResult id row dist score a keywords now
          let logRow : LogRow :=
            ⟨id, some a.query, a.current_role,
             if truthyStr a.project then a.project else row.project,
             res.relevance, now⟩
          let st1 : SysState :=
            { mems := updateMem st.mems id (fun r => touchRow r now),
              log := st.log ++ [logRow], vec := st.vec, graph := g1 }
          let p := recallLoop score a keywords now rest st1
          (p.1, res :: p.2)

/-- Descending-by-relevance total preorder used by the final sort of recall. -/
abbrev relGe (x y : RecallResult) : Prop := y.relevance ≤ x.relevance

instance relGeTotal : IsTotal RecallResult relGe :=
  ⟨fun x y => le_total y.relevance x.relevance⟩

instance relGeTrans : IsTrans RecallResult relGe :=
  ⟨fun _ _ _ h1 h2 => le_trans h2 h1⟩

/-- Stable descending sort by relevance: memories.sort(key relevance,
reverse) in the source; Python sort is stable, and insertionSort with this
total preorder computes the same (unique) stable descending sort. -/
def recallSort (l : List RecallResult) : List RecallResult :=
  l.insertionSort relGe

/-- Post-filter of recall: keep only requested memory types when a set of
more than one type was requested. -/
def postFilterTypes (memory_types : Option (List String)) (l : List RecallResult) :
    List RecallResult :=
  match memory_types with
  | some ts => if ts.length > 1 then l.filter (fun m => decide (m.memory_type ∈ ts)) else l
  | none => l

/-- MemoryStore.recall.  vecResult is the ChromaDB answer (id, cosine
distance) for this call; score abstracts the real-valued composite
formula (embedded separately as compositeScore). -/
def recallOp (st : SysState) (a : RecallArgs) (score : ScoreIn → ℚ)
    (vecResult : List (String × ℚ)) (now : ℕ) : SysState × List RecallResult :=
  let keywords := if a.hybrid_search then extractKeywords a.query else []
  let p := recallLoop score a keywords now vecResult st
  (p.1, (recallSort (postFilterTypes a.memory_types p.2)).take a.limit)

/-- Contradiction signal pairs of MemoryStore.check_contradictions, verbatim. -/
def contradictionSignals : List (String × String) :=
  [("don\x27t", "do"), ("do", "don\x27t"),
   ("never", "always"), ("always", "never"),
   ("avoid", "use"), ("use", "avoid"),
   ("disable", "enable"), ("enable", "disable"),
   ("not", ""), ("", "not"),
   ("prefer", "avoid"), ("instead of", "use"),
   ("sqlite", "postgresql"), ("postgresql", "sqlite"),
   ("typescript", "javascript"), ("javascript", "typescript"),
   ("react", "vue"), ("vue", "react")]

/-- Reason a memory is flagged as a potential contradiction (the source
builds message strings; only the shape matters to the claims). -/
inductive ConflictReason
  | flipped (a b : String)
  | negation
  | verySimilar (t : String)
deriving Repr, DecidableEq

/-- Signal loop of check_contradictions: first matching pair wins; a pair
with both signals checks for a flip, a pair with only the first signal
checks asymmetric negation, a pair with only the second is dead code. -/
def findSignalConflict (contentLower memLower : String) :
    List (String × String) → Option ConflictReason
  | [] => none
  | (a, b) :: rest =>
      if !a.isEmpty && !b.isEmpty then
        if substr a contentLower && substr b memLower then some (.flipped a b)
        else findSignalConflict contentLower memLower rest
      else if !a.isEmpty then
        if substr a contentLower && !substr a memLower then some .negation
        else if substr a memLower && !substr a contentLower then some .negation
        else findSignalConflict contentLower memLower rest
      else findSignalConflict contentLower memLower rest

structure Conflict where
  mem : RecallResult
  reason : ConflictReason
deriving Repr, DecidableEq

/-- Per-result conflict decision of check_contradictions: skip results
below the similarity threshold, then signal scan, then the very-similar
rule for similarity > 0.55 and type in fact/preference/decision/pattern. -/
def conflictFor (contentLower : String) (threshold : ℚ) (m : RecallResult) :
    Option Conflict :=
  if m.similarity < threshold then none
  else
    match findSignalConflict contentLower (strLower m.content) contradictionSignals with
    | some r => some ⟨m, r⟩
    | none =>
        if m.similarity > 11/20 ∧
            m.memory_type ∈ ["fact", "preference", "decision", "pattern"] then
          some ⟨m, .verySimilar m.memory_type⟩
        else none

/-- MemoryStore.check_contradictions: recall the top 10 similar memories
(a state-changing call: it updates access counters and the access log),
then flag conflicts. -/
def checkContradictions (st : SysState) (content : String) (project : Option String)
    (score : ScoreIn → ℚ) (vecResult : List (String × ℚ)) (now : ℕ) :
    SysState × List Conflict :=
  let p := recallOp st ⟨content, 10, project, none, none, true⟩ score vecResult now
  (p.1, p.2.filterMap (conflictFor (strLower content) (1/2)))

/-- Arguments of MemoryStore.remember (supersede = [] models None/[]). -/
structure RememberArgs where
  content : String
  memory_type : String
  importance : ℚ
  project : Option String
  source_role : Option String
  check_conflicts : Bool
  supersede : List String

/-- Outcome of remember: the conflicts payload, the new id, or a
propagated exception from the embedder or the vector add. -/
inductive RememberOut
  | conflictsFound (conflicts : List Conflict)
  | stored (id : String)
  | embedFailed
  | vectorAddFailed
deriving Repr, DecidableEq

def RememberOut.isConflictsFound : RememberOut → Bool
  | .conflictsFound _ => true
  | _ => false

/-- Oracle inputs standing for the re.findall results that drive
auto-extraction, plus the two regex scans of extract_entities. -/
structure ExtractOracle where
  goalMatches : List (List String)
  blockerMatches : List (List String)
  patternMatches : List (List String)
  relTargets : String → List String
  episodeHits : List String
  pathHits : List String

def goalPatternConfs : List ℚ := [9/10, 9/10, 9/10, 7/10]

def blockerPatternConfs : List ℚ := [9/10, 8/10, 8/10, 7/10, 7/10]

def patternPatternConfs : List ℚ := [8/10, 7/10, 8/10]

/-- Per-match gate of _auto_extract: name = match.strip()[:50], kept only
when len(name) > 5 (so names of length at most 5 are rejected). -/
def acceptName (m : String) : Option String :=
  let name := strTake (strTrim m) 50
  if name.length > 5 then some name else none

/-- Per-pattern processing of _auto_extract: at most the first two findall
matches are considered, each put through the name gate. -/
def processMatches (ms : List String) : List String :=
  (ms.take 2).filterMap acceptName

/-- MemoryStore.add_entity: validate the entity type against the enum,
then delegate to the graph. -/
def storeAddEntity (st : SysState) (etype name status : String)
    (priority description : Option String) : SysState × Option String :=
  if etype ∈ entityTypeValues then
    let p := st.graph.addEntity etype name status priority description
    ({ st with graph := p.1 }, some p.2)
  else (st, none)

/-- MemoryStore.add_relationship: validate the relation type against the
enum, then delegate to the graph (created_by defaults to claude). -/
def storeAddRelationship (st : SysState) (src dst rel : String)
    (strength conf : ℚ) (evidence : Option String) : SysState × Bool :=
  if rel ∈ relationTypeValues then
    let p := st.graph.addRelationship src dst rel strength conf "claude" evidence false
    ({ st with graph := p.1 }, p.2)
  else (st, false)

/-- Entity + relationship creation for one accepted extracted name. -/
def addEntityAndRel (st : SysState) (memory_id etype name rel : String) (conf : ℚ) :
    SysState :=
  match storeAddEntity st etype name "active" none none with
  | (st1, some eid) =>
      if eid.isEmpty then st1
      else (storeAddRelationship st1 memory_id eid rel 1 conf none).1
  | (st1, none) => st1

/-- One extraction family (goals, blockers or patterns): each pattern has
its own findall result and confidence. -/
def extractGroup (memory_id etype rel : String) :
    List (List String × ℚ) → SysState → SysState
  | [], st => st
  | (ms, conf) :: rest, st =>
      let st1 := (processMatches ms).foldl
        (fun s name => addEntityAndRel s memory_id etype name rel conf) st
      extractGroup memory_id etype rel rest st1

/-- Pair each pattern confidence with its oracle findall result. -/
def zipMatches (ms : List (List String)) (confs : List ℚ) : List (List String × ℚ) :=
  (List.range confs.length).map (fun i => (ms.getD i [], confs.getD i 0))

/-- Relationship keyword map of _auto_extract, in dict order. -/
def relationshipKeywords : List (String × String) :=
  [("because", "motivated_by"), ("motivated by", "motivated_by"),
   ("caused by", "caused_by"), ("results in", "resulted_in"), ("leads to", "resulted_in"),
   ("blocks", "blocks"), ("prevents", "blocks"),
   ("enables", "enables"), ("unlocks", "enables"),
   ("requires", "requires"), ("needs", "requires"), ("depends on", "depends_on"),
   ("supersedes", "supersedes"), ("replaces", "supersedes"), ("instead of", "supersedes"),
   ("evolved from", "evolved_from"),
   ("contradicts", "contradicts"), ("conflicts with", "contradicts"),
   ("reinforces", "reinforces"), ("supports", "reinforces"),
   ("similar to", "similar_to")]

def spacesToUnderscores (s : String) : String :=
  String.mk (s.data.map (fun c => if c = ' ' then '_' else c))

/-- Entity-type probe of the relationship scan: the first candidate type
whose canonical id (with spaces replaced by underscores) is a graph node
receives the edge at confidence 0.6. -/
def tryEntityTypes (memory_id target rel : String) :
    List String → SysState → SysState
  | [], st => st
  | t :: rest, st =>
      let tid := "entity:" ++ t ++ ":" ++ spacesToUnderscores (strLower target)
      if st.graph.hasNode tid then
        (storeAddRelationship st memory_id tid rel 1 (3/5) none).1
      else tryEntityTypes memory_id target rel rest st

/-- Relationship keyword scan of _auto_extract: for each keyword present
in the lowercased content, take the first findall match as the target
phrase (truncated to 50 chars, required longer than 3). -/
def relScan (memory_id : String) (contentLower : String)
    (relTargets : String → List String) : SysState → SysState :=
  fun st => relationshipKeywords.foldl
    (fun s kw =>
      if substr kw.1 contentLower then
        match (relTargets kw.1).take 1 with
        | [] => s
        | m :: _ =>
            let target := strTake (strTrim m) 50
            if target.length > 3 then
              tryEntityTypes memory_id target kw.2
                ["goal", "blocker", "pattern", "tool", "concept"] s
            else s
      else s) st

/-- MemoryStore._auto_extract: goal and blocker extraction always run;
pattern extraction runs only when the stored row has memory_type solution
or pattern; then the relationship keyword scan. -/
def autoExtract (st : SysState) (memory_id content : String) (ex : ExtractOracle) :
    SysState :=
  let st1 := extractGroup memory_id "goal" "motivated_by"
    (zipMatches ex.goalMatches goalPatternConfs) st
  let st2 := extractGroup memory_id "blocker" "blocked_by"
    (zipMatches ex.blockerMatches blockerPatternConfs) st1
  let st3 :=
    match lookupL st2.mems memory_id with
    | some r =>
        if r.memory_type ∈ ["solution", "pattern"] then
          extractGroup memory_id "pattern" "example_of"
            (zipMatches ex.patternMatches patternPatternConfs) st2
        else st2
    | none => st2
  relScan memory_id (strLower content) ex.relTargets st3

/-- Supersede phase 1 of remember: write the pending marker into each old
record and delete its vector entry (the delete is wrapped in try/except:
a failing delete, delOk old = false, is swallowed). -/
def supersedePhase1 (content : String) (delOk : String → Bool)
    (st : SysState) (olds : List String) : SysState :=
  olds.foldl
    (fun s old =>
      { s with
        mems := updateMem s.mems old
          (fun r => { r with superseded_by := some ("pending:" ++ strTake content 50) }),
        vec := if delOk old then s.vec.filter (fun p => decide (p.1 ≠ old)) else s.vec })
    st

/-- Supersede phase 2 of remember: patch the pending marker to the newly
generated id. -/
def patchSupersededBy (newId : String) (st : SysState) (olds : List String) : SysState :=
  olds.foldl
    (fun s old =>
      { s with mems := updateMem s.mems old (fun r => { r with superseded_by := some newId }) })
    st

/-- Write phases of MemoryStore.remember, entered when no conflict stops
the call: supersede bookkeeping, embed, SQLite insert, ChromaDB add,
graph node + supersedes edges, auto-extraction. -/
def rememberWrite (st : SysState) (a : RememberArgs)
    (embedOk addOk : Bool) (delOk : String → Bool)
    (newId : String) (now : ℕ) (ex : ExtractOracle) : SysState × RememberOut :=
  let imp := max 0 (min 1 a.importance)
  let st1 := supersedePhase1 a.content delOk st a.supersede
  let st2 := if a.supersede.isEmpty then st1 else patchSupersededBy newId st1 a.supersede
  if !embedOk then (st2, .embedFailed)
  else
    let row : MemRow :=
      ⟨a.content, a.memory_type, a.project, a.source_role, imp, now, none, 0, 0,
       false, none, none⟩
    let st3 := { st2 with mems := st2.mems ++ [(newId, row)] }
    if !addOk then (st3, .vectorAddFailed)
    else
      let st4 := { st3 with
        vec := st3.vec ++
          [(newId,
            (⟨a.memory_type, a.project.getD "", a.source_role.getD "", imp⟩ : VecMeta))] }
      let g1 := st4.graph.addMemory newId a.content a.memory_type a.project a.source_role
        "active" imp
        (if imp > 7/10 then "high" else if imp > 4/10 then "medium" else "low")
        ex.episodeHits ex.pathHits
      let g2 := a.supersede.foldl (fun g old => g.supersede newId old) g1
      let st5 := { st4 with graph := g2 }
      let st6 := autoExtract st5 newId a.content ex
      (st6, .stored newId)

/-- MemoryStore.remember.  Failure injection: embedOk models the embedder
call, addOk the ChromaDB add (both uncaught: the state reached so far is
kept and the exception propagates), delOk the swallowed ChromaDB deletes.
conflictVec is the vector answer for the conflict-scan recall, newId the
generated mem_ id, ex the regex oracles.  HAS_GRAPH is true. -/
def remember (st : SysState) (a : RememberArgs) (score : ScoreIn → ℚ)
    (conflictVec : List (String × ℚ)) (embedOk addOk : Bool) (delOk : String → Bool)
    (newId : String) (now : ℕ) (ex : ExtractOracle) : SysState × RememberOut :=
  let scan :=
    if a.check_conflicts then checkContradictions st a.content a.project score conflictVec now
    else (st, [])
  if a.check_conflicts && !scan.2.isEmpty then
    (scan.1, .conflictsFound scan.2)
  else
    rememberWrite scan.1 a embedOk addOk delOk newId now ex

/-- MemoryStore.update_memory (success path; the ChromaDB metadata
rewrite on content change stores memory_type or fact and project or
empty, dropping source_role and importance, as in the source). -/
def updateMemoryOp (st : SysState) (id : String) (contentN mtypeN : Option String)
    (importanceN : Option ℚ) : SysState × Bool :=
  if contentN.isNone && mtypeN.isNone && importanceN.isNone then (st, false)
  else
    let imp := importanceN.map (fun i => max 0 (min 1 i))
    let present := (lookupL st.mems id).isSome
    let st1 := { st with
      mems := updateMem st.mems id (fun r =>
        { r with
          content := contentN.getD r.content,
          memory_type := mtypeN.getD r.memory_type,
          importance := imp.getD r.importance }) }
    let st2 :=
      if present && contentN.isSome then
        match lookupL st1.mems id with
        | some r =>
            { st1 with vec := st1.vec.map (fun p =>
                if p.1 = id then
                  (p.1, { p.2 with
                    memory_type := if r.memory_type.isEmpty then "fact" else r.memory_type,
                    project := r.project.getD "" })
                else p) }
        | none => st1
      else st1
    (st2, present)

/-- MemoryStore.delete_memory: SQLite delete; when a row was removed, the
swallowed ChromaDB delete and graph node removal follow. -/
def deleteMemoryOp (st : SysState) (id : String) (delVecOk : Bool) : SysState × Bool :=
  let present := (lookupL st.mems id).isSome
  if present then
    ({ mems := st.mems.filter (fun p => decide (p.1 ≠ id)),
       log := st.log,
       vec := if delVecOk then st.vec.filter (fun p => decide (p.1 ≠ id)) else st.vec,
       graph := st.graph.removeNode id }, true)
  else (st, false)

/-- MemoryStore.consolidate: a remember with the project of the first
listed memory, then each original gets consolidated_into and loses its
vector entry (ids assumed nonempty as the source indexes memory_ids[0]). -/
def consolidateOp (st : SysState) (ids : List String) (content mtype : String)
    (imp : ℚ) (score : ScoreIn → ℚ) (embedOk addOk : Bool) (delOk : String → Bool)
    (newId : String) (now : ℕ) (ex : ExtractOracle) : SysState × RememberOut :=
  let project := (ids.head?.bind (fun i => lookupL st.mems i)).bind (fun r => r.project)
  let a : RememberArgs := ⟨content, mtype, imp, project, none, false, []⟩
  match remember st a score [] embedOk addOk delOk newId now ex with
  | (st1, .stored nid) =>
      let st2 := ids.foldl
        (fun s i =>
          { s with
            mems := updateMem s.mems i (fun r => { r with consolidated_into := some nid }),
            vec := if delOk i then s.vec.filter (fun p => decide (p.1 ≠ i)) else s.vec })
        st1
      (st2, .stored nid)
  | out => out

/-- MemoryStore.validate_memory: delegate to the graph. -/
def validateMemoryOp (st : SysState) (id : String) (now : ℕ) : SysState :=
  { st with graph := st.graph.validateMemory id now }

/-- One top-level mutating engine operation, with its oracle data. -/
inductive Op
  | rememberOp (a : RememberArgs) (score : ScoreIn → ℚ) (conflictVec : List (String × ℚ))
      (embedOk addOk : Bool) (delOk : String → Bool) (newId : String) (now : ℕ)
      (ex : ExtractOracle)
  | recallCall (a : RecallArgs) (score : ScoreIn → ℚ) (vecResult : List (String × ℚ))
      (now : ℕ)
  | updateCall (id : String) (contentN mtypeN : Option String) (importanceN : Option ℚ)
  | deleteCall (id : String) (delVecOk : Bool)
  | consolidateCall (ids : List String) (content mtype : String) (imp : ℚ)
      (score : ScoreIn → ℚ) (embedOk addOk : Bool) (delOk : String → Bool)
      (newId : String) (now : ℕ) (ex : ExtractOracle)
  | validateCall (id : String) (now : ℕ)
  | addEntityCall (etype name status : String) (priority description : Option String)
  | addRelationshipCall (src dst rel : String) (strength conf : ℚ)
      (evidence : Option String)

/-- State transition of one engine operation. -/
def step (st : SysState) : Op → SysState
  | .rememberOp a score cv e ad d nid now ex => (remember st a score cv e ad d nid now ex).1
  | .recallCall a score vr now => (recallOp st a score vr now).1
  | .updateCall id c t i => (updateMemoryOp st id c t i).1
  | .deleteCall id d => (deleteMemoryOp st id d).1
  | .consolidateCall ids c t i score e ad d nid now ex =>
      (consolidateOp st ids c t i score e ad d nid now ex).1
  | .validateCall id now => validateMemoryOp st id now
  | .addEntityCall t n s p d => (storeAddEntity st t n s p d).1
  | .addRelationshipCall s d r str c ev => (storeAddRelationship st s d r str c ev).1

/-- Composite score of MemoryStore.recall (storage.py lines 697-714),
with Python floats modelled as reals: s is the similarity 1 - distance,
d the whole days since the last touch, a the access count read from the
row, imp the stored importance, K the number of query keywords, M the
number matched, and the role factor requires both roles truthy. -/
noncomputable def compositeScore (s : ℝ) (d : ℤ) (a : ℕ) (imp : ℝ) (K M : ℕ)
    (current source : Option String) : ℝ :=
  let similarity_weight := max 0 s ^ (1.3 : ℝ)
  let decay_factor := Real.exp (-0.023 * (d : ℝ))
  let reinforcement := 1 + 0.1 * Real.log (1 + (a : ℝ))
  let role_affinity : ℝ :=
    if truthyStr current && truthyStr source && current == source then 1.15 else 1
  let keyword_boost : ℝ := if K = 0 then 1 else 1 + ((M : ℝ) / (K : ℝ)) * 0.25
  let importance_factor := 0.5 + imp * 0.5
  let base_score := similarity_weight * 0.55 + decay_factor * 0.15 +
    min (reinforcement * 0.10) 0.12
  base_score * importance_factor * keyword_boost * role_affinity

/-- Relevance formula exactly as claim C1 words it, in particular with the
role factor 1.15 whenever current_role is non-null and equals source_role. -/
noncomputable def claimedRelevanceC1 (s : ℝ) (d : ℤ) (a : ℕ) (imp : ℝ) (K M : ℕ)
    (current source : Option String) : ℝ :=
  let r : ℝ := if K = 0 then 0 else (M : ℝ) / (K : ℝ)
  (0.55 * max 0 s ^ (1.3 : ℝ) + 0.15 * Real.exp (-0.023 * (d : ℝ)) +
    min ((1 + 0.1 * Real.log (1 + (a : ℝ))) * 0.10) 0.12) *
  (0.5 + 0.5 * imp) * (1 + 0.25 * r) *
  (if current.isSome && current == source then 1.15 else 1)

/-- Relevance formula of claim C1 with the role condition amended to what
the code tests: both roles non-null and non-empty and equal. -/
noncomputable def amendedRelevanceC1 (s : ℝ) (d : ℤ) (a : ℕ) (imp : ℝ) (K M : ℕ)
    (current source : Option String) : ℝ :=
  let r : ℝ := if K = 0 then 0 else (M : ℝ) / (K : ℝ)
  (0.55 * max 0 s ^ (1.3 : ℝ) + 0.15 * Real.exp (-0.023 * (d : ℝ)) +
    min ((1 + 0.1 * Real.log (1 + (a : ℝ))) * 0.10) 0.12) *
  (0.5 + 0.5 * imp) * (1 + 0.25 * r) *
  (if truthyStr current && truthyStr source && current == source then 1.15 else 1)

/-- Memory row used by the claim C2 counterexample. -/
def c2Row (ac : ℕ) : MemRow :=
  ⟨"x", "fact", none, none, 1/2, 0, none, ac, 0, false, none, none⟩

/-- Store holding three identical-content memories with access counts 5, 9, 7. -/
def c2State : SysState :=
  ⟨[("m1", c2Row 5), ("m2", c2Row 9), ("m3", c2Row 7)], [], [], ⟨[], []⟩⟩

def c2Args : RecallArgs := ⟨"q", 10, none, none, none, true⟩

/-- Output of the counterexample recall call: three results of equal
relevance arriving from the vector index in the order m1, m2, m3. -/
def c2Out : List RecallResult :=
  (recallOp c2State c2Args (fun _ => 1) [("m1", 0), ("m2", 0), ("m3", 0)] 7).2

/-- Claimed ordering of C2, reading the access_count tie-break as
larger-count-first. -/
def c2TieHi (x y : RecallResult) : Prop :=
  y.relevance < x.relevance ∨ (x.relevance = y.relevance ∧
    (y.access_count < x.access_count ∨
      (x.access_count = y.access_count ∧ y.created_at ≤ x.created_at)))

/-- Claimed ordering of C2, reading the access_count tie-break as
smaller-count-first. -/
def c2TieLo (x y : RecallResult) : Prop :=
  y.relevance < x.relevance ∨ (x.relevance = y.relevance ∧
    (x.access_count < y.access_count ∨
      (x.access_count = y.access_count ∧ y.created_at ≤ x.created_at)))

instance : DecidableRel c2TieHi := fun x y => by unfold c2TieHi; infer_instance

instance : DecidableRel c2TieLo := fun x y => by unfold c2TieLo; infer_instance

/-- Memory rows of the claim C10 scenario; b has a type outside the
requested type set, so the post-filter removes it from the results. -/
def c10RowA : MemRow := ⟨"x", "fact", none, none, 1, 0, none, 0, 0, false, none, none⟩

def c10RowB : MemRow := ⟨"y", "note", none, none, 1, 0, none, 0, 0, false, none, none⟩

def c10State : SysState := ⟨[("a", c10RowA), ("b", c10RowB)], [], [], ⟨[], []⟩⟩

def c10Args : RecallArgs := ⟨"zz", 10, none, some ["fact", "decision"], none, true⟩

def c7Row : MemRow := ⟨"c", "fact", none, none, 1, 0, none, 0, 0, false, none, none⟩

def c7State : SysState := ⟨[("m1", c7Row)], [], [], ⟨[], []⟩⟩

def c7ArgsW : RecallArgs := ⟨"zz", 10, none, some ["fact", "decision"], none, true⟩

def c7m : RecallResult := ⟨"m1", "c", "fact", none, none, 1, 1, 1, 1, 1, 0, 0, 0⟩

def c9Row : MemRow := ⟨"x", "fact", none, none, 1, 0, none, 0, 0, false, none, none⟩

def c9State : SysState := ⟨[("m", c9Row)], [], [], ⟨[], []⟩⟩

def c9ex : ExtractOracle := ⟨[], [], [["ppppppp"]], fun _ => [], [], []⟩

/-- A node id is canonical for entity nodes: an entity node's key is the
makeEntityId of its attributes. -/
def entityIdOk (id : String) (n : GNode) : Prop :=
  ∀ e : GEntityNode, n = .entity e → id = makeEntityId e.entity_type e.name

/-- Graph well-formedness: node keys are unique and entity ids canonical. -/
def GraphWF (g : Graph) : Prop :=
  (g.nodes.map Prod.fst).Nodup ∧ ∀ p ∈ g.nodes, entityIdOk p.1 p.2

def c5Row : MemRow :=
  ⟨"always use tabs for indentation", "preference", none, none, 1, 0, none,
   0, 0, false, none, none⟩

def c5State : SysState :=
  ⟨[("m1", c5Row)], [], [("m1", ⟨"preference", "", "", 1⟩)], ⟨[], []⟩⟩

def c5Args : RememberArgs :=
  ⟨"never use tabs for indentation", "preference", 1, none, none, true, []⟩

def c5ex : ExtractOracle := ⟨[], [], [], fun _ => [], [], []⟩

/- ## C6: failure handling of remember -/

def c6Row : MemRow := ⟨"old fact", "fact", none, none, 1, 0, none, 0, 0, false, none, none⟩

def c6State : SysState :=
  ⟨[("m1", c6Row)], [], [("m1", ⟨"fact", "", "", 1⟩)], ⟨[], []⟩⟩

def c6ArgsA : RememberArgs := ⟨"new fact", "fact", 1, none, none, false, []⟩

def c6ArgsB : RememberArgs := ⟨"new fact", "fact", 1, none, none, false, ["m1"]⟩

def c6ex : ExtractOracle := ⟨[], [], [], fun _ => [], [], []⟩

/-- The two fields of a record row that drive implicit validation. -/
def vsOf (r : MemRow) : Bool × ℕ := (r.validated, r.surface_count)

/-- The source establishes and maintains: validated holds exactly when
the surface count has reached 5. -/
def vsOk : Bool × ℕ → Prop := fun v => v.1 = decide (5 ≤ v.2)

/-- Engine-wide validation invariant on the record store. -/
def ValidInv (st : SysState) : Prop :=
  ∀ id r, lookupL st.mems id = some r → vsOk (vsOf r)

/-- Between two states, every validated row keeps a validated row under
the same id (the formulation that composes across the phases of an
operation; deletion is the one phase that needs the weaker conditional
form, handled separately). -/
def MonoV (st st' : SysState) : Prop :=
  ∀ id r, lookupL st.mems id = some r → r.validated = true →
    ∃ r', lookupL st'.mems id = some r' ∧ r'.validated = true

def c8Row : MemRow := ⟨"x", "fact", none, none, 1, 0, none, 4, 4, false, none, none⟩

def c8State : SysState :=
  ⟨[("m", c8Row)], [], [("m", ⟨"fact", "", "", 1⟩)],
   ⟨[("m", .memory ⟨"fact", none, none, "active", 1, "low", 0, none⟩)], []⟩⟩

def c8Args : RecallArgs := ⟨"q", 10, none, none, none, true⟩

/-- Shape of the graph edge list during a superseding remember: the
pre-existing edges followed by a tail whose edges all have the new id as
source, never target the new id, and target the old id only with the
supersedes attributes. -/
def EdgeExt (base : List (String × String × EdgeAttrs)) (nid old : String)
    (g : Graph) : Prop :=
  ∃ tail, g.edges = base ++ tail ∧ ∀ e ∈ tail, e.1 = nid ∧ e.2.1 ≠ nid ∧
    (e.2.1 = old → e.2.2 = ⟨"supersedes", 1, 1, "auto", none, false⟩)

/-- Edge invariant after the supersedes edge has been written. -/
def EdgeExt2 (base : List (String × String × EdgeAttrs)) (nid old : String)
    (g : Graph) : Prop :=
  EdgeExt base nid old g ∧
    (nid, old, (⟨"supersedes", 1, 1, "auto", none, false⟩ : EdgeAttrs)) ∈ g.edges

def c3Row : MemRow := ⟨"use X", "decision", none, none, 1, 0, none, 0, 0, false, none, none⟩

def c3Node : GMemNode := ⟨"decision", none, none, "active", 1, "high", 0, none⟩

def c3State : SysState :=
  ⟨[("m1", c3Row)], [], [("m1", ⟨"decision", "", "", 1⟩)],
   ⟨[("m1", .memory c3Node)], []⟩⟩

def c3Args : RememberArgs := ⟨"use Y", "decision", 1, none, none, false, ["m1"]⟩

def c3ex : ExtractOracle := ⟨[], [], [], fun _ => [], [], []⟩

/-- Claim C1, counterexample: with current_role and source_role both the
empty string (non-null and equal, so the claim demands the 1.15 factor),
the code computes role_affinity 1.0 because Python string truthiness
rejects the empty string; at s = 0, d = 0, a = 0, importance 1 and no
keywords the code scores 0.25 while the claimed formula gives 0.2875. -/
theorem c1_role_guard_counterexample :
    compositeScore 0 0 0 1 0 0 (some "") (some "") ≠
      claimedRelevanceC1 0 0 0 1 0 0 (some "") (some "") := by
  have h : truthyStr (some "") = false := by decide
  unfold compositeScore claimedRelevanceC1
  norm_num [h, Real.zero_rpow, Real.exp_zero, Real.log_one]

/-- Claim C1, amended: the relevance computed by recall equals
0.55 * max(0,s)^1.3 + 0.15 * exp(-0.023 d) + min((1 + 0.1 ln(1+a)) * 0.10, 0.12),
times (0.5 + 0.5 I), times (1 + 0.25 r), times the role factor — which is
1.15 exactly when current_role and source_role are both non-null,
non-empty and equal (not merely when current_role is non-null and equal). -/
theorem c1_scoring_formula_amended (s : ℝ) (d : ℤ) (a : ℕ) (imp : ℝ) (K M : ℕ)
    (current source : Option String) :
    compositeScore s d a imp K M current source =
      amendedRelevanceC1 s d a imp K M current source := by
  unfold compositeScore amendedRelevanceC1
  rcases eq_or_ne K 0 with hK | hK <;> simp only [hK, if_true, if_pos, if_neg,
    reduceIte] <;> simp [hK] <;> ring_nf

lemma filter_orderedInsert_rel_eq (q : ℚ) (x : RecallResult) (hx : x.relevance = q) :
    ∀ l : List RecallResult,
      ((l.orderedInsert relGe x).filter (fun m => m.relevance == q)) =
        x :: l.filter (fun m => m.relevance == q)
  | [] => by simp [List.orderedInsert, hx]
  | y :: ys => by
      by_cases h : relGe x y
      · simp only [List.orderedInsert, if_pos h]
        simp [List.filter_cons, hx]
      · have hlt : x.relevance < y.relevance := not_le.mp h
        have hy : (y.relevance == q) = false := by
          simp only [beq_eq_false_iff_ne, ne_eq]
          intro hEq
          rw [hx] at hlt
          rw [hEq] at hlt
          exact lt_irrefl q hlt
        simp [List.orderedInsert, h, List.filter_cons, hy,
          filter_orderedInsert_rel_eq q x hx ys]

lemma filter_orderedInsert_rel_ne (q : ℚ) (x : RecallResult) (hx : x.relevance ≠ q) :
    ∀ l : List RecallResult,
      ((l.orderedInsert relGe x).filter (fun m => m.relevance == q)) =
        l.filter (fun m => m.relevance == q)
  | [] => by simp [List.orderedInsert, hx]
  | y :: ys => by
      by_cases h : relGe x y
      · simp [List.orderedInsert, h, List.filter_cons, hx]
      · simp [List.orderedInsert, h, List.filter_cons,
          filter_orderedInsert_rel_ne q x hx ys]

lemma filter_insertionSort_rel (q : ℚ) :
    ∀ l : List RecallResult,
      ((l.insertionSort relGe).filter (fun m => m.relevance == q)) =
        l.filter (fun m => m.relevance == q)
  | [] => rfl
  | a :: l => by
      by_cases ha : a.relevance = q
      · rw [List.insertionSort, filter_orderedInsert_rel_eq q a ha,
          filter_insertionSort_rel q l]
        simp [List.filter_cons, ha]
      · rw [List.insertionSort, filter_orderedInsert_rel_ne q a ha,
          filter_insertionSort_rel q l]
        simp [List.filter_cons, ha]

/-- Claim C2, counterexample: a recall whose three results all have
relevance 1/2 comes back in vector-index order with access counts
5, 9, 7 — not ordered by access_count under either reading of the
claimed tie-break, because the code sorts by relevance only and Python
sort stability keeps the pre-sort order on ties. -/
theorem c2_tie_break_counterexample :
    c2Out.map (fun m => m.relevance) = [1, 1, 1] ∧
    c2Out.map (fun m => m.access_count) = [5, 9, 7] ∧
    ¬ c2Out.Pairwise c2TieHi ∧ ¬ c2Out.Pairwise c2TieLo := by
  have hc : c2Out =
      [⟨"m1", "x", "fact", none, none, 1/2, 1, 1, 1, 1, 0, 5, 0⟩,
       ⟨"m2", "x", "fact", none, none, 1/2, 1, 1, 1, 1, 0, 9, 0⟩,
       ⟨"m3", "x", "fact", none, none, 1/2, 1, 1, 1, 1, 0, 7, 0⟩] := by
    simp +decide [c2Out, recallOp, recallLoop, c2State, c2Args, c2Row, mkRecallResult,
      lookupL, updateMem, touchRow, roleAffinityQ, keywordBoostQ, countKeywordMatches,
      truthyStr, extractKeywords, tokenize, tokenizeAux, strLower, stopwords,
      postFilterTypes, recallSort, List.insertionSort, List.orderedInsert, relGe]
  rw [hc]
  refine ⟨by simp, by simp, ?_, ?_⟩
  · intro h
    have h12 := (List.pairwise_cons.mp h).1 _ (List.mem_cons_self _ _)
    norm_num [c2TieHi] at h12
  · intro h
    have h23 := (List.pairwise_cons.mp (List.pairwise_cons.mp h).2).1 _
      (List.mem_cons_self _ _)
    norm_num [c2TieLo] at h23

/-- Claim C2, amended: every recall call returns a list sorted by
relevance descending, and the sort is stable — results of equal relevance
keep the order in which the loop over the vector-index answer produced
them (no access_count or created_at tie-break): for each relevance value
q, filtering the sorted list to the results scoring q yields exactly the
pre-sort sublist, unchanged. -/
theorem c2_sort_amended :
    (∀ (st : SysState) (a : RecallArgs) (score : ScoreIn → ℚ)
        (vr : List (String × ℚ)) (now : ℕ),
        ((recallOp st a score vr now).2).Sorted relGe) ∧
    (∀ l : List RecallResult, (recallSort l).Perm l) ∧
    (∀ (l : List RecallResult) (q : ℚ),
        ((recallSort l).filter (fun m => m.relevance == q)) =
          l.filter (fun m => m.relevance == q)) := by
  refine ⟨?_, ?_, ?_⟩
  · intro st a score vr now
    have h := List.sorted_insertionSort relGe
      (postFilterTypes a.memory_types
        (recallLoop score a (if a.hybrid_search then extractKeywords a.query else [])
          now vr st).2)
    exact List.Pairwise.sublist (List.take_sublist _ _) h
  · exact fun l => List.perm_insertionSort relGe l
  · exact fun l q => filter_insertionSort_rel q l

/-- Claim C7, counterexample: when project is set and exactly one memory
type is requested, the code pushes BOTH equality predicates to the vector
index (the claim says at most one, with memory_type only pushed when
project is unset). -/
theorem c7_both_filters_counterexample :
    buildWhereFilter (some "p") (some ["fact"]) =
      [("project", "p"), ("memory_type", "fact")] ∧
    (buildWhereFilter (some "p") (some ["fact"])).length = 2 := by
  decide

/-- Claim C7, amended: the project predicate is pushed exactly when the
project argument is truthy, and the memory_type predicate exactly when a
one-element type list was requested — independently, so both can be
pushed at once; a requested set of more than one memory type is applied
by the engine as a post-filter on the results after the vector query. -/
theorem c7_filter_pushdown_amended :
    (∀ (p : Option String) (mt : Option (List String)),
      (buildWhereFilter p mt).map Prod.fst =
        (if truthyStr p then ["project"] else []) ++
        (if (mt.getD []).length = 1 then ["memory_type"] else [])) ∧
    (∀ (st : SysState) (a : RecallArgs) (score : ScoreIn → ℚ)
        (vr : List (String × ℚ)) (now : ℕ) (m : RecallResult)
        (ts : List String),
      m ∈ (recallOp st a score vr now).2 → a.memory_types = some ts →
      1 < ts.length → m.memory_type ∈ ts) := by
  constructor
  · intro p mt
    cases mt with
    | none => by_cases hp : truthyStr p <;> simp [buildWhereFilter, hp]
    | some ts =>
        by_cases hp : truthyStr p <;>
          by_cases hl : ts.length = 1 <;>
            simp [buildWhereFilter, hp, hl]
  · intro st a score vr now m ts hm hmt hlen
    have hm1 : m ∈ recallSort (postFilterTypes a.memory_types
        (recallLoop score a (if a.hybrid_search then extractKeywords a.query else [])
          now vr st).2) := List.take_subset _ _ hm
    rw [recallSort] at hm1
    rw [List.mem_insertionSort] at hm1
    rw [hmt] at hm1
    simp only [postFilterTypes] at hm1
    rw [if_pos hlen] at hm1
    have := List.mem_filter.mp hm1
    simpa using this.2

lemma lookupL_updateMem (mems : List (String × MemRow)) (i : String) (f : MemRow → MemRow)
    (id : String) :
    lookupL (updateMem mems i f) id =
      if id = i then (lookupL mems i).map f else lookupL mems id := by
  induction mems with
  | nil => simp [lookupL, updateMem]
  | cons p rest ih =>
      by_cases hpi : p.1 = i
      · by_cases hid : id = i
        · subst hid
          simp [updateMem, lookupL, hpi]
        · have hne : ¬ i = id := fun h => hid h.symm
          simp only [updateMem, List.map_cons] at ih ⊢
          simp [lookupL, hpi, hid, hne, ih]
      · by_cases hid : id = i
        · subst hid
          simp only [updateMem, List.map_cons] at ih ⊢
          simp [lookupL, hpi, ih]
        · by_cases hpid : p.1 = id
          · simp [updateMem, lookupL, hpi, hpid, hid]
          · simp only [updateMem, List.map_cons] at ih ⊢
            simp [lookupL, hpi, hpid, hid, ih]

lemma lookupL_isSome_updateMem (mems : List (String × MemRow)) (i : String)
    (f : MemRow → MemRow) (id : String) :
    (lookupL (updateMem mems i f) id).isSome = (lookupL mems id).isSome := by
  rw [lookupL_updateMem]
  by_cases hid : id = i <;> simp [hid]

lemma lookupL_eq_none_iff {β : Type} (l : List (String × β)) (id : String) :
    lookupL l id = none ↔ id ∉ l.map Prod.fst := by
  induction l with
  | nil => simp [lookupL]
  | cons p rest ih =>
      by_cases h : p.1 = id
      · simp [lookupL, h]
      · simp only [lookupL, if_neg h, List.map_cons, List.mem_cons, ih]
        constructor
        · intro hn hmem
          rcases hmem with hh | hh
          · exact h hh.symm
          · exact hn hh
        · intro hn hmem
          exact hn (Or.inr hmem)

lemma lookupL_isSome_iff {β : Type} (l : List (String × β)) (id : String) :
    (lookupL l id).isSome = true ↔ id ∈ l.map Prod.fst := by
  constructor
  · intro h
    by_contra hn
    have h0 := (lookupL_eq_none_iff l id).mpr hn
    rw [h0] at h
    simp at h
  · intro h
    rcases hs : lookupL l id with _ | b
    · exact absurd h ((lookupL_eq_none_iff l id).mp hs)
    · simp

lemma lookupL_append {β : Type} (l₁ l₂ : List (String × β)) (id : String) :
    lookupL (l₁ ++ l₂) id =
      (lookupL l₁ id).or (lookupL l₂ id) := by
  induction l₁ with
  | nil => simp [lookupL]
  | cons p rest ih =>
      by_cases h : p.1 = id <;> simp [lookupL, h, ih]

/-- The recall loop leaves the vector store untouched. -/
lemma recallLoop_vec (score : ScoreIn → ℚ) (a : RecallArgs) (kw : List String) (now : ℕ) :
    ∀ (vr : List (String × ℚ)) (st : SysState),
      (recallLoop score a kw now vr st).1.vec = st.vec
  | [], _ => rfl
  | (i, d) :: rest, st => by
      rw [recallLoop]
      rcases h : lookupL st.mems i with _ | row
      · exact recallLoop_vec score a kw now rest st
      · exact recallLoop_vec score a kw now rest _

/-- Presence of a row (by id) is invariant under the recall loop. -/
lemma recallLoop_mems_isSome (score : ScoreIn → ℚ) (a : RecallArgs) (kw : List String)
    (now : ℕ) :
    ∀ (vr : List (String × ℚ)) (st : SysState) (id : String),
      (lookupL (recallLoop score a kw now vr st).1.mems id).isSome =
        (lookupL st.mems id).isSome
  | [], _, _ => rfl
  | (i, d) :: rest, st, id => by
      rw [recallLoop]
      rcases h : lookupL st.mems i with _ | row
      · exact recallLoop_mems_isSome score a kw now rest st id
      · rw [recallLoop_mems_isSome score a kw now rest _ id]
        simpa using lookupL_isSome_updateMem st.mems i (fun r => touchRow r now) id

/-- Row-level effect of the recall loop: every id the vector query
returned (ids are unique) and the record store holds is touched exactly
once; all other rows are unchanged. -/
lemma recallLoop_mems (score : ScoreIn → ℚ) (a : RecallArgs) (kw : List String)
    (now : ℕ) :
    ∀ (vr : List (String × ℚ)) (st : SysState), (vr.map Prod.fst).Nodup →
      ∀ id, lookupL (recallLoop score a kw now vr st).1.mems id =
        if id ∈ vr.map Prod.fst then
          (lookupL st.mems id).map (fun r => touchRow r now)
        else lookupL st.mems id
  | [], _, _, id => by simp [recallLoop]
  | (i, d) :: rest, st, hnd, id => by
      have hnd' : (rest.map Prod.fst).Nodup := (List.nodup_cons.mp hnd).2
      have hni : i ∉ rest.map Prod.fst := (List.nodup_cons.mp hnd).1
      rw [recallLoop]
      rcases h : lookupL st.mems i with _ | row
      · rw [recallLoop_mems score a kw now rest st hnd' id]
        by_cases hid : id = i
        · subst hid
          simp [hni, h]
        · by_cases hm : id ∈ List.map Prod.fst rest <;>
            simp [hm, hid, List.mem_cons]
      · rw [recallLoop_mems score a kw now rest _ hnd' id]
        by_cases hid : id = i
        · subst hid
          simp [lookupL_updateMem, hni, h, List.mem_cons]
        · by_cases hm : id ∈ List.map Prod.fst rest <;>
            simp [lookupL_updateMem, hm, hid, List.mem_cons]

/-- The ids of the results produced by the recall loop are exactly the
queried ids that have a record row, in query order. -/
lemma recallLoop_out_ids (score : ScoreIn → ℚ) (a : RecallArgs) (kw : List String)
    (now : ℕ) :
    ∀ (vr : List (String × ℚ)) (st : SysState),
      (recallLoop score a kw now vr st).2.map (fun r => r.id) =
        (vr.filter (fun q => (lookupL st.mems q.1).isSome)).map Prod.fst
  | [], _ => rfl
  | (i, d) :: rest, st => by
      rw [recallLoop]
      rcases h : lookupL st.mems i with _ | row
      · rw [List.filter_cons]
        simp only [h, Option.isSome_none, Bool.false_eq_true, if_neg, ite_false]
        exact recallLoop_out_ids score a kw now rest st
      · rw [List.filter_cons]
        simp only [h, Option.isSome_some, ite_true, List.map_cons, mkRecallResult]
        rw [recallLoop_out_ids score a kw now rest _]
        congr 1
        refine congrArg _ ?_
        apply List.filter_congr
        intro q _
        simpa using lookupL_isSome_updateMem st.mems i (fun r => touchRow r now) q.1

lemma recallOp_state (st : SysState) (a : RecallArgs) (score : ScoreIn → ℚ)
    (vr : List (String × ℚ)) (now : ℕ) :
    (recallOp st a score vr now).1 =
      (recallLoop score a (if a.hybrid_search then extractKeywords a.query else [])
        now vr st).1 := rfl

lemma lookupL_mapUpdate {β : Type} (l : List (String × β)) (i : String) (T : β → β) :
    ∀ id, lookupL (l.map (fun p => if p.1 = i then (i, T p.2) else p)) id =
      if id = i then (lookupL l i).map T else lookupL l id := by
  intro id
  induction l with
  | nil => simp [lookupL]
  | cons p rest ih =>
      by_cases hpi : p.1 = i
      · by_cases hid : id = i
        · subst hid
          simp [lookupL, hpi]
        · have hne : ¬ i = id := fun h => hid h.symm
          simp [lookupL, hpi, hid, hne, ih]
      · by_cases hid : id = i
        · subst hid
          simp [lookupL, hpi, ih]
        · by_cases hpid : p.1 = id
          · simp [lookupL, hpi, hpid, hid]
          · simp [lookupL, hpi, hpid, hid, ih]

lemma lookupL_validateMemory (g : Graph) (i : String) (now : ℕ) (id : String) :
    lookupL (g.validateMemory i now).nodes id =
      if id = i then (lookupL g.nodes i).map (validatedNode now)
      else lookupL g.nodes id := by
  unfold Graph.validateMemory
  exact lookupL_mapUpdate g.nodes i (validatedNode now) id

lemma validateMemory_edges (g : Graph) (i : String) (now : ℕ) :
    (g.validateMemory i now).edges = g.edges := rfl

lemma filter_isSome_updateMem (rest : List (String × ℚ)) (mems : List (String × MemRow))
    (i : String) (f : MemRow → MemRow) :
    rest.filter (fun q => (lookupL (updateMem mems i f) q.1).isSome) =
      rest.filter (fun q => (lookupL mems q.1).isSome) := by
  apply List.filter_congr
  intro q _
  simp [lookupL_isSome_updateMem]

/-- The recall loop only appends to the access log: one row per id that
the vector query returned and the record store holds. -/
lemma recallLoop_log (score : ScoreIn → ℚ) (a : RecallArgs) (kw : List String)
    (now : ℕ) :
    ∀ (vr : List (String × ℚ)) (st : SysState),
      ∃ tail, (recallLoop score a kw now vr st).1.log = st.log ++ tail ∧
        tail.length = (vr.filter (fun q => (lookupL st.mems q.1).isSome)).length
  | [], st => ⟨[], by simp [recallLoop]⟩
  | (i, d) :: rest, st => by
      rw [recallLoop]
      rcases h : lookupL st.mems i with _ | row
      · rcases recallLoop_log score a kw now rest st with ⟨tail, h1, h2⟩
        refine ⟨tail, h1, ?_⟩
        rw [List.filter_cons]
        simp [h, h2]
      · rcases recallLoop_log score a kw now rest
          ({ mems := updateMem st.mems i (fun r => touchRow r now),
             log := st.log ++ [⟨i, some a.query, a.current_role,
               if truthyStr a.project then a.project else row.project,
               (mkRecallResult i row d score a kw now).relevance, now⟩],
             vec := st.vec,
             graph := if decide (row.surface_count + 1 ≥ 5) && !row.validated then
               st.graph.validateMemory i now else st.graph } : SysState) with ⟨tail, h1, h2⟩
        refine ⟨(⟨i, some a.query, a.current_role,
            if truthyStr a.project then a.project else row.project,
            (mkRecallResult i row d score a kw now).relevance, now⟩ : LogRow) :: tail, ?_, ?_⟩
        · rw [h1]
          simp
        · rw [List.filter_cons]
          simp only [h, Option.isSome_some, ite_true, List.length_cons]
          rw [h2]
          have := filter_isSome_updateMem rest st.mems i (fun r => touchRow r now)
          simp only [this]

/-- The recall loop does not change graph edges. -/
lemma recallLoop_graph_edges (score : ScoreIn → ℚ) (a : RecallArgs) (kw : List String)
    (now : ℕ) :
    ∀ (vr : List (String × ℚ)) (st : SysState),
      (recallLoop score a kw now vr st).1.graph.edges = st.graph.edges
  | [], _ => rfl
  | (i, d) :: rest, st => by
      rw [recallLoop]
      rcases h : lookupL st.mems i with _ | row
      · exact recallLoop_graph_edges score a kw now rest st
      · rw [recallLoop_graph_edges score a kw now rest _]
        show (if decide (row.surface_count + 1 ≥ 5) && !row.validated then
            st.graph.validateMemory i now else st.graph).edges = st.graph.edges
        split
        · exact validateMemory_edges _ _ _
        · rfl

/-- Node-level graph effect of the recall loop: the node of a returned id
is passed through validatedNode exactly when the id auto-validates, and
every other node is unchanged. -/
lemma recallLoop_graph_nodes (score : ScoreIn → ℚ) (a : RecallArgs) (kw : List String)
    (now : ℕ) :
    ∀ (vr : List (String × ℚ)) (st : SysState), (vr.map Prod.fst).Nodup →
      ∀ id, lookupL (recallLoop score a kw now vr st).1.graph.nodes id =
        if id ∈ vr.map Prod.fst ∧ triggersValidationB st id = true then
          (lookupL st.graph.nodes id).map (validatedNode now)
        else lookupL st.graph.nodes id
  | [], _, _, id => by simp [recallLoop]
  | (i, d) :: rest, st, hnd, id => by
      have hnd' : (rest.map Prod.fst).Nodup := (List.nodup_cons.mp hnd).2
      have hni : i ∉ rest.map Prod.fst := (List.nodup_cons.mp hnd).1
      rw [recallLoop]
      rcases h : lookupL st.mems i with _ | row
      · rw [recallLoop_graph_nodes score a kw now rest st hnd' id]
        by_cases hid : id = i
        · subst hid
          simp [hni, triggersValidationB, h]
        · by_cases hm : id ∈ List.map Prod.fst rest <;>
            simp [hm, hid, List.mem_cons]
      · rw [recallLoop_graph_nodes score a kw now rest _ hnd' id]
        by_cases hid : id = i
        · subst hid
          have hcond : (id ∈ List.map Prod.fst rest ∧ triggersValidationB
              ({ mems := updateMem st.mems id (fun r => touchRow r now),
                 log := st.log ++ [⟨id, some a.query, a.current_role,
                   if truthyStr a.project then a.project else row.project,
                   (mkRecallResult id row d score a kw now).relevance, now⟩],
                 vec := st.vec,
                 graph := if decide (row.surface_count + 1 ≥ 5) && !row.validated then
                   st.graph.validateMemory id now else st.graph } : SysState) id = true) =
              False := by
            simp only [eq_iff_iff, iff_false]
            rintro ⟨hmem, _⟩
            exact hni hmem
          simp only [hcond, if_false]
          have hmem : id ∈ List.map Prod.fst ((id, d) :: rest) := by
            simp
          have htv : triggersValidationB st id =
              (decide (row.surface_count + 1 ≥ 5) && !row.validated) := by
            simp [triggersValidationB, h]
          by_cases hv : (decide (row.surface_count + 1 ≥ 5) && !row.validated) = true
          · have hctrue : id ∈ List.map Prod.fst ((id, d) :: rest) ∧
                triggersValidationB st id = true := ⟨hmem, htv.trans hv⟩
            rw [if_pos hctrue]
            show lookupL (if decide (row.surface_count + 1 ≥ 5) && !row.validated then
                st.graph.validateMemory id now else st.graph).nodes id =
              (lookupL st.graph.nodes id).map (validatedNode now)
            rw [if_pos hv, lookupL_validateMemory, if_pos rfl]
          · have hcfalse : ¬ (id ∈ List.map Prod.fst ((id, d) :: rest) ∧
                triggersValidationB st id = true) := by
              rintro ⟨_, htr⟩
              exact hv (htv.symm.trans htr)
            rw [if_neg hcfalse]
            show lookupL (if decide (row.surface_count + 1 ≥ 5) && !row.validated then
                st.graph.validateMemory id now else st.graph).nodes id =
              lookupL st.graph.nodes id
            rw [if_neg hv]
        · have htrig : triggersValidationB
              ({ mems := updateMem st.mems i (fun r => touchRow r now),
                 log := st.log ++ [⟨i, some a.query, a.current_role,
                   if truthyStr a.project then a.project else row.project,
                   (mkRecallResult i row d score a kw now).relevance, now⟩],
                 vec := st.vec,
                 graph := if decide (row.surface_count + 1 ≥ 5) && !row.validated then
                   st.graph.validateMemory i now else st.graph } : SysState) id =
              triggersValidationB st id := by
            simp [triggersValidationB, lookupL_updateMem, hid]
          have hmemiff : (id ∈ List.map Prod.fst ((i, d) :: rest)) =
              (id ∈ List.map Prod.fst rest) := by
            simp only [List.map_cons, List.mem_cons, eq_iff_iff]
            constructor
            · rintro (hh | hh)
              · exact absurd hh hid
              · exact hh
            · exact Or.inr
          have hnodes : lookupL
              ({ mems := updateMem st.mems i (fun r => touchRow r now),
                 log := st.log ++ [⟨i, some a.query, a.current_role,
                   if truthyStr a.project then a.project else row.project,
                   (mkRecallResult i row d score a kw now).relevance, now⟩],
                 vec := st.vec,
                 graph := if decide (row.surface_count + 1 ≥ 5) && !row.validated then
                   st.graph.validateMemory i now else st.graph } : SysState).graph.nodes id =
              lookupL st.graph.nodes id := by
            show lookupL (if decide (row.surface_count + 1 ≥ 5) && !row.validated then
                st.graph.validateMemory i now else st.graph).nodes id =
              lookupL st.graph.nodes id
            split
            · rw [lookupL_validateMemory, if_neg hid]
            · rfl
          simp only [htrig, hmemiff, hnodes]

/-- Claim C10: every recall updates accessed_at and increments
access_count and surface_count (and appends an access-log row) for every
id the vector query returned — up to 2 * limit ids — whether or not the
id survives the post-filter or the limit cut; ids the query did not
return are untouched.  The final conjunct exhibits a concrete recall
whose result list omits memory b (post-filtered by type) although b's
counters grew. -/
theorem c10_counters_frame_effect :
    (∀ (st : SysState) (a : RecallArgs) (score : ScoreIn → ℚ)
        (vr : List (String × ℚ)) (now : ℕ),
      (vr.map Prod.fst).Nodup → vr.length ≤ 2 * a.limit →
      (∀ id r₀, id ∈ vr.map Prod.fst → lookupL st.mems id = some r₀ →
        lookupL (recallOp st a score vr now).1.mems id = some (touchRow r₀ now)) ∧
      (∀ id, id ∉ vr.map Prod.fst →
        lookupL (recallOp st a score vr now).1.mems id = lookupL st.mems id) ∧
      (vr.filter (fun q => (lookupL st.mems q.1).isSome)).length ≤ 2 * a.limit ∧
      (∃ tail, (recallOp st a score vr now).1.log = st.log ++ tail ∧
        tail.length =
          (vr.filter (fun q => (lookupL st.mems q.1).isSome)).length)) ∧
    ((recallOp c10State c10Args (fun _ => 1) [("a", 0), ("b", 0)] 5).2.map
        (fun r => r.id) = ["a"] ∧
      lookupL (recallOp c10State c10Args (fun _ => 1) [("a", 0), ("b", 0)] 5).1.mems "b" =
        some (touchRow c10RowB 5)) := by
  constructor
  · intro st a score vr now hnd hlen
    refine ⟨?_, ?_, ?_, ?_⟩
    · intro id r₀ hmem hrow
      rw [recallOp_state, recallLoop_mems _ _ _ _ _ _ hnd id, if_pos hmem, hrow]
      rfl
    · intro id hmem
      rw [recallOp_state, recallLoop_mems _ _ _ _ _ _ hnd id, if_neg]
      intro hc
      exact hmem hc
    · exact le_trans (List.length_filter_le _ _) hlen
    · rw [recallOp_state]
      exact recallLoop_log _ _ _ _ _ _
  · constructor
    · simp +decide [recallOp, recallLoop, c10State, c10Args, c10RowA, c10RowB,
        mkRecallResult, lookupL, updateMem, touchRow, roleAffinityQ, keywordBoostQ,
        countKeywordMatches, truthyStr, extractKeywords, tokenize, tokenizeAux,
        strLower, stopwords, postFilterTypes, recallSort, List.insertionSort,
        List.orderedInsert, relGe]
    · rw [recallOp_state, recallLoop_mems _ _ _ _ _ _ (by decide) "b"]
      have hmem : "b" ∈ ([("a", (0:ℚ)), ("b", 0)].map Prod.fst) := by decide
      rw [if_pos hmem]
      have : lookupL c10State.mems "b" = some c10RowB := by
        simp [c10State, lookupL]
      rw [this]
      rfl

/-- Witness for claim C10 at a concrete input: the hypotheses hold for
the two-memory store and the two-id vector answer, and the conclusion
gives the touched row for memory b. -/
theorem c10_counters_frame_effect_witness :
    ((([("a", (0:ℚ)), ("b", 0)].map Prod.fst).Nodup) ∧
      [("a", (0:ℚ)), ("b", 0)].length ≤ 2 * c10Args.limit ∧
      "b" ∈ [("a", (0:ℚ)), ("b", 0)].map Prod.fst ∧
      lookupL c10State.mems "b" = some c10RowB) ∧
    lookupL (recallOp c10State c10Args (fun _ => 1) [("a", 0), ("b", 0)] 5).1.mems "b" =
      some (touchRow c10RowB 5) := by
  have h1 : ([("a", (0:ℚ)), ("b", 0)].map Prod.fst).Nodup := by decide
  have h2 : [("a", (0:ℚ)), ("b", 0)].length ≤ 2 * c10Args.limit := by decide
  have h3 : "b" ∈ [("a", (0:ℚ)), ("b", 0)].map Prod.fst := by decide
  have h4 : lookupL c10State.mems "b" = some c10RowB := by
    simp [c10State, lookupL]
  exact ⟨⟨h1, h2, h3, h4⟩,
    (c10_counters_frame_effect.1 c10State c10Args (fun _ => 1)
      [("a", 0), ("b", 0)] 5 h1 h2).1 "b" c10RowB h3 h4⟩

/-- Witness for claim C7 at a concrete input: a recall requesting the
two-type set {fact, decision} returns a result whose memory_type the
post-filter admits. -/
theorem c7_filter_pushdown_amended_witness :
    (c7m ∈ (recallOp c7State c7ArgsW (fun _ => 1) [("m1", 0)] 3).2 ∧
      c7ArgsW.memory_types = some ["fact", "decision"] ∧
      1 < (["fact", "decision"] : List String).length) ∧
    c7m.memory_type ∈ (["fact", "decision"] : List String) := by
  have hout : (recallOp c7State c7ArgsW (fun _ => 1) [("m1", 0)] 3).2 = [c7m] := by
    simp +decide [recallOp, recallLoop, c7State, c7ArgsW, c7Row, c7m, mkRecallResult,
      lookupL, updateMem, touchRow, roleAffinityQ, keywordBoostQ, countKeywordMatches,
      truthyStr, extractKeywords, tokenize, tokenizeAux, strLower, stopwords,
      postFilterTypes, recallSort, List.insertionSort, List.orderedInsert, relGe]
  have hmem : c7m ∈ (recallOp c7State c7ArgsW (fun _ => 1) [("m1", 0)] 3).2 := by
    rw [hout]
    exact List.mem_singleton_self _
  exact ⟨⟨hmem, rfl, by decide⟩,
    c7_filter_pushdown_amended.2 c7State c7ArgsW (fun _ => 1) [("m1", 0)] 3 c7m
      ["fact", "decision"] hmem rfl (by decide)⟩

lemma storeAddEntity_mems (st : SysState) (t n s : String)
    (p d : Option String) : (storeAddEntity st t n s p d).1.mems = st.mems := by
  unfold storeAddEntity
  split <;> rfl

lemma storeAddRelationship_mems (st : SysState) (src dst rel : String)
    (strength conf : ℚ) (ev : Option String) :
    (storeAddRelationship st src dst rel strength conf ev).1.mems = st.mems := by
  unfold storeAddRelationship
  split <;> rfl

lemma addEntityAndRel_mems (st : SysState) (mid t n rel : String) (c : ℚ) :
    (addEntityAndRel st mid t n rel c).mems = st.mems := by
  unfold addEntityAndRel
  rcases h : storeAddEntity st t n "active" none none with ⟨st1, eidOpt⟩
  have h1 : st1.mems = st.mems := by
    have := storeAddEntity_mems st t n "active" none none
    rw [h] at this
    exact this
  cases eidOpt with
  | none => exact h1
  | some eid =>
      by_cases he : eid.isEmpty
      · simp only [he, if_true]
        exact h1
      · simp only [he, Bool.false_eq_true, if_false, if_neg]
        rw [storeAddRelationship_mems]
        exact h1

lemma foldl_mems_eq {α : Type} (f : SysState → α → SysState)
    (h : ∀ s x, (f s x).mems = s.mems) :
    ∀ (l : List α) (s : SysState), (l.foldl f s).mems = s.mems := by
  intro l
  induction l with
  | nil => intro s; rfl
  | cons x xs ih =>
      intro s
      rw [List.foldl_cons, ih, h]

lemma extractGroup_mems (mid t rel : String) :
    ∀ (l : List (List String × ℚ)) (st : SysState),
      (extractGroup mid t rel l st).mems = st.mems
  | [], _ => rfl
  | (ms, conf) :: rest, st => by
      rw [extractGroup, extractGroup_mems mid t rel rest]
      exact foldl_mems_eq _ (fun s x => addEntityAndRel_mems s mid t x rel conf) _ st

/-- Claim C9, counterexample: an extracted name of length exactly 5 is
rejected (the code requires len(name) > 5), while the claim says names of
length 5 to 50 are accepted. -/
theorem c9_length_five_counterexample :
    "abcde".length = 5 ∧ acceptName "abcde" = none ∧ processMatches ["abcde"] = [] := by
  decide

/-- Claim C9, amended: every extracted goal/blocker/pattern name is the
match stripped and truncated to at most 50 characters, and it is kept
only when the result is LONGER than 5 characters (lengths 6..50 accepted,
length 5 rejected); at most the first two findall matches per regex are
processed; and the result of remember's auto-extraction is independent of
the pattern-regex matches unless the stored memory row has type solution
or pattern. -/
theorem c9_auto_extract_amended :
    (∀ ms : List String, (processMatches ms).length ≤ 2) ∧
    (∀ (ms : List String) (n : String), n ∈ processMatches ms →
      6 ≤ n.length ∧ n.length ≤ 50) ∧
    (∀ (st : SysState) (id content : String) (ex : ExtractOracle)
        (pm : List (List String)),
      (∀ r, lookupL st.mems id = some r →
        r.memory_type ∉ (["solution", "pattern"] : List String)) →
      autoExtract st id content ex =
        autoExtract st id content { ex with patternMatches := pm }) := by
  refine ⟨?_, ?_, ?_⟩
  · intro ms
    calc (processMatches ms).length ≤ (ms.take 2).length := List.length_filterMap_le _ _
      _ ≤ 2 := by
          rw [List.length_take]
          exact min_le_left _ _
  · intro ms n hn
    unfold processMatches at hn
    rcases List.mem_filterMap.mp hn with ⟨m, _, hacc⟩
    unfold acceptName at hacc
    by_cases hlen : (strTake (strTrim m) 50).length > 5
    · rw [if_pos hlen] at hacc
      cases hacc
      constructor
      · exact hlen
      · show (strTake (strTrim m) 50).data.length ≤ 50
        unfold strTake
        simp
    · rw [if_neg hlen] at hacc
      cases hacc
  · intro st id content ex pm hty
    unfold autoExtract
    have hm1 : (extractGroup id "goal" "motivated_by"
        (zipMatches ex.goalMatches goalPatternConfs) st).mems = st.mems :=
      extractGroup_mems _ _ _ _ _
    have hm2 : (extractGroup id "blocker" "blocked_by"
        (zipMatches ex.blockerMatches blockerPatternConfs)
        (extractGroup id "goal" "motivated_by"
          (zipMatches ex.goalMatches goalPatternConfs) st)).mems = st.mems := by
      rw [extractGroup_mems, hm1]
    rcases h : lookupL (extractGroup id "blocker" "blocked_by"
        (zipMatches ex.blockerMatches blockerPatternConfs)
        (extractGroup id "goal" "motivated_by"
          (zipMatches ex.goalMatches goalPatternConfs) st)).mems id with _ | r
    · simp only [h]
    · rw [hm2] at h
      have hns := hty r h
      simp only [hm2, h]
      rw [if_neg hns, if_neg hns]

/-- Witness for claim C9 at a concrete input: a 6-character name passes
the gate, and on a fact-typed memory the extraction ignores the
pattern-regex matches. -/
theorem c9_auto_extract_amended_witness :
    (("abcdef" ∈ processMatches ["abcdef"]) ∧
      (∀ r, lookupL c9State.mems "m" = some r →
        r.memory_type ∉ (["solution", "pattern"] : List String))) ∧
    (6 ≤ "abcdef".length ∧ "abcdef".length ≤ 50) ∧
    autoExtract c9State "m" "x" c9ex =
      autoExtract c9State "m" "x" { c9ex with patternMatches := [] } := by
  have hm : "abcdef" ∈ processMatches ["abcdef"] := by decide
  have hty : ∀ r, lookupL c9State.mems "m" = some r →
      r.memory_type ∉ (["solution", "pattern"] : List String) := by
    intro r hr
    have hr2 : r = c9Row := by
      simp [c9State, lookupL] at hr
      exact hr.symm
    rw [hr2]
    decide
  exact ⟨⟨hm, hty⟩, c9_auto_extract_amended.2.1 ["abcdef"] "abcdef" hm,
    c9_auto_extract_amended.2.2 c9State "m" "x" c9ex [] hty⟩

lemma wf_nodesEq {g g' : Graph} (h : g'.nodes = g.nodes) :
    GraphWF g → GraphWF g' := by
  intro hw
  unfold GraphWF
  rw [h]
  exact hw

lemma wf_addNode {g : Graph} {id : String} {n : GNode} (hok : entityIdOk id n) :
    GraphWF g → GraphWF (g.addNode id n) := by
  rintro ⟨h1, h2⟩
  unfold Graph.addNode
  by_cases hh : g.hasNode id
  · rw [if_pos hh]
    constructor
    · have hkeys : (g.nodes.map (fun p => if p.1 = id then (id, n) else p)).map Prod.fst =
          g.nodes.map Prod.fst := by
        rw [List.map_map]
        apply List.map_congr_left
        intro p _
        by_cases hpi : p.1 = id <;> simp [hpi]
      rw [hkeys]
      exact h1
    · intro p hp
      rcases List.mem_map.mp hp with ⟨q, hq, hqe⟩
      by_cases hqi : q.1 = id
      · rw [if_pos hqi] at hqe
        rw [← hqe]
        exact hok
      · rw [if_neg hqi] at hqe
        rw [← hqe]
        exact h2 q hq
  · rw [if_neg hh]
    constructor
    · rw [List.map_append]
      have hidnot : id ∉ g.nodes.map Prod.fst := by
        rw [← lookupL_eq_none_iff]
        unfold Graph.hasNode at hh
        rcases hx : lookupL g.nodes id with _ | v
        · rfl
        · rw [hx] at hh
          simp at hh
      simp only [List.map_cons, List.map_nil]
      rw [List.nodup_append]
      refine ⟨h1, List.nodup_singleton _, ?_⟩
      intro x hx hx1
      rcases List.mem_singleton.mp hx1 with rfl
      exact hidnot hx
    · intro p hp
      rcases List.mem_append.mp hp with hp | hp
      · exact h2 p hp
      · rcases List.mem_singleton.mp hp with rfl
        exact hok

lemma entityIdOk_memory (id : String) (m : GMemNode) :
    entityIdOk id (.memory m) := by
  intro e he
  cases he

lemma entityIdOk_entityMk (t n status : String) (pr d : Option String) :
    entityIdOk (makeEntityId t n) (.entity ⟨t, n, status, pr, d⟩) := by
  intro e he
  cases he
  rfl

lemma wf_addEdge (g : Graph) (s t : String) (a : EdgeAttrs) :
    GraphWF g → GraphWF (g.addEdge s t a) := by
  apply wf_nodesEq
  unfold Graph.addEdge
  split <;> rfl

lemma wf_mapUpdate {g : Graph} (i : String) (T : GNode → GNode)
    (hT : ∀ id n, entityIdOk id n → entityIdOk id (T n)) :
    GraphWF g →
    GraphWF { g with nodes := g.nodes.map (fun p => if p.1 = i then (i, T p.2) else p) } := by
  rintro ⟨h1, h2⟩
  constructor
  · have hkeys : (g.nodes.map (fun p => if p.1 = i then (i, T p.2) else p)).map Prod.fst =
        g.nodes.map Prod.fst := by
      rw [List.map_map]
      apply List.map_congr_left
      intro p _
      by_cases hpi : p.1 = i <;> simp [hpi]
    rw [hkeys]
    exact h1
  · intro p hp
    rcases List.mem_map.mp hp with ⟨q, hq, hqe⟩
    by_cases hqi : q.1 = i
    · rw [if_pos hqi] at hqe
      rw [← hqe]
      rw [← hqi]
      exact hT q.1 q.2 (h2 q hq)
    · rw [if_neg hqi] at hqe
      rw [← hqe]
      exact h2 q hq

lemma entityIdOk_setStatus (s : String) :
    ∀ id n, entityIdOk id n → entityIdOk id (setStatus n s) := by
  intro id n hok e he
  cases n with
  | memory m => simp [setStatus] at he
  | entity e0 =>
      simp only [setStatus] at he
      injection he with h2
      rw [← h2]
      simpa using hok e0 rfl

lemma entityIdOk_validatedNode (now : ℕ) :
    ∀ id n, entityIdOk id n → entityIdOk id (validatedNode now n) := by
  intro id n hok e he
  cases n with
  | memory m => simp [validatedNode] at he
  | entity e0 =>
      simp only [validatedNode] at he
      injection he with h2
      rw [← h2]
      simpa using hok e0 rfl

lemma wf_updateMemoryStatus (g : Graph) (id status : String) :
    GraphWF g → GraphWF (g.updateMemoryStatus id status) := by
  intro hw
  unfold Graph.updateMemoryStatus
  by_cases hh : g.hasNode id
  · rw [if_pos hh]
    exact wf_mapUpdate id (fun n => setStatus n status) (entityIdOk_setStatus status) hw
  · rw [if_neg hh]
    exact hw

lemma wf_validateMemory (g : Graph) (id : String) (now : ℕ) :
    GraphWF g → GraphWF (g.validateMemory id now) := by
  intro hw
  unfold Graph.validateMemory
  exact wf_mapUpdate id (validatedNode now) (entityIdOk_validatedNode now) hw

lemma wf_removeNode (g : Graph) (id : String) :
    GraphWF g → GraphWF (g.removeNode id) := by
  rintro ⟨h1, h2⟩
  constructor
  · exact h1.sublist (List.Sublist.map _ (List.filter_sublist _))
  · intro p hp
    exact h2 p (List.mem_of_mem_filter hp)

lemma wf_addEntity (g : Graph) (t n status : String) (pr d : Option String) :
    GraphWF g → GraphWF (g.addEntity t n status pr d).1 := by
  intro hw
  unfold Graph.addEntity
  exact wf_addNode (entityIdOk_entityMk t n status pr d) hw

lemma wf_addMentions (mid : String) :
    ∀ (ents : List (String × String)) (g : Graph),
      GraphWF g → GraphWF (addMentions mid g ents)
  | [], _, hw => hw
  | (t, n) :: rest, g, hw => by
      rw [addMentions]
      apply wf_addMentions mid rest
      apply wf_addEdge
      by_cases hh : g.hasNode (makeEntityId t n)
      · rw [if_pos hh]
        exact hw
      · rw [if_neg hh]
        exact wf_addNode (entityIdOk_entityMk t n "active" none none) hw

lemma wf_addMemory (g : Graph) (mid content mtype : String)
    (project source_role : Option String) (status : String) (conf : ℚ)
    (impact : String) (eh ph : List String) :
    GraphWF g →
    GraphWF (g.addMemory mid content mtype project source_role status conf impact eh ph) := by
  intro hw
  unfold Graph.addMemory
  apply wf_addMentions
  exact wf_addNode (entityIdOk_memory mid _) hw

lemma wf_addRelationship (g : Graph) (src dst rel : String) (s c : ℚ)
    (cb : String) (ev : Option String) (b : Bool) :
    GraphWF g → GraphWF (g.addRelationship src dst rel s c cb ev b).1 := by
  intro hw
  unfold Graph.addRelationship
  split
  · exact hw
  · split
    · exact hw
    · show GraphWF (if b = true then
          (match reverseRelation rel with
           | some rrel => (g.addEdge src dst ⟨rel, s, c, cb, ev, b⟩).addEdge dst src
               ⟨rrel, s, c, cb, ev, true⟩
           | none => g.addEdge src dst ⟨rel, s, c, cb, ev, b⟩)
        else g.addEdge src dst ⟨rel, s, c, cb, ev, b⟩)
      split
      · rcases hr : reverseRelation rel with _ | rrel
        · simp only [hr]
          exact wf_addEdge _ _ _ _ hw
        · simp only [hr]
          exact wf_addEdge _ _ _ _ (wf_addEdge _ _ _ _ hw)
      · exact wf_addEdge _ _ _ _ hw

lemma wf_supersede (g : Graph) (newId oldId : String) :
    GraphWF g → GraphWF (g.supersede newId oldId) := by
  intro hw
  unfold Graph.supersede
  exact wf_updateMemoryStatus _ _ _ (wf_addRelationship _ _ _ _ _ _ _ _ _ hw)

lemma foldl_pres {σ α : Type} (P : σ → Prop) (f : σ → α → σ)
    (h : ∀ s x, P s → P (f s x)) :
    ∀ (l : List α) (s : σ), P s → P (l.foldl f s) := by
  intro l
  induction l with
  | nil => intro s hs; exact hs
  | cons x xs ih =>
      intro s hs
      rw [List.foldl_cons]
      exact ih _ (h s x hs)

lemma wf_storeAddEntity (st : SysState) (t n s : String) (p d : Option String) :
    GraphWF st.graph → GraphWF (storeAddEntity st t n s p d).1.graph := by
  intro hw
  unfold storeAddEntity
  split
  · exact wf_addEntity _ _ _ _ _ _ hw
  · exact hw

lemma wf_storeAddRelationship (st : SysState) (src dst rel : String)
    (strength conf : ℚ) (ev : Option String) :
    GraphWF st.graph → GraphWF (storeAddRelationship st src dst rel strength conf ev).1.graph := by
  intro hw
  unfold storeAddRelationship
  split
  · exact wf_addRelationship _ _ _ _ _ _ _ _ _ hw
  · exact hw

lemma wf_addEntityAndRel (st : SysState) (mid t n rel : String) (c : ℚ) :
    GraphWF st.graph → GraphWF (addEntityAndRel st mid t n rel c).graph := by
  intro hw
  unfold addEntityAndRel
  rcases h : storeAddEntity st t n "active" none none with ⟨st1, eidOpt⟩
  have h1 : GraphWF st1.graph := by
    have := wf_storeAddEntity st t n "active" none none hw
    rw [h] at this
    exact this
  cases eidOpt with
  | none => exact h1
  | some eid =>
      by_cases he : eid.isEmpty
      · simp only [he, if_true]
        exact h1
      · simp only [he, Bool.false_eq_true, if_false, if_neg]
        exact wf_storeAddRelationship _ _ _ _ _ _ _ h1

lemma wf_extractGroup (mid t rel : String) :
    ∀ (l : List (List String × ℚ)) (st : SysState),
      GraphWF st.graph → GraphWF (extractGroup mid t rel l st).graph
  | [], _, hw => hw
  | (ms, conf) :: rest, st, hw => by
      rw [extractGroup]
      apply wf_extractGroup mid t rel rest
      exact foldl_pres (fun s => GraphWF s.graph) _
        (fun s x hs => wf_addEntityAndRel s mid t x rel conf hs) _ st hw

lemma wf_tryEntityTypes (mid target rel : String) :
    ∀ (ts : List String) (st : SysState),
      GraphWF st.graph → GraphWF (tryEntityTypes mid target rel ts st).graph
  | [], _, hw => hw
  | t :: rest, st, hw => by
      rw [tryEntityTypes]
      split
      · exact wf_storeAddRelationship _ _ _ _ _ _ _ hw
      · exact wf_tryEntityTypes mid target rel rest st hw

lemma wf_relScan (mid cl : String) (rt : String → List String) (st : SysState) :
    GraphWF st.graph → GraphWF (relScan mid cl rt st).graph := by
  intro hw
  unfold relScan
  apply foldl_pres (fun s => GraphWF s.graph) _ _ _ st hw
  intro s kw hs
  by_cases hsub : substr kw.1 cl = true
  · simp only [hsub, if_true]
    rcases h : (rt kw.1).take 1 with _ | ⟨m, tail⟩
    · exact hs
    · show GraphWF (if (strTake (strTrim m) 50).length > 3 then
          tryEntityTypes mid (strTake (strTrim m) 50) kw.2
            ["goal", "blocker", "pattern", "tool", "concept"] s
        else s).graph
      split
      · exact wf_tryEntityTypes _ _ _ _ _ hs
      · exact hs
  · simp only [hsub, Bool.false_eq_true, if_false, if_neg]
    exact hs

lemma wf_autoExtract (st : SysState) (mid content : String) (ex : ExtractOracle) :
    GraphWF st.graph → GraphWF (autoExtract st mid content ex).graph := by
  intro hw
  unfold autoExtract
  apply wf_relScan
  have h1 := wf_extractGroup mid "goal" "motivated_by"
    (zipMatches ex.goalMatches goalPatternConfs) st hw
  have h2 := wf_extractGroup mid "blocker" "blocked_by"
    (zipMatches ex.blockerMatches blockerPatternConfs) _ h1
  split
  · split
    · exact wf_extractGroup _ _ _ _ _ h2
    · exact h2
  · exact h2

lemma wf_recallLoop (score : ScoreIn → ℚ) (a : RecallArgs) (kw : List String)
    (now : ℕ) :
    ∀ (vr : List (String × ℚ)) (st : SysState),
      GraphWF st.graph → GraphWF (recallLoop score a kw now vr st).1.graph
  | [], _, hw => hw
  | (i, d) :: rest, st, hw => by
      rw [recallLoop]
      rcases h : lookupL st.mems i with _ | row
      · exact wf_recallLoop score a kw now rest st hw
      · apply wf_recallLoop score a kw now rest
        show GraphWF (if decide (row.surface_count + 1 ≥ 5) && !row.validated then
            st.graph.validateMemory i now else st.graph)
        split
        · exact wf_validateMemory _ _ _ hw
        · exact hw

lemma graph_foldl_eq {α : Type} (f : SysState → α → SysState)
    (h : ∀ s x, (f s x).graph = s.graph) :
    ∀ (l : List α) (s : SysState), (l.foldl f s).graph = s.graph := by
  intro l
  induction l with
  | nil => intro s; rfl
  | cons x xs ih =>
      intro s
      rw [List.foldl_cons, ih, h]

lemma supersedePhase1_graph (c : String) (delOk : String → Bool) (st : SysState)
    (olds : List String) : (supersedePhase1 c delOk st olds).graph = st.graph := by
  unfold supersedePhase1
  apply graph_foldl_eq
  intro s x
  rfl

lemma patchSupersededBy_graph (nid : String) (st : SysState) (olds : List String) :
    (patchSupersededBy nid st olds).graph = st.graph := by
  unfold patchSupersededBy
  apply graph_foldl_eq
  intro s x
  rfl

lemma wf_rememberWrite (st : SysState) (a : RememberArgs) (e ad : Bool)
    (delOk : String → Bool) (nid : String) (now : ℕ) (ex : ExtractOracle) :
    GraphWF st.graph → GraphWF (rememberWrite st a e ad delOk nid now ex).1.graph := by
  intro hw
  unfold rememberWrite
  split
  · have h2 : GraphWF (supersedePhase1 a.content delOk st a.supersede).graph := by
      rw [supersedePhase1_graph]
      exact hw
    split
    · exact h2
    · split
      · exact h2
      · apply wf_autoExtract
        apply foldl_pres (fun g : Graph => GraphWF g)
          (fun g old => Graph.supersede g nid old)
          (fun g old hg => wf_supersede g nid old hg)
        exact wf_addMemory _ _ _ _ _ _ _ _ _ _ _ h2
  · have h2 : GraphWF (patchSupersededBy nid
        (supersedePhase1 a.content delOk st a.supersede) a.supersede).graph := by
      rw [patchSupersededBy_graph, supersedePhase1_graph]
      exact hw
    split
    · exact h2
    · split
      · exact h2
      · apply wf_autoExtract
        apply foldl_pres (fun g : Graph => GraphWF g)
          (fun g old => Graph.supersede g nid old)
          (fun g old hg => wf_supersede g nid old hg)
        exact wf_addMemory _ _ _ _ _ _ _ _ _ _ _ h2

lemma wf_remember (st : SysState) (a : RememberArgs) (score : ScoreIn → ℚ)
    (cv : List (String × ℚ)) (e ad : Bool) (delOk : String → Bool)
    (nid : String) (now : ℕ) (ex : ExtractOracle) :
    GraphWF st.graph → GraphWF (remember st a score cv e ad delOk nid now ex).1.graph := by
  intro hw
  unfold remember
  split
  · have hs : GraphWF (checkContradictions st a.content a.project score cv now).1.graph := by
      unfold checkContradictions
      exact wf_recallLoop _ _ _ _ _ _ hw
    dsimp only
    split
    · exact hs
    · exact wf_rememberWrite _ _ _ _ _ _ _ _ hs
  · dsimp only
    split
    · exact hw
    · exact wf_rememberWrite _ _ _ _ _ _ _ _ hw

lemma wf_updateMemoryOp (st : SysState) (id : String) (c t : Option String)
    (i : Option ℚ) : GraphWF st.graph → GraphWF (updateMemoryOp st id c t i).1.graph := by
  intro hw
  unfold updateMemoryOp
  split
  · exact hw
  · dsimp only
    split
    · split
      · exact hw
      · exact hw
    · exact hw

lemma wf_deleteMemoryOp (st : SysState) (id : String) (dv : Bool) :
    GraphWF st.graph → GraphWF (deleteMemoryOp st id dv).1.graph := by
  intro hw
  unfold deleteMemoryOp
  dsimp only
  split
  · exact wf_removeNode _ _ hw
  · exact hw

lemma wf_consolidateOp (st : SysState) (ids : List String) (c t : String) (imp : ℚ)
    (score : ScoreIn → ℚ) (e ad : Bool) (delOk : String → Bool) (nid : String)
    (now : ℕ) (ex : ExtractOracle) :
    GraphWF st.graph →
    GraphWF (consolidateOp st ids c t imp score e ad delOk nid now ex).1.graph := by
  intro hw
  unfold consolidateOp
  dsimp only
  have hrem := wf_remember st ⟨c, t, imp,
    (ids.head?.bind (fun i => lookupL st.mems i)).bind (fun r => r.project),
    none, false, []⟩ score [] e ad delOk nid now ex hw
  rcases h : remember st ⟨c, t, imp,
      (ids.head?.bind (fun i => lookupL st.mems i)).bind (fun r => r.project),
      none, false, []⟩ score [] e ad delOk nid now ex with ⟨st1, out⟩
  rw [h] at hrem
  cases out with
  | stored nid2 =>
      dsimp only
      exact foldl_pres (fun s : SysState => GraphWF s.graph)
        (fun s i =>
          { s with
            mems := updateMem s.mems i (fun r => { r with consolidated_into := some nid2 }),
            vec := if delOk i then s.vec.filter (fun p => decide (p.1 ≠ i)) else s.vec })
        (fun s x hs => hs) ids st1 hrem
  | conflictsFound cs => exact hrem
  | embedFailed => exact hrem
  | vectorAddFailed => exact hrem

/-- Graph well-formedness is preserved by every engine operation. -/
lemma wf_step (st : SysState) (op : Op) :
    GraphWF st.graph → GraphWF (step st op).graph := by
  intro hw
  cases op with
  | rememberOp a score cv e ad d nid now ex => exact wf_remember _ _ _ _ _ _ _ _ _ _ hw
  | recallCall a score vr now =>
      show GraphWF (recallOp st a score vr now).1.graph
      rw [recallOp_state]
      exact wf_recallLoop _ _ _ _ _ _ hw
  | updateCall id c t i => exact wf_updateMemoryOp _ _ _ _ _ hw
  | deleteCall id dv => exact wf_deleteMemoryOp _ _ _ hw
  | consolidateCall ids c t imp score e ad d nid now ex =>
      exact wf_consolidateOp _ _ _ _ _ _ _ _ _ _ _ _ hw
  | validateCall id now => exact wf_validateMemory _ _ _ hw
  | addEntityCall t n s p d => exact wf_storeAddEntity _ _ _ _ _ _ hw
  | addRelationshipCall s d r str c ev => exact wf_storeAddRelationship _ _ _ _ _ _ _ hw

/- ## C4: entity id construction -/

lemma nodup_keys_eq_of_mem {β : Type} :
    ∀ {l : List (String × β)}, (l.map Prod.fst).Nodup →
      ∀ {p q : String × β}, p ∈ l → q ∈ l → p.1 = q.1 → p = q := by
  intro l
  induction l with
  | nil =>
      intro _ p q hp _ _
      cases hp
  | cons x rest ih =>
      intro hn p q hp hq hk
      simp only [List.map_cons, List.nodup_cons] at hn
      rcases List.mem_cons.mp hp with hp1 | hp2
      · rcases List.mem_cons.mp hq with hq1 | hq2
        · rw [hp1, hq1]
        · exfalso
          apply hn.1
          subst hp1
          rw [hk]
          exact List.mem_map_of_mem Prod.fst hq2
      · rcases List.mem_cons.mp hq with hq1 | hq2
        · exfalso
          apply hn.1
          subst hq1
          rw [← hk]
          exact List.mem_map_of_mem Prod.fst hp2
        · exact ih hn.2 hp2 hq2 hk

lemma addNode_map_keys (g : Graph) (id : String) (n : GNode) :
    (g.nodes.map (fun p => if p.1 = id then (id, n) else p)).map Prod.fst =
      g.nodes.map Prod.fst := by
  rw [List.map_map]
  apply List.map_congr_left
  intro p _
  by_cases hpi : p.1 = id <;> simp [hpi]

lemma hasNode_addNode (g : Graph) (id : String) (n : GNode) :
    (g.addNode id n).hasNode id = true := by
  unfold Graph.addNode
  by_cases h : g.hasNode id
  · rw [if_pos h]
    unfold Graph.hasNode
    dsimp only
    rw [lookupL_isSome_iff, addNode_map_keys]
    unfold Graph.hasNode at h
    rw [lookupL_isSome_iff] at h
    exact h
  · rw [if_neg h]
    unfold Graph.hasNode
    dsimp only
    rw [lookupL_isSome_iff, List.map_append]
    simp

lemma addNode_keys_of_hasNode (g : Graph) (id : String) (n : GNode)
    (h : g.hasNode id = true) :
    (g.addNode id n).nodes.map Prod.fst = g.nodes.map Prod.fst := by
  unfold Graph.addNode
  rw [if_pos h]
  dsimp only
  exact addNode_map_keys g id n

/-- C4 counterexample: _make_entity_id lowercases the name but does NOT
normalize spaces to underscores, so add_entity("goal", "ship MVP")
returns "entity:goal:ship mvp", not the claimed "entity:goal:ship_mvp". -/
theorem c4_underscore_counterexample :
    makeEntityId "goal" "ship MVP" = "entity:goal:ship mvp"
    ∧ makeEntityId "goal" "ship MVP" ≠ "entity:goal:ship_mvp"
    ∧ (storeAddEntity (SysState.mk [] [] [] (Graph.mk [] []))
        "goal" "ship MVP" "active" none none).2 = some "entity:goal:ship mvp" := by
  refine ⟨by decide, by decide, by decide⟩

/-- C4 amended: the id built by add_entity (and by the auto-extraction
path, which funnels through the same makeEntityId) is
"entity:" ++ type ++ ":" ++ lowercased name with spaces preserved; the
construction is deterministic and a second add_entity with the same pair
replaces the node in place (the key set does not grow); and in a
well-formed graph no two distinct entity nodes agree on
(entity_type, lowercased name). -/
theorem c4_entity_id_amended (T N status : String) (pr d : Option String)
    (g : Graph) (hg : GraphWF g) :
    makeEntityId T N = "entity:" ++ T ++ ":" ++ strLower N
    ∧ (g.addEntity T N status pr d).2 = makeEntityId T N
    ∧ ((g.addEntity T N status pr d).1.addEntity T N status pr d).2
        = (g.addEntity T N status pr d).2
    ∧ ((g.addEntity T N status pr d).1.addEntity T N status pr d).1.nodes.map Prod.fst
        = (g.addEntity T N status pr d).1.nodes.map Prod.fst
    ∧ (∀ p₁ ∈ g.nodes, ∀ p₂ ∈ g.nodes, ∀ e₁ e₂ : GEntityNode,
        p₁.2 = GNode.entity e₁ → p₂.2 = GNode.entity e₂ →
        e₁.entity_type = e₂.entity_type → strLower e₁.name = strLower e₂.name →
        p₁ = p₂) := by
  refine ⟨rfl, rfl, rfl, ?_, ?_⟩
  · exact addNode_keys_of_hasNode _ _ _ (hasNode_addNode g _ _)
  · intro p₁ hp₁ p₂ hp₂ e₁ e₂ he₁ he₂ ht hn
    have h₁ := hg.2 p₁ hp₁ e₁ he₁
    have h₂ := hg.2 p₂ hp₂ e₂ he₂
    apply nodup_keys_eq_of_mem hg.1 hp₁ hp₂
    rw [h₁, h₂]
    unfold makeEntityId
    rw [ht, hn]

theorem c4_entity_id_amended_witness :
    GraphWF (Graph.mk [] [])
    ∧ (makeEntityId "goal" "ship MVP" = "entity:" ++ "goal" ++ ":" ++ strLower "ship MVP"
    ∧ ((Graph.mk [] []).addEntity "goal" "ship MVP" "active" none none).2
        = makeEntityId "goal" "ship MVP"
    ∧ (((Graph.mk [] []).addEntity "goal" "ship MVP" "active" none none).1.addEntity
        "goal" "ship MVP" "active" none none).2
        = ((Graph.mk [] []).addEntity "goal" "ship MVP" "active" none none).2
    ∧ (((Graph.mk [] []).addEntity "goal" "ship MVP" "active" none none).1.addEntity
        "goal" "ship MVP" "active" none none).1.nodes.map Prod.fst
        = ((Graph.mk [] []).addEntity "goal" "ship MVP" "active" none none).1.nodes.map Prod.fst
    ∧ (∀ p₁ ∈ (Graph.mk [] []).nodes, ∀ p₂ ∈ (Graph.mk [] []).nodes,
        ∀ e₁ e₂ : GEntityNode,
        p₁.2 = GNode.entity e₁ → p₂.2 = GNode.entity e₂ →
        e₁.entity_type = e₂.entity_type → strLower e₁.name = strLower e₂.name →
        p₁ = p₂)) := by
  have hg : GraphWF (Graph.mk [] []) := ⟨List.nodup_nil, by intro p hp; cases hp⟩
  exact ⟨hg, c4_entity_id_amended "goal" "ship MVP" "active" none none (Graph.mk [] []) hg⟩

/- ## C5: conflicts-found remember still writes counters -/

/-- The recall loop never adds or removes graph nodes (validate_memory
rewrites a node in place). -/
lemma recallLoop_graph_node_keys (score : ScoreIn → ℚ) (a : RecallArgs)
    (kw : List String) (now : ℕ) :
    ∀ (vr : List (String × ℚ)) (st : SysState),
      (recallLoop score a kw now vr st).1.graph.nodes.map Prod.fst =
        st.graph.nodes.map Prod.fst
  | [], _ => rfl
  | (i, d) :: rest, st => by
      rw [recallLoop]
      rcases h : lookupL st.mems i with _ | row
      · exact recallLoop_graph_node_keys score a kw now rest st
      · rw [recallLoop_graph_node_keys score a kw now rest _]
        show (if decide (row.surface_count + 1 ≥ 5) && !row.validated then
            st.graph.validateMemory i now else st.graph).nodes.map Prod.fst =
          st.graph.nodes.map Prod.fst
        split
        · unfold Graph.validateMemory
          dsimp only
          rw [List.map_map]
          apply List.map_congr_left
          intro p _
          by_cases hpi : p.1 = i <;> simp [hpi]
        · rfl

set_option maxHeartbeats 1600000 in
/-- C5 counterexample: with check_conflicts=true and a flipped-signal
conflict (always/never on the same content), remember returns the
conflicts payload, yet the scan has already incremented access_count and
surface_count, stamped accessed_at and appended an access-log row for the
conflicting memory. -/
theorem c5_scan_writes_counterexample :
    ((remember c5State c5Args (fun _ => 1) [("m1", 0)] true true (fun _ => true)
        "m2" 7 c5ex).2).isConflictsFound = true
    ∧ (lookupL (remember c5State c5Args (fun _ => 1) [("m1", 0)] true true (fun _ => true)
        "m2" 7 c5ex).1.mems "m1").map
        (fun r => (r.access_count, r.surface_count, r.accessed_at)) = some (1, 1, some 7)
    ∧ (remember c5State c5Args (fun _ => 1) [("m1", 0)] true true (fun _ => true)
        "m2" 7 c5ex).1.log.length = 1
    ∧ (lookupL c5State.mems "m1").map (fun r => r.access_count) = some 0
    ∧ c5State.log.length = 0 := by
  refine ⟨?_, ?_, ?_, by decide, by decide⟩ <;>
    norm_num +decide [remember, checkContradictions, recallOp, recallLoop,
      c5State, c5Args, c5Row, c5ex, mkRecallResult, lookupL, updateMem, touchRow,
      roleAffinityQ, keywordBoostQ, countKeywordMatches, truthyStr, extractKeywords,
      tokenize, tokenizeAux, strLower, stopwords, conflictFor, findSignalConflict,
      contradictionSignals, substr, infixB, RememberOut.isConflictsFound,
      recallSort, postFilterTypes, List.insertionSort, List.orderedInsert, relGe]

/-- C5 amended: when check_conflicts is true and the contradiction scan
finds a conflict, remember returns the conflicts payload and creates
nothing new (no record row, no vector entry, no graph node or edge), but
the scan itself has already written: every scanned id with a row has its
access_count, surface_count and accessed_at updated and an access-log row
appended, because check_contradictions calls recall. -/
theorem c5_conflicts_found_amended (st : SysState) (a : RememberArgs)
    (score : ScoreIn → ℚ) (cv : List (String × ℚ)) (e ad : Bool)
    (delOk : String → Bool) (nid : String) (now : ℕ) (ex : ExtractOracle)
    (hc : a.check_conflicts = true)
    (hnd : (cv.map Prod.fst).Nodup)
    (hne : (checkContradictions st a.content a.project score cv now).2 ≠ []) :
    (remember st a score cv e ad delOk nid now ex).2 =
      RememberOut.conflictsFound (checkContradictions st a.content a.project score cv now).2
    ∧ (remember st a score cv e ad delOk nid now ex).1.vec = st.vec
    ∧ (remember st a score cv e ad delOk nid now ex).1.graph.edges = st.graph.edges
    ∧ (remember st a score cv e ad delOk nid now ex).1.graph.nodes.map Prod.fst
        = st.graph.nodes.map Prod.fst
    ∧ (∀ id, lookupL (remember st a score cv e ad delOk nid now ex).1.mems id =
        if id ∈ cv.map Prod.fst then (lookupL st.mems id).map (fun r => touchRow r now)
        else lookupL st.mems id)
    ∧ (∃ tail, (remember st a score cv e ad delOk nid now ex).1.log = st.log ++ tail ∧
        tail.length = (cv.filter (fun q => (lookupL st.mems q.1).isSome)).length) := by
  have hR : remember st a score cv e ad delOk nid now ex =
      ((checkContradictions st a.content a.project score cv now).1,
       RememberOut.conflictsFound
         (checkContradictions st a.content a.project score cv now).2) := by
    unfold remember
    dsimp only
    rw [hc]
    rcases hcc : (checkContradictions st a.content a.project score cv now).2 with _ | ⟨x, xs⟩
    · exact absurd hcc hne
    · simp [hcc]
  have hS : (checkContradictions st a.content a.project score cv now).1 =
      (recallLoop score ⟨a.content, 10, a.project, none, none, true⟩
        (extractKeywords a.content) now cv st).1 := by
    unfold checkContradictions
    dsimp only
    rw [recallOp_state]
    rfl
  refine ⟨by rw [hR], ?_, ?_, ?_, ?_, ?_⟩
  · rw [hR]
    show (checkContradictions st a.content a.project score cv now).1.vec = st.vec
    rw [hS]
    exact recallLoop_vec _ _ _ _ _ _
  · rw [hR]
    show (checkContradictions st a.content a.project score cv now).1.graph.edges =
      st.graph.edges
    rw [hS]
    exact recallLoop_graph_edges _ _ _ _ _ _
  · rw [hR]
    show (checkContradictions st a.content a.project score cv now).1.graph.nodes.map
        Prod.fst = st.graph.nodes.map Prod.fst
    rw [hS]
    exact recallLoop_graph_node_keys _ _ _ _ _ _
  · intro id
    rw [hR]
    show lookupL (checkContradictions st a.content a.project score cv now).1.mems id = _
    rw [hS]
    exact recallLoop_mems _ _ _ _ _ _ hnd id
  · rw [hR]
    show ∃ tail, (checkContradictions st a.content a.project score cv now).1.log =
      st.log ++ tail ∧ _
    rw [hS]
    exact recallLoop_log _ _ _ _ _ _

set_option maxHeartbeats 1600000 in
theorem c5_conflicts_found_amended_witness :
    (c5Args.check_conflicts = true
     ∧ (([("m1", (0:ℚ))].map Prod.fst).Nodup)
     ∧ (checkContradictions c5State c5Args.content c5Args.project (fun _ => 1)
          [("m1", 0)] 7).2 ≠ [])
    ∧ (remember c5State c5Args (fun _ => 1) [("m1", 0)] true true (fun _ => true)
        "m2" 7 c5ex).2 =
      RememberOut.conflictsFound
        (checkContradictions c5State c5Args.content c5Args.project (fun _ => 1)
          [("m1", 0)] 7).2 := by
  have hc : c5Args.check_conflicts = true := rfl
  have hnd : (([("m1", (0:ℚ))].map Prod.fst)).Nodup := by decide
  have hne : (checkContradictions c5State c5Args.content c5Args.project (fun _ => 1)
      [("m1", 0)] 7).2 ≠ [] := by
    norm_num +decide [checkContradictions, recallOp, recallLoop,
      c5State, c5Args, c5Row, mkRecallResult, lookupL, updateMem, touchRow,
      roleAffinityQ, keywordBoostQ, countKeywordMatches, truthyStr, extractKeywords,
      tokenize, tokenizeAux, strLower, stopwords, conflictFor, findSignalConflict,
      contradictionSignals, substr, infixB,
      recallSort, postFilterTypes, List.insertionSort, List.orderedInsert, relGe]
  exact ⟨⟨hc, hnd, hne⟩,
    (c5_conflicts_found_amended c5State c5Args (fun _ => 1) [("m1", 0)] true true
      (fun _ => true) "m2" 7 c5ex hc hnd hne).1⟩

/-- C6 counterexample: (a) when the ChromaDB add fails after the SQLite
insert, the new row REMAINS in the record store (no rollback); (b) when
the embedder fails on a superseding remember, writes have already
happened: the old id is gone from the vector index and its
superseded_by metadata is already patched to the new id. -/
theorem c6_no_rollback_counterexample :
    ((remember c6State c6ArgsA (fun _ => 1) [] true false (fun _ => true) "m2" 3 c6ex).2
        = RememberOut.vectorAddFailed
     ∧ (lookupL (remember c6State c6ArgsA (fun _ => 1) [] true false (fun _ => true)
          "m2" 3 c6ex).1.mems "m2").isSome = true)
    ∧ ((remember c6State c6ArgsB (fun _ => 1) [] false true (fun _ => true) "m2" 3 c6ex).2
        = RememberOut.embedFailed
     ∧ lookupL (remember c6State c6ArgsB (fun _ => 1) [] false true (fun _ => true)
          "m2" 3 c6ex).1.vec "m1" = none
     ∧ lookupL c6State.vec "m1" = some ⟨"fact", "", "", 1⟩
     ∧ (lookupL (remember c6State c6ArgsB (fun _ => 1) [] false true (fun _ => true)
          "m2" 3 c6ex).1.mems "m1").map (fun r => r.superseded_by)
          = some (some "m2")) := by
  refine ⟨⟨?_, ?_⟩, ?_, ?_, ?_, ?_⟩ <;>
    simp +decide [remember, rememberWrite, supersedePhase1, patchSupersededBy,
      c6State, c6ArgsA, c6ArgsB, c6Row, c6ex, lookupL, updateMem]

/-- C6 amended: there is no rollback.  With check_conflicts false: if the
embedder fails, the call returns embedFailed with exactly the
supersede-phase writes applied (metadata patched, vector entries of the
old ids deleted); if the vector add fails after the record insert, the
call returns vectorAddFailed and the new record row is still present,
appended to the post-supersede record store. -/
theorem c6_failure_states_amended (st : SysState) (a : RememberArgs)
    (score : ScoreIn → ℚ) (cv : List (String × ℚ)) (ad : Bool)
    (delOk : String → Bool) (nid : String) (now : ℕ) (ex : ExtractOracle)
    (hcf : a.check_conflicts = false) :
    remember st a score cv false ad delOk nid now ex =
      ((if a.supersede.isEmpty then supersedePhase1 a.content delOk st a.supersede
        else patchSupersededBy nid (supersedePhase1 a.content delOk st a.supersede)
          a.supersede), RememberOut.embedFailed)
    ∧ remember st a score cv true false delOk nid now ex =
      (⟨(if a.supersede.isEmpty then supersedePhase1 a.content delOk st a.supersede
         else patchSupersededBy nid (supersedePhase1 a.content delOk st a.supersede)
           a.supersede).mems ++
         [(nid, ⟨a.content, a.memory_type, a.project, a.source_role,
                 max 0 (min 1 a.importance), now, none, 0, 0, false, none, none⟩)],
        (if a.supersede.isEmpty then supersedePhase1 a.content delOk st a.supersede
         else patchSupersededBy nid (supersedePhase1 a.content delOk st a.supersede)
           a.supersede).log,
        (if a.supersede.isEmpty then supersedePhase1 a.content delOk st a.supersede
         else patchSupersededBy nid (supersedePhase1 a.content delOk st a.supersede)
           a.supersede).vec,
        (if a.supersede.isEmpty then supersedePhase1 a.content delOk st a.supersede
         else patchSupersededBy nid (supersedePhase1 a.content delOk st a.supersede)
           a.supersede).graph⟩,
       RememberOut.vectorAddFailed) := by
  constructor
  · unfold remember rememberWrite
    rw [hcf]
    rfl
  · unfold remember rememberWrite
    rw [hcf]
    rfl

theorem c6_failure_states_amended_witness :
    c6ArgsB.check_conflicts = false
    ∧ remember c6State c6ArgsB (fun _ => 1) [] false true (fun _ => true) "m2" 3 c6ex =
      ((if c6ArgsB.supersede.isEmpty then
          supersedePhase1 c6ArgsB.content (fun _ => true) c6State c6ArgsB.supersede
        else patchSupersededBy "m2"
          (supersedePhase1 c6ArgsB.content (fun _ => true) c6State c6ArgsB.supersede)
          c6ArgsB.supersede), RememberOut.embedFailed) :=
  ⟨rfl, (c6_failure_states_amended c6State c6ArgsB (fun _ => 1) [] true (fun _ => true)
      "m2" 3 c6ex rfl).1⟩

/- ## C8: validated transitions -/

lemma tryEntityTypes_mems (mid target rel : String) :
    ∀ (l : List String) (st : SysState),
      (tryEntityTypes mid target rel l st).mems = st.mems
  | [], _ => rfl
  | t :: rest, st => by
      rw [tryEntityTypes]
      split
      · rw [storeAddRelationship_mems]
      · exact tryEntityTypes_mems mid target rel rest st

lemma relScan_mems (mid cl : String) (rt : String → List String) (st : SysState) :
    (relScan mid cl rt st).mems = st.mems := by
  unfold relScan
  apply foldl_mems_eq
  intro s kw
  by_cases hsub : substr kw.1 cl = true
  · simp only [hsub, if_true]
    rcases h : (rt kw.1).take 1 with _ | ⟨m, tail⟩
    · rfl
    · show (if (strTake (strTrim m) 50).length > 3 then
          tryEntityTypes mid (strTake (strTrim m) 50) kw.2
            ["goal", "blocker", "pattern", "tool", "concept"] s
        else s).mems = s.mems
      split
      · exact tryEntityTypes_mems _ _ _ _ _
      · rfl
  · simp only [hsub, Bool.false_eq_true, if_false, if_neg]

lemma autoExtract_mems (st : SysState) (mid content : String) (ex : ExtractOracle) :
    (autoExtract st mid content ex).mems = st.mems := by
  unfold autoExtract
  dsimp only
  rw [relScan_mems]
  split
  · split
    · rw [extractGroup_mems, extractGroup_mems, extractGroup_mems]
    · rw [extractGroup_mems, extractGroup_mems]
  · rw [extractGroup_mems, extractGroup_mems]

lemma lookupL_filter_ne {β : Type} (d id : String) (hid : id ≠ d) :
    ∀ l : List (String × β),
      lookupL (l.filter (fun p => decide (p.1 ≠ d))) id = lookupL l id
  | [] => rfl
  | q :: rest => by
      rw [List.filter_cons]
      by_cases hq : q.1 = d
      · have : decide (q.1 ≠ d) = false := by simp [hq]
        rw [this]
        simp only [Bool.false_eq_true, if_neg, if_false]
        have hqid : ¬ q.1 = id := by
          rw [hq]
          exact fun hh => hid hh.symm
        rw [lookupL, if_neg hqid]
        exact lookupL_filter_ne d id hid rest
      · have : decide (q.1 ≠ d) = true := by simp [hq]
        rw [this]
        simp only [if_true]
        rw [lookupL, lookupL]
        split
        · rfl
        · exact lookupL_filter_ne d id hid rest

lemma lookupL_filter_self {β : Type} (d : String) :
    ∀ l : List (String × β),
      lookupL (l.filter (fun p => decide (p.1 ≠ d))) d = none
  | [] => rfl
  | q :: rest => by
      rw [List.filter_cons]
      by_cases hq : q.1 = d
      · have : decide (q.1 ≠ d) = false := by simp [hq]
        rw [this]
        simp only [Bool.false_eq_true, if_neg, if_false]
        exact lookupL_filter_self d rest
      · have : decide (q.1 ≠ d) = true := by simp [hq]
        rw [this]
        simp only [if_true]
        rw [lookupL, if_neg hq]
        exact lookupL_filter_self d rest

lemma vsOf_touchRow (r : MemRow) (now : ℕ) (h : vsOk (vsOf r)) :
    vsOk (vsOf (touchRow r now)) := by
  unfold vsOk vsOf at h ⊢
  dsimp only at h ⊢
  show (r.validated || decide (r.surface_count + 1 ≥ 5)) = decide (5 ≤ r.surface_count + 1)
  rw [h]
  by_cases h5 : 5 ≤ r.surface_count
  · have h6 : 5 ≤ r.surface_count + 1 := Nat.le_succ_of_le h5
    simp [h5, h6]
  · simp [h5]

lemma touchRow_validated_mono (r : MemRow) (now : ℕ) (h : r.validated = true) :
    (touchRow r now).validated = true := by
  show (r.validated || decide (r.surface_count + 1 ≥ 5)) = true
  rw [h, Bool.true_or]

lemma vs_lookupL_updateMem (mems : List (String × MemRow)) (i : String)
    (f : MemRow → MemRow) (hf : ∀ r, vsOf (f r) = vsOf r) (id : String) :
    (lookupL (updateMem mems i f) id).map vsOf = (lookupL mems id).map vsOf := by
  rw [lookupL_updateMem]
  by_cases hid : id = i
  · subst hid
    rw [if_pos rfl]
    rcases hL : lookupL mems id with _ | r
    · rfl
    · show some (vsOf (f r)) = some (vsOf r)
      rw [hf]
  · rw [if_neg hid]

lemma vs_supersedePhase1 (c : String) (delOk : String → Bool) :
    ∀ (olds : List String) (st : SysState) (id : String),
      (lookupL (supersedePhase1 c delOk st olds).mems id).map vsOf =
        (lookupL st.mems id).map vsOf
  | [], _, _ => rfl
  | old :: rest, st, id => by
      have h1 : (lookupL (supersedePhase1 c delOk st (old :: rest)).mems id).map vsOf =
          (lookupL (supersedePhase1 c delOk
            ({ st with
               mems := updateMem st.mems old
                 (fun r => { r with superseded_by := some ("pending:" ++ strTake c 50) }),
               vec := if delOk old then st.vec.filter (fun p => decide (p.1 ≠ old))
                 else st.vec }) rest).mems id).map vsOf := rfl
      rw [h1, vs_supersedePhase1 c delOk rest _ id]
      exact vs_lookupL_updateMem st.mems old
        (fun r => { r with superseded_by := some ("pending:" ++ strTake c 50) })
        (fun r => rfl) id

lemma vs_patchSupersededBy (nid : String) :
    ∀ (olds : List String) (st : SysState) (id : String),
      (lookupL (patchSupersededBy nid st olds).mems id).map vsOf =
        (lookupL st.mems id).map vsOf
  | [], _, _ => rfl
  | old :: rest, st, id => by
      have h1 : (lookupL (patchSupersededBy nid st (old :: rest)).mems id).map vsOf =
          (lookupL (patchSupersededBy nid
            ({ st with
               mems := updateMem st.mems old
                 (fun r => { r with superseded_by := some nid }) }) rest).mems id).map vsOf :=
        rfl
      rw [h1, vs_patchSupersededBy nid rest _ id]
      exact vs_lookupL_updateMem st.mems old
        (fun r => { r with superseded_by := some nid })
        (fun r => rfl) id

lemma ValidInv_of_vs (st st' : SysState)
    (h : ∀ id, (lookupL st'.mems id).map vsOf = (lookupL st.mems id).map vsOf) :
    ValidInv st → ValidInv st' := by
  intro hinv id r hr
  have h2 := h id
  rw [hr] at h2
  rcases hL : lookupL st.mems id with _ | r0
  · rw [hL] at h2
    cases h2
  · rw [hL] at h2
    have h3 : vsOf r = vsOf r0 := by injection h2
    rw [show vsOk (vsOf r) = vsOk (vsOf r0) from congrArg vsOk h3]
    exact hinv id r0 hL

lemma ValidInv_mems_eq (st st' : SysState) (h : st'.mems = st.mems) :
    ValidInv st → ValidInv st' := by
  intro hinv id r hr
  rw [h] at hr
  exact hinv id r hr

lemma lookup_of_vs_eq {l l' : List (String × MemRow)} {id : String} {r : MemRow}
    (h : (lookupL l' id).map vsOf = (lookupL l id).map vsOf)
    (hr : lookupL l id = some r) : ∃ r', lookupL l' id = some r' ∧ vsOf r' = vsOf r := by
  rw [hr] at h
  rcases hL : lookupL l' id with _ | r'
  · rw [hL] at h
    cases h
  · rw [hL] at h
    exact ⟨r', rfl, by injection h⟩

lemma ValidInv_updateMem_touch (st : SysState) (i : String) (now : ℕ)
    (st' : SysState) (hm : st'.mems = updateMem st.mems i (fun r => touchRow r now)) :
    ValidInv st → ValidInv st' := by
  intro hinv id r hr
  rw [hm, lookupL_updateMem] at hr
  by_cases hid : id = i
  · subst hid
    rw [if_pos rfl] at hr
    rcases hL : lookupL st.mems id with _ | r0
    · rw [hL] at hr
      cases hr
    · rw [hL] at hr
      have : r = touchRow r0 now := by injection hr with hh; exact hh.symm
      rw [this]
      exact vsOf_touchRow r0 now (hinv id r0 hL)
  · rw [if_neg hid] at hr
    exact hinv id r hr

lemma recallLoop_inv (score : ScoreIn → ℚ) (a : RecallArgs) (kw : List String)
    (now : ℕ) :
    ∀ (vr : List (String × ℚ)) (st : SysState),
      ValidInv st → ValidInv (recallLoop score a kw now vr st).1
  | [], st => fun h => h
  | (i, d) :: rest, st => by
      intro hinv
      rw [recallLoop]
      rcases h : lookupL st.mems i with _ | row
      · exact recallLoop_inv score a kw now rest st hinv
      · exact recallLoop_inv score a kw now rest _
          (ValidInv_updateMem_touch st i now _ rfl hinv)

lemma ValidInv_append_new (st : SysState) (nid : String) (row : MemRow)
    (hrow : vsOk (vsOf row)) (st' : SysState)
    (hm : st'.mems = st.mems ++ [(nid, row)]) :
    ValidInv st → ValidInv st' := by
  intro hinv id r hr
  rw [hm, lookupL_append] at hr
  rcases hL : lookupL st.mems id with _ | r0
  · rw [hL] at hr
    have hr2 : lookupL [(nid, row)] id = some r := hr
    by_cases hid : nid = id
    · have h3 : lookupL [(nid, row)] id = some row := by
        simp [lookupL, hid]
      rw [h3] at hr2
      have : r = row := by injection hr2 with hh; exact hh.symm
      rw [this]
      exact hrow
    · have h3 : lookupL [(nid, row)] id = none := by
        simp [lookupL, hid]
      rw [h3] at hr2
      cases hr2
  · rw [hL] at hr
    have hr2 : some r0 = some r := hr
    have : r = r0 := by injection hr2 with hh; exact hh.symm
    rw [this]
    exact hinv id r0 hL

lemma vs_stage2 (st : SysState) (a : RememberArgs) (delOk : String → Bool)
    (nid : String) (id : String) :
    (lookupL (if a.supersede.isEmpty then supersedePhase1 a.content delOk st a.supersede
      else patchSupersededBy nid (supersedePhase1 a.content delOk st a.supersede)
        a.supersede).mems id).map vsOf = (lookupL st.mems id).map vsOf := by
  split
  · exact vs_supersedePhase1 a.content delOk a.supersede st id
  · rw [vs_patchSupersededBy nid a.supersede _ id]
    exact vs_supersedePhase1 a.content delOk a.supersede st id

lemma rememberWrite_inv (st : SysState) (a : RememberArgs) (e ad : Bool)
    (delOk : String → Bool) (nid : String) (now : ℕ) (ex : ExtractOracle) :
    ValidInv st → ValidInv (rememberWrite st a e ad delOk nid now ex).1 := by
  intro hinv
  have hrow : vsOk (vsOf (⟨a.content, a.memory_type, a.project, a.source_role,
      max 0 (min 1 a.importance), now, none, 0, 0, false, none, none⟩ : MemRow)) := by
    show false = decide (5 ≤ 0)
    rfl
  unfold rememberWrite
  split
  · have hinv2 : ValidInv (supersedePhase1 a.content delOk st a.supersede) :=
      ValidInv_of_vs st _
        (fun id => vs_supersedePhase1 a.content delOk a.supersede st id) hinv
    split
    · exact hinv2
    · split
      · exact ValidInv_append_new _ nid _ hrow _ rfl hinv2
      · apply ValidInv_mems_eq _ _ (autoExtract_mems _ _ _ _)
        exact ValidInv_append_new _ nid _ hrow _ rfl hinv2
  · have hinv2 : ValidInv (patchSupersededBy nid
        (supersedePhase1 a.content delOk st a.supersede) a.supersede) := by
      apply ValidInv_of_vs st
      · intro id
        rw [vs_patchSupersededBy nid a.supersede _ id]
        exact vs_supersedePhase1 a.content delOk a.supersede st id
      · exact hinv
    split
    · exact hinv2
    · split
      · exact ValidInv_append_new _ nid _ hrow _ rfl hinv2
      · apply ValidInv_mems_eq _ _ (autoExtract_mems _ _ _ _)
        exact ValidInv_append_new _ nid _ hrow _ rfl hinv2

lemma remember_inv (st : SysState) (a : RememberArgs) (score : ScoreIn → ℚ)
    (cv : List (String × ℚ)) (e ad : Bool) (delOk : String → Bool)
    (nid : String) (now : ℕ) (ex : ExtractOracle) :
    ValidInv st → ValidInv (remember st a score cv e ad delOk nid now ex).1 := by
  intro hinv
  unfold remember
  split
  · have hs : ValidInv (checkContradictions st a.content a.project score cv now).1 := by
      unfold checkContradictions
      dsimp only
      rw [recallOp_state]
      exact recallLoop_inv _ _ _ _ _ _ hinv
    dsimp only
    split
    · exact hs
    · exact rememberWrite_inv _ _ _ _ _ _ _ _ hs
  · dsimp only
    split
    · exact hinv
    · exact rememberWrite_inv _ _ _ _ _ _ _ _ hinv

lemma updateMemoryOp_inv (st : SysState) (id : String) (c t : Option String)
    (i : Option ℚ) : ValidInv st → ValidInv (updateMemoryOp st id c t i).1 := by
  intro hinv
  unfold updateMemoryOp
  split
  · exact hinv
  · dsimp only
    split
    · split
      · exact ValidInv_of_vs st _
          (fun id2 => vs_lookupL_updateMem st.mems id
            (fun r => { r with
              content := c.getD r.content,
              memory_type := t.getD r.memory_type,
              importance := (i.map (fun x => max 0 (min 1 x))).getD r.importance })
            (fun r => rfl) id2) hinv
      · exact ValidInv_of_vs st _
          (fun id2 => vs_lookupL_updateMem st.mems id
            (fun r => { r with
              content := c.getD r.content,
              memory_type := t.getD r.memory_type,
              importance := (i.map (fun x => max 0 (min 1 x))).getD r.importance })
            (fun r => rfl) id2) hinv
    · exact ValidInv_of_vs st _
        (fun id2 => vs_lookupL_updateMem st.mems id
          (fun r => { r with
            content := c.getD r.content,
            memory_type := t.getD r.memory_type,
            importance := (i.map (fun x => max 0 (min 1 x))).getD r.importance })
          (fun r => rfl) id2) hinv

lemma deleteMemoryOp_inv (st : SysState) (id : String) (dv : Bool) :
    ValidInv st → ValidInv (deleteMemoryOp st id dv).1 := by
  intro hinv
  unfold deleteMemoryOp
  dsimp only
  split
  · intro id2 r hr
    by_cases hd : id2 = id
    · subst hd
      rw [show (lookupL (st.mems.filter (fun p => decide (p.1 ≠ id2))) id2) = none from
        lookupL_filter_self id2 st.mems] at hr
      cases hr
    · rw [lookupL_filter_ne id id2 hd st.mems] at hr
      exact hinv id2 r hr
  · exact hinv

lemma vs_consolidateFold (nid : String) (delOk : String → Bool) :
    ∀ (ids : List String) (st : SysState) (id : String),
      (lookupL (ids.foldl
        (fun s i =>
          { s with
            mems := updateMem s.mems i (fun r => { r with consolidated_into := some nid }),
            vec := if delOk i then s.vec.filter (fun p => decide (p.1 ≠ i)) else s.vec })
        st).mems id).map vsOf = (lookupL st.mems id).map vsOf
  | [], _, _ => rfl
  | x :: rest, st, id => by
      rw [List.foldl_cons, vs_consolidateFold nid delOk rest _ id]
      exact vs_lookupL_updateMem st.mems x
        (fun r => { r with consolidated_into := some nid }) (fun r => rfl) id

lemma consolidateOp_inv (st : SysState) (ids : List String) (c t : String) (imp : ℚ)
    (score : ScoreIn → ℚ) (e ad : Bool) (delOk : String → Bool) (nid : String)
    (now : ℕ) (ex : ExtractOracle) :
    ValidInv st → ValidInv (consolidateOp st ids c t imp score e ad delOk nid now ex).1 := by
  intro hinv
  unfold consolidateOp
  dsimp only
  have hrem := remember_inv st ⟨c, t, imp,
    (ids.head?.bind (fun i => lookupL st.mems i)).bind (fun r => r.project),
    none, false, []⟩ score [] e ad delOk nid now ex hinv
  rcases h : remember st ⟨c, t, imp,
      (ids.head?.bind (fun i => lookupL st.mems i)).bind (fun r => r.project),
      none, false, []⟩ score [] e ad delOk nid now ex with ⟨st1, out⟩
  rw [h] at hrem
  cases out with
  | stored nid2 =>
      dsimp only
      exact ValidInv_of_vs st1 _ (fun id => vs_consolidateFold nid2 delOk ids st1 id) hrem
  | conflictsFound cs => exact hrem
  | embedFailed => exact hrem
  | vectorAddFailed => exact hrem

/-- The validation invariant is preserved by every engine operation. -/
lemma inv_step (st : SysState) (op : Op) :
    ValidInv st → ValidInv (step st op) := by
  intro hinv
  cases op with
  | rememberOp a score cv e ad d nid now ex => exact remember_inv _ _ _ _ _ _ _ _ _ _ hinv
  | recallCall a score vr now =>
      show ValidInv (recallOp st a score vr now).1
      rw [recallOp_state]
      exact recallLoop_inv _ _ _ _ _ _ hinv
  | updateCall id c t i => exact updateMemoryOp_inv _ _ _ _ _ hinv
  | deleteCall id dv => exact deleteMemoryOp_inv _ _ _ hinv
  | consolidateCall ids c t imp score e ad d nid now ex =>
      exact consolidateOp_inv _ _ _ _ _ _ _ _ _ _ _ _ hinv
  | validateCall id now => exact ValidInv_mems_eq st _ rfl hinv
  | addEntityCall t n s p d =>
      exact ValidInv_mems_eq st _ (storeAddEntity_mems _ _ _ _ _ _) hinv
  | addRelationshipCall s d r str c ev =>
      exact ValidInv_mems_eq st _ (storeAddRelationship_mems _ _ _ _ _ _ _) hinv

lemma MonoV_refl (st : SysState) : MonoV st st :=
  fun _ r h hv => ⟨r, h, hv⟩

lemma MonoV_trans {a b c : SysState} (h1 : MonoV a b) (h2 : MonoV b c) : MonoV a c := by
  intro id r hr hv
  obtain ⟨r1, hr1, hv1⟩ := h1 id r hr hv
  exact h2 id r1 hr1 hv1

lemma MonoV_of_vs {st st' : SysState}
    (h : ∀ id, (lookupL st'.mems id).map vsOf = (lookupL st.mems id).map vsOf) :
    MonoV st st' := by
  intro id r hr hv
  obtain ⟨r', hr', hvs⟩ := lookup_of_vs_eq (h id) hr
  have h6 : r'.validated = r.validated := congrArg Prod.fst hvs
  exact ⟨r', hr', h6.trans hv⟩

lemma MonoV_mems_eq {st st' : SysState} (h : st'.mems = st.mems) : MonoV st st' := by
  intro id r hr hv
  refine ⟨r, ?_, hv⟩
  rw [h]
  exact hr

lemma MonoV_touch (st : SysState) (i : String) (now : ℕ) (st' : SysState)
    (hm : st'.mems = updateMem st.mems i (fun r => touchRow r now)) :
    MonoV st st' := by
  intro id r hr hv
  rw [hm]
  rw [lookupL_updateMem]
  by_cases hid : id = i
  · subst hid
    rw [if_pos rfl, hr]
    exact ⟨touchRow r now, rfl, touchRow_validated_mono r now hv⟩
  · rw [if_neg hid]
    exact ⟨r, hr, hv⟩

lemma recallLoop_monoV (score : ScoreIn → ℚ) (a : RecallArgs) (kw : List String)
    (now : ℕ) :
    ∀ (vr : List (String × ℚ)) (st : SysState),
      MonoV st (recallLoop score a kw now vr st).1
  | [], st => MonoV_refl st
  | (i, d) :: rest, st => by
      rw [recallLoop]
      rcases h : lookupL st.mems i with _ | row
      · exact recallLoop_monoV score a kw now rest st
      · exact MonoV_trans (MonoV_touch st i now _ rfl)
          (recallLoop_monoV score a kw now rest _)

lemma MonoV_append (st : SysState) (nid : String) (row : MemRow) :
    MonoV st ⟨st.mems ++ [(nid, row)], st.log, st.vec, st.graph⟩ := by
  intro id r hr hv
  refine ⟨r, ?_, hv⟩
  show lookupL (st.mems ++ [(nid, row)]) id = some r
  rw [lookupL_append, hr]
  exact rfl

lemma rememberWrite_monoV (st : SysState) (a : RememberArgs) (e ad : Bool)
    (delOk : String → Bool) (nid : String) (now : ℕ) (ex : ExtractOracle) :
    MonoV st (rememberWrite st a e ad delOk nid now ex).1 := by
  have h2 : MonoV st (if a.supersede.isEmpty then
      supersedePhase1 a.content delOk st a.supersede
    else patchSupersededBy nid (supersedePhase1 a.content delOk st a.supersede)
      a.supersede) := MonoV_of_vs (vs_stage2 st a delOk nid)
  unfold rememberWrite
  split
  · have h2a : MonoV st (supersedePhase1 a.content delOk st a.supersede) :=
      MonoV_of_vs (fun id => vs_supersedePhase1 a.content delOk a.supersede st id)
    split
    · exact h2a
    · split
      · exact MonoV_trans h2a (MonoV_append _ nid _)
      · refine MonoV_trans (MonoV_trans h2a (MonoV_append _ nid
          ⟨a.content, a.memory_type, a.project, a.source_role,
          max 0 (min 1 a.importance), now, none, 0, 0, false, none, none⟩)) ?_
        exact MonoV_mems_eq (autoExtract_mems _ _ _ _)
  · have h2b : MonoV st (patchSupersededBy nid
        (supersedePhase1 a.content delOk st a.supersede) a.supersede) := by
      apply MonoV_of_vs
      intro id
      rw [vs_patchSupersededBy nid a.supersede _ id]
      exact vs_supersedePhase1 a.content delOk a.supersede st id
    split
    · exact h2b
    · split
      · exact MonoV_trans h2b (MonoV_append _ nid _)
      · refine MonoV_trans (MonoV_trans h2b (MonoV_append _ nid
          ⟨a.content, a.memory_type, a.project, a.source_role,
          max 0 (min 1 a.importance), now, none, 0, 0, false, none, none⟩)) ?_
        exact MonoV_mems_eq (autoExtract_mems _ _ _ _)

lemma remember_monoV (st : SysState) (a : RememberArgs) (score : ScoreIn → ℚ)
    (cv : List (String × ℚ)) (e ad : Bool) (delOk : String → Bool)
    (nid : String) (now : ℕ) (ex : ExtractOracle) :
    MonoV st (remember st a score cv e ad delOk nid now ex).1 := by
  unfold remember
  split
  · have hs : MonoV st (checkContradictions st a.content a.project score cv now).1 := by
      unfold checkContradictions
      dsimp only
      rw [recallOp_state]
      exact recallLoop_monoV _ _ _ _ _ _
    dsimp only
    split
    · exact hs
    · exact MonoV_trans hs (rememberWrite_monoV _ _ _ _ _ _ _ _)
  · dsimp only
    split
    · exact MonoV_refl st
    · exact rememberWrite_monoV _ _ _ _ _ _ _ _

lemma updateMemoryOp_vs (st : SysState) (id0 : String) (c t : Option String)
    (i : Option ℚ) (id : String) :
    (lookupL (updateMemoryOp st id0 c t i).1.mems id).map vsOf =
      (lookupL st.mems id).map vsOf := by
  unfold updateMemoryOp
  split
  · rfl
  · dsimp only
    split
    · split
      · exact vs_lookupL_updateMem st.mems id0
          (fun r => { r with
            content := c.getD r.content,
            memory_type := t.getD r.memory_type,
            importance := (i.map (fun x => max 0 (min 1 x))).getD r.importance })
          (fun r => rfl) id
      · exact vs_lookupL_updateMem st.mems id0
          (fun r => { r with
            content := c.getD r.content,
            memory_type := t.getD r.memory_type,
            importance := (i.map (fun x => max 0 (min 1 x))).getD r.importance })
          (fun r => rfl) id
    · exact vs_lookupL_updateMem st.mems id0
        (fun r => { r with
          content := c.getD r.content,
          memory_type := t.getD r.memory_type,
          importance := (i.map (fun x => max 0 (min 1 x))).getD r.importance })
        (fun r => rfl) id

lemma consolidateOp_monoV (st : SysState) (ids : List String) (c t : String)
    (imp : ℚ) (score : ScoreIn → ℚ) (e ad : Bool) (delOk : String → Bool)
    (nid : String) (now : ℕ) (ex : ExtractOracle) :
    MonoV st (consolidateOp st ids c t imp score e ad delOk nid now ex).1 := by
  unfold consolidateOp
  dsimp only
  have hrem := remember_monoV st ⟨c, t, imp,
    (ids.head?.bind (fun i => lookupL st.mems i)).bind (fun r => r.project),
    none, false, []⟩ score [] e ad delOk nid now ex
  rcases h : remember st ⟨c, t, imp,
      (ids.head?.bind (fun i => lookupL st.mems i)).bind (fun r => r.project),
      none, false, []⟩ score [] e ad delOk nid now ex with ⟨st1, out⟩
  rw [h] at hrem
  cases out with
  | stored nid2 =>
      dsimp only
      exact MonoV_trans hrem (MonoV_of_vs (fun id => vs_consolidateFold nid2 delOk ids st1 id))
  | conflictsFound cs => exact hrem
  | embedFailed => exact hrem
  | vectorAddFailed => exact hrem

/-- Across one engine operation, a record that is still present never has
validated reset to false. -/
lemma step_validated_mono (st : SysState) (op : Op) (id : String) (r r' : MemRow)
    (h : lookupL st.mems id = some r)
    (h' : lookupL (step st op).mems id = some r')
    (hv : r.validated = true) : r'.validated = true := by
  have useMono : ∀ st2 : SysState, MonoV st st2 →
      lookupL st2.mems id = some r' → r'.validated = true := by
    intro st2 hm h2
    obtain ⟨r'', h'', hv''⟩ := hm id r h hv
    rw [h''] at h2
    have : r' = r'' := by injection h2 with hh; exact hh.symm
    rw [this]
    exact hv''
  cases op with
  | rememberOp a score cv e ad d nid now ex =>
      exact useMono _ (remember_monoV _ _ _ _ _ _ _ _ _ _) h'
  | recallCall a score vr now =>
      refine useMono _ ?_ h'
      show MonoV st (recallOp st a score vr now).1
      rw [recallOp_state]
      exact recallLoop_monoV _ _ _ _ _ _
  | updateCall i2 c t i =>
      exact useMono _ (MonoV_of_vs (fun id2 => updateMemoryOp_vs st i2 c t i id2)) h'
  | deleteCall d dv =>
      show r'.validated = true
      have h2 : lookupL (deleteMemoryOp st d dv).1.mems id = some r' := h'
      unfold deleteMemoryOp at h2
      dsimp only at h2
      by_cases hp : (lookupL st.mems d).isSome = true
      · rw [if_pos hp] at h2
        by_cases hd : id = d
        · subst hd
          rw [show (lookupL (st.mems.filter (fun p => decide (p.1 ≠ id))) id) = none from
            lookupL_filter_self id st.mems] at h2
          cases h2
        · rw [show (lookupL (st.mems.filter (fun p => decide (p.1 ≠ d))) id) =
              lookupL st.mems id from lookupL_filter_ne d id hd st.mems, h] at h2
          have : r' = r := by injection h2 with hh; exact hh.symm
          rw [this]
          exact hv
      · rw [if_neg hp] at h2
        rw [h] at h2
        have : r' = r := by injection h2 with hh; exact hh.symm
        rw [this]
        exact hv
  | consolidateCall ids c t imp score e ad d nid now ex =>
      exact useMono _ (consolidateOp_monoV _ _ _ _ _ _ _ _ _ _ _ _) h'
  | validateCall i2 now => exact useMono _ (MonoV_mems_eq rfl) h'
  | addEntityCall t n s2 p d =>
      exact useMono _ (MonoV_mems_eq (storeAddEntity_mems _ _ _ _ _ _)) h'
  | addRelationshipCall s2 d r2 str c ev =>
      exact useMono _ (MonoV_mems_eq (storeAddRelationship_mems _ _ _ _ _ _ _)) h'

/-- C8: the validation invariant (validated exactly when surface_count
has reached 5) is preserved by every engine operation; under it, a recall
touches a returned id's row, the validated flag flips from false to true
exactly when the pre-recall surface count is 4 (the touch that raises it
to 5), the graph-side validation fires exactly then, and no operation
ever resets validated to false on a surviving row. -/
theorem c8_validated_transitions :
    (∀ (st : SysState) (op : Op), ValidInv st → ValidInv (step st op))
    ∧ (∀ (st : SysState) (a : RecallArgs) (score : ScoreIn → ℚ)
         (vr : List (String × ℚ)) (now : ℕ) (id : String) (r : MemRow),
        (vr.map Prod.fst).Nodup →
        lookupL st.mems id = some r → vsOk (vsOf r) →
        lookupL (recallOp st a score vr now).1.mems id =
          some (if id ∈ vr.map Prod.fst then touchRow r now else r)
        ∧ ((touchRow r now).validated = true ∧ r.validated = false ↔
            r.surface_count = 4)
        ∧ (triggersValidationB st id = true ↔ r.surface_count = 4)
        ∧ (id ∈ vr.map Prod.fst ∧ r.surface_count = 4 →
            lookupL (recallOp st a score vr now).1.graph.nodes id =
              (lookupL st.graph.nodes id).map (validatedNode now)))
    ∧ (∀ (st : SysState) (op : Op) (id : String) (r r' : MemRow),
        lookupL st.mems id = some r →
        lookupL (step st op).mems id = some r' →
        r.validated = true → r'.validated = true) := by
  refine ⟨inv_step, ?_, step_validated_mono⟩
  intro st a score vr now id r hnd hlook hvs
  have hvs2 : r.validated = decide (5 ≤ r.surface_count) := hvs
  have htrig : triggersValidationB st id =
      (decide (5 ≤ r.surface_count + 1) && !r.validated) := by
    unfold triggersValidationB
    rw [hlook]
  refine ⟨?_, ?_, ?_, ?_⟩
  · rw [recallOp_state, recallLoop_mems _ _ _ _ _ _ hnd id]
    by_cases hm : id ∈ vr.map Prod.fst
    · rw [if_pos hm, hlook, if_pos hm]
      rfl
    · rw [if_neg hm, hlook, if_neg hm]
  · show ((r.validated || decide (r.surface_count + 1 ≥ 5)) = true ∧
        r.validated = false ↔ r.surface_count = 4)
    rw [hvs2]
    simp only [Bool.or_eq_true, decide_eq_true_eq, decide_eq_false_iff_not]
    constructor
    · rintro ⟨hor, hlt⟩
      rcases hor with h5 | h5
      · exact absurd h5 hlt
      · omega
    · intro h4
      constructor
      · right
        omega
      · omega
  · rw [htrig, hvs2]
    simp only [Bool.and_eq_true, decide_eq_true_eq, Bool.not_eq_true',
      decide_eq_false_iff_not]
    constructor
    · rintro ⟨h5, hlt⟩
      omega
    · intro h4
      constructor
      · omega
      · omega
  · rintro ⟨hm, h4⟩
    rw [recallOp_state, recallLoop_graph_nodes _ _ _ _ _ _ hnd id, if_pos]
    refine ⟨hm, ?_⟩
    rw [htrig, hvs2]
    simp only [Bool.and_eq_true, decide_eq_true_eq, Bool.not_eq_true',
      decide_eq_false_iff_not]
    constructor
    · omega
    · omega

theorem c8_validated_transitions_witness :
    (([("m", (0:ℚ))].map Prod.fst).Nodup
     ∧ lookupL c8State.mems "m" = some c8Row
     ∧ vsOk (vsOf c8Row))
    ∧ (lookupL (recallOp c8State c8Args (fun _ => 1) [("m", 0)] 9).1.mems "m" =
        some (if "m" ∈ [("m", (0:ℚ))].map Prod.fst then touchRow c8Row 9 else c8Row)
       ∧ ((touchRow c8Row 9).validated = true ∧ c8Row.validated = false ↔
           c8Row.surface_count = 4)
       ∧ (triggersValidationB c8State "m" = true ↔ c8Row.surface_count = 4)
       ∧ ("m" ∈ [("m", (0:ℚ))].map Prod.fst ∧ c8Row.surface_count = 4 →
           lookupL (recallOp c8State c8Args (fun _ => 1) [("m", 0)] 9).1.graph.nodes "m" =
             (lookupL c8State.graph.nodes "m").map (validatedNode 9))) := by
  have h1 : (([("m", (0:ℚ))].map Prod.fst)).Nodup := by decide
  have h2 : lookupL c8State.mems "m" = some c8Row := by
    simp [c8State, lookupL]
  have h3 : vsOk (vsOf c8Row) := by
    show false = decide (5 ≤ 4)
    rfl
  exact ⟨⟨h1, h2, h3⟩,
    c8_validated_transitions.2.1 c8State c8Args (fun _ => 1) [("m", 0)] 9 "m" c8Row
      h1 h2 h3⟩

/- ## C3: supersede pipeline -/

lemma entityPrefixed_head (t rest : String) :
    ("entity:" ++ t ++ ":" ++ rest).data.head? = some 'e' := by
  rw [String.data_append, String.data_append, String.data_append]
  rfl

lemma makeEntityId_head (t n : String) :
    (makeEntityId t n).data.head? = some 'e' :=
  entityPrefixed_head t (strLower n)

lemma ne_of_head_ne {j s : String} (hj : j.data.head? ≠ some 'e')
    (hs : s.data.head? = some 'e') : j ≠ s := by
  intro h
  rw [h] at hj
  exact hj hs

lemma addEdge_nodes (g : Graph) (s t : String) (a : EdgeAttrs) :
    (g.addEdge s t a).nodes = g.nodes := by
  unfold Graph.addEdge
  split <;> rfl

lemma addRelationship_nodes (g : Graph) (src dst rel : String) (st c : ℚ)
    (cb : String) (ev : Option String) (b : Bool) :
    ((g.addRelationship src dst rel st c cb ev b).1).nodes = g.nodes := by
  unfold Graph.addRelationship
  split
  · rfl
  · split
    · rfl
    · dsimp only
      split
      · split
        · rw [addEdge_nodes, addEdge_nodes]
        · rw [addEdge_nodes]
      · rw [addEdge_nodes]

lemma lookupL_addNode_ne (g : Graph) (i : String) (n : GNode) (j : String)
    (h : j ≠ i) : lookupL (g.addNode i n).nodes j = lookupL g.nodes j := by
  unfold Graph.addNode
  split
  · show lookupL (g.nodes.map (fun p => if p.1 = i then (i, n) else p)) j = _
    rw [show (fun p : String × GNode => if p.1 = i then (i, n) else p) =
        (fun p : String × GNode => if p.1 = i then (i, (fun _ => n) p.2) else p) from rfl]
    rw [lookupL_mapUpdate g.nodes i (fun _ => n) j, if_neg h]
  · show lookupL (g.nodes ++ [(i, n)]) j = _
    rw [lookupL_append]
    have h2 : lookupL [(i, n)] j = none := by
      have hij : ¬ i = j := fun hh => h hh.symm
      simp [lookupL, hij]
    rw [h2]
    rcases lookupL g.nodes j with _ | v <;> rfl

lemma addNode_hasNode_mono (g : Graph) (i : String) (n : GNode) (j : String)
    (h : g.hasNode j = true) : (g.addNode i n).hasNode j = true := by
  by_cases hj : j = i
  · subst hj
    exact hasNode_addNode g j n
  · unfold Graph.hasNode
    rw [show (g.addNode i n).nodes = (g.addNode i n).nodes from rfl]
    unfold Graph.hasNode at h
    rw [show lookupL (g.addNode i n).nodes j = lookupL g.nodes j from
      lookupL_addNode_ne g i n j hj]
    exact h

lemma addMentions_nodes_ne (mid : String) (j : String)
    (hj : j.data.head? ≠ some 'e') :
    ∀ (l : List (String × String)) (g : Graph),
      lookupL (addMentions mid g l).nodes j = lookupL g.nodes j
  | [], _ => rfl
  | (t, n) :: rest, g => by
      rw [addMentions]
      rw [addMentions_nodes_ne mid j hj rest _]
      rw [addEdge_nodes]
      split
      · rfl
      · exact lookupL_addNode_ne _ _ _ j (ne_of_head_ne hj (makeEntityId_head t n))

lemma addMentions_hasNode_mono (mid : String) :
    ∀ (l : List (String × String)) (g : Graph) (j : String),
      g.hasNode j = true → (addMentions mid g l).hasNode j = true
  | [], _, _ => fun h => h
  | (t, n) :: rest, g, j => by
      intro h
      rw [addMentions]
      apply addMentions_hasNode_mono mid rest _ j
      show ((if g.hasNode (makeEntityId t n) then g
        else g.addNode (makeEntityId t n)
          (.entity ⟨t, n, "active", none, none⟩)).addEdge mid (makeEntityId t n)
          ⟨"mentions", 1/2, 1, "auto", none, false⟩).hasNode j = true
      unfold Graph.hasNode
      rw [addEdge_nodes]
      split
      · exact h
      · exact addNode_hasNode_mono g _ _ j h

lemma addMemory_nodes_ne (g : Graph) (mid content mtype : String)
    (pr sr : Option String) (status : String) (conf : ℚ) (impact : String)
    (eh ph : List String) (j : String) (hj : j.data.head? ≠ some 'e')
    (hjm : j ≠ mid) :
    lookupL (g.addMemory mid content mtype pr sr status conf impact eh ph).nodes j =
      lookupL g.nodes j := by
  unfold Graph.addMemory
  dsimp only
  rw [addMentions_nodes_ne mid j hj]
  exact lookupL_addNode_ne g mid _ j hjm

lemma addMemory_hasNode_self (g : Graph) (mid content mtype : String)
    (pr sr : Option String) (status : String) (conf : ℚ) (impact : String)
    (eh ph : List String) :
    (g.addMemory mid content mtype pr sr status conf impact eh ph).hasNode mid = true := by
  unfold Graph.addMemory
  dsimp only
  exact addMentions_hasNode_mono mid _ _ mid (hasNode_addNode g mid _)

lemma addMemory_hasNode_mono (g : Graph) (mid content mtype : String)
    (pr sr : Option String) (status : String) (conf : ℚ) (impact : String)
    (eh ph : List String) (j : String) (h : g.hasNode j = true) :
    (g.addMemory mid content mtype pr sr status conf impact eh ph).hasNode j = true := by
  unfold Graph.addMemory
  dsimp only
  exact addMentions_hasNode_mono mid _ _ j (addNode_hasNode_mono g mid _ j h)

lemma updateMemoryStatus_nodes (g : Graph) (i status : String)
    (h : g.hasNode i = true) (j : String) :
    lookupL (g.updateMemoryStatus i status).nodes j =
      if j = i then (lookupL g.nodes i).map (fun n => setStatus n status)
      else lookupL g.nodes j := by
  unfold Graph.updateMemoryStatus
  rw [if_pos h]
  show lookupL (g.nodes.map (fun p => if p.1 = i then (i, setStatus p.2 status) else p)) j = _
  exact lookupL_mapUpdate g.nodes i (fun n => setStatus n status) j

lemma updateMemoryStatus_edges (g : Graph) (i status : String) :
    (g.updateMemoryStatus i status).edges = g.edges := by
  unfold Graph.updateMemoryStatus
  split <;> rfl

lemma foldl_proj_eq {α β : Type} (proj : SysState → β) (f : SysState → α → SysState)
    (h : ∀ s x, proj (f s x) = proj s) :
    ∀ (l : List α) (s : SysState), proj (l.foldl f s) = proj s := by
  intro l
  induction l with
  | nil => intro s; rfl
  | cons x xs ih =>
      intro s
      rw [List.foldl_cons, ih, h]

lemma storeAddEntity_vec (st : SysState) (t n s : String) (p d : Option String) :
    (storeAddEntity st t n s p d).1.vec = st.vec := by
  unfold storeAddEntity
  split <;> rfl

lemma storeAddRelationship_vec (st : SysState) (src dst rel : String)
    (strength conf : ℚ) (ev : Option String) :
    (storeAddRelationship st src dst rel strength conf ev).1.vec = st.vec := by
  unfold storeAddRelationship
  split <;> rfl

lemma addEntityAndRel_vec (st : SysState) (mid t n rel : String) (c : ℚ) :
    (addEntityAndRel st mid t n rel c).vec = st.vec := by
  unfold addEntityAndRel
  rcases h : storeAddEntity st t n "active" none none with ⟨st1, eidOpt⟩
  have h1 : st1.vec = st.vec := by
    have := storeAddEntity_vec st t n "active" none none
    rw [h] at this
    exact this
  cases eidOpt with
  | none => exact h1
  | some eid =>
      by_cases he : eid.isEmpty
      · simp only [he, if_true]
        exact h1
      · simp only [he, Bool.false_eq_true, if_false, if_neg]
        rw [storeAddRelationship_vec]
        exact h1

lemma extractGroup_vec (mid t rel : String) :
    ∀ (l : List (List String × ℚ)) (st : SysState),
      (extractGroup mid t rel l st).vec = st.vec
  | [], _ => rfl
  | (ms, conf) :: rest, st => by
      rw [extractGroup, extractGroup_vec mid t rel rest]
      exact foldl_proj_eq (fun s => s.vec) _
        (fun s x => addEntityAndRel_vec s mid t x rel conf) _ st

lemma tryEntityTypes_vec (mid target rel : String) :
    ∀ (l : List String) (st : SysState),
      (tryEntityTypes mid target rel l st).vec = st.vec
  | [], _ => rfl
  | t :: rest, st => by
      rw [tryEntityTypes]
      split
      · rw [storeAddRelationship_vec]
      · exact tryEntityTypes_vec mid target rel rest st

lemma relScan_vec (mid cl : String) (rt : String → List String) (st : SysState) :
    (relScan mid cl rt st).vec = st.vec := by
  unfold relScan
  apply foldl_proj_eq (fun s => s.vec)
  intro s kw
  by_cases hsub : substr kw.1 cl = true
  · simp only [hsub, if_true]
    rcases h : (rt kw.1).take 1 with _ | ⟨m, tail⟩
    · rfl
    · show (if (strTake (strTrim m) 50).length > 3 then
          tryEntityTypes mid (strTake (strTrim m) 50) kw.2
            ["goal", "blocker", "pattern", "tool", "concept"] s
        else s).vec = s.vec
      split
      · exact tryEntityTypes_vec _ _ _ _ _
      · rfl
  · simp only [hsub, Bool.false_eq_true, if_false, if_neg]

lemma autoExtract_vec (st : SysState) (mid content : String) (ex : ExtractOracle) :
    (autoExtract st mid content ex).vec = st.vec := by
  unfold autoExtract
  dsimp only
  rw [relScan_vec]
  split
  · split
    · rw [extractGroup_vec, extractGroup_vec, extractGroup_vec]
    · rw [extractGroup_vec, extractGroup_vec]
  · rw [extractGroup_vec, extractGroup_vec]

lemma storeAddEntity_nodes_ne (st : SysState) (t n s : String) (p d : Option String)
    (j : String) (hj : j.data.head? ≠ some 'e') :
    lookupL (storeAddEntity st t n s p d).1.graph.nodes j = lookupL st.graph.nodes j := by
  unfold storeAddEntity
  split
  · dsimp only
    show lookupL (st.graph.addNode (makeEntityId t n)
      (.entity ⟨t, n, s, p, d⟩)).nodes j = _
    exact lookupL_addNode_ne _ _ _ j (ne_of_head_ne hj (makeEntityId_head t n))
  · rfl

lemma storeAddRelationship_graph_nodes (st : SysState) (src dst rel : String)
    (strength conf : ℚ) (ev : Option String) :
    (storeAddRelationship st src dst rel strength conf ev).1.graph.nodes =
      st.graph.nodes := by
  unfold storeAddRelationship
  split
  · dsimp only
    exact addRelationship_nodes _ _ _ _ _ _ _ _ _
  · rfl

lemma addEntityAndRel_nodes_ne (st : SysState) (mid t n rel : String) (c : ℚ)
    (j : String) (hj : j.data.head? ≠ some 'e') :
    lookupL (addEntityAndRel st mid t n rel c).graph.nodes j =
      lookupL st.graph.nodes j := by
  unfold addEntityAndRel
  rcases h : storeAddEntity st t n "active" none none with ⟨st1, eidOpt⟩
  have h1 : lookupL st1.graph.nodes j = lookupL st.graph.nodes j := by
    have := storeAddEntity_nodes_ne st t n "active" none none j hj
    rw [h] at this
    exact this
  cases eidOpt with
  | none => exact h1
  | some eid =>
      by_cases he : eid.isEmpty
      · simp only [he, if_true]
        exact h1
      · simp only [he, Bool.false_eq_true, if_false, if_neg]
        rw [storeAddRelationship_graph_nodes]
        exact h1

lemma extractGroup_nodes_ne (mid t rel : String) (j : String)
    (hj : j.data.head? ≠ some 'e') :
    ∀ (l : List (List String × ℚ)) (st : SysState),
      lookupL (extractGroup mid t rel l st).graph.nodes j =
        lookupL st.graph.nodes j
  | [], _ => rfl
  | (ms, conf) :: rest, st => by
      rw [extractGroup, extractGroup_nodes_ne mid t rel j hj rest]
      induction processMatches ms generalizing st with
      | nil => rfl
      | cons x xs ih =>
          rw [List.foldl_cons]
          rw [ih]
          exact addEntityAndRel_nodes_ne st mid t x rel conf j hj

lemma tryEntityTypes_graph_nodes (mid target rel : String) :
    ∀ (l : List String) (st : SysState),
      (tryEntityTypes mid target rel l st).graph.nodes = st.graph.nodes
  | [], _ => rfl
  | t :: rest, st => by
      rw [tryEntityTypes]
      split
      · rw [storeAddRelationship_graph_nodes]
      · exact tryEntityTypes_graph_nodes mid target rel rest st

lemma relScan_graph_nodes (mid cl : String) (rt : String → List String)
    (st : SysState) : (relScan mid cl rt st).graph.nodes = st.graph.nodes := by
  unfold relScan
  apply foldl_proj_eq (fun s => s.graph.nodes)
  intro s kw
  by_cases hsub : substr kw.1 cl = true
  · simp only [hsub, if_true]
    rcases h : (rt kw.1).take 1 with _ | ⟨m, tail⟩
    · rfl
    · show (if (strTake (strTrim m) 50).length > 3 then
          tryEntityTypes mid (strTake (strTrim m) 50) kw.2
            ["goal", "blocker", "pattern", "tool", "concept"] s
        else s).graph.nodes = s.graph.nodes
      split
      · exact tryEntityTypes_graph_nodes _ _ _ _ _
      · rfl
  · simp only [hsub, Bool.false_eq_true, if_false, if_neg]

lemma autoExtract_nodes_ne (st : SysState) (mid content : String) (ex : ExtractOracle)
    (j : String) (hj : j.data.head? ≠ some 'e') :
    lookupL (autoExtract st mid content ex).graph.nodes j =
      lookupL st.graph.nodes j := by
  unfold autoExtract
  dsimp only
  rw [relScan_graph_nodes]
  split
  · split
    · rw [extractGroup_nodes_ne mid "pattern" "example_of" j hj,
        extractGroup_nodes_ne mid "blocker" "blocked_by" j hj,
        extractGroup_nodes_ne mid "goal" "motivated_by" j hj]
    · rw [extractGroup_nodes_ne mid "blocker" "blocked_by" j hj,
        extractGroup_nodes_ne mid "goal" "motivated_by" j hj]
  · rw [extractGroup_nodes_ne mid "blocker" "blocked_by" j hj,
      extractGroup_nodes_ne mid "goal" "motivated_by" j hj]

lemma addNode_edges (g : Graph) (i : String) (n : GNode) :
    (g.addNode i n).edges = g.edges := by
  unfold Graph.addNode
  split <;> rfl

lemma EdgeExt_refl (g : Graph) (nid old : String) : EdgeExt g.edges nid old g :=
  ⟨[], by simp, by intro e he; cases he⟩

lemma EdgeExt_edges_eq {base : List (String × String × EdgeAttrs)} {nid old : String}
    {g g' : Graph} (h : g'.edges = g.edges) :
    EdgeExt base nid old g → EdgeExt base nid old g' := by
  rintro ⟨tail, hEq, hQ⟩
  exact ⟨tail, h.trans hEq, hQ⟩

lemma EdgeExt_addEdge {base : List (String × String × EdgeAttrs)} {nid old : String}
    {g : Graph} (hb : ∀ e ∈ base, e.1 ≠ nid) (hE : EdgeExt base nid old g)
    (t : String) (a : EdgeAttrs) (ht : t ≠ nid)
    (hta : t = old → a = ⟨"supersedes", 1, 1, "auto", none, false⟩) :
    EdgeExt base nid old (g.addEdge nid t a) := by
  obtain ⟨tail, hEq, hQ⟩ := hE
  unfold Graph.addEdge
  split
  · refine ⟨tail.map (fun e => if e.1 = nid ∧ e.2.1 = t then (nid, t, a) else e), ?_, ?_⟩
    · show g.edges.map _ = _
      rw [hEq, List.map_append]
      congr 1
      conv_rhs => rw [← List.map_id base]
      apply List.map_congr_left
      intro e he
      rw [if_neg]
      · rfl
      · rintro ⟨h1, _⟩
        exact hb e he h1
    · intro e he
      rw [List.mem_map] at he
      obtain ⟨e0, he0, heq⟩ := he
      by_cases hc : e0.1 = nid ∧ e0.2.1 = t
      · rw [if_pos hc] at heq
        rw [← heq]
        exact ⟨rfl, ht, fun hto => hta hto⟩
      · rw [if_neg hc] at heq
        rw [← heq]
        exact hQ e0 he0
  · refine ⟨tail ++ [(nid, t, a)], ?_, ?_⟩
    · show g.edges ++ [(nid, t, a)] = base ++ (tail ++ [(nid, t, a)])
      rw [hEq, List.append_assoc]
    · intro e he
      rcases List.mem_append.mp he with h1 | h1
      · exact hQ e h1
      · rw [List.mem_singleton] at h1
        subst h1
        exact ⟨rfl, ht, fun hto => hta hto⟩

lemma addEdge_mem_self (g : Graph) (s t : String) (a : EdgeAttrs) :
    (s, t, a) ∈ (g.addEdge s t a).edges := by
  unfold Graph.addEdge
  split
  · next h =>
      rw [List.any_eq_true] at h
      obtain ⟨e0, he0, hp⟩ := h
      rw [decide_eq_true_eq] at hp
      show (s, t, a) ∈ g.edges.map _
      rw [List.mem_map]
      exact ⟨e0, he0, by rw [if_pos hp]⟩
  · show (s, t, a) ∈ g.edges ++ [(s, t, a)]
    rw [List.mem_append]
    right
    exact List.mem_singleton.mpr rfl

lemma addEdge_mem_mono (g : Graph) (s t : String) (a : EdgeAttrs)
    (e0 : String × String × EdgeAttrs) (h : e0 ∈ g.edges)
    (hne : ¬(e0.1 = s ∧ e0.2.1 = t)) : e0 ∈ (g.addEdge s t a).edges := by
  unfold Graph.addEdge
  split
  · show e0 ∈ g.edges.map _
    rw [List.mem_map]
    exact ⟨e0, h, by rw [if_neg hne]⟩
  · show e0 ∈ g.edges ++ [(s, t, a)]
    rw [List.mem_append]
    exact Or.inl h

lemma EdgeExt2_edges_eq {base : List (String × String × EdgeAttrs)} {nid old : String}
    {g g' : Graph} (h : g'.edges = g.edges) :
    EdgeExt2 base nid old g → EdgeExt2 base nid old g' := by
  rintro ⟨h1, h2⟩
  refine ⟨EdgeExt_edges_eq h h1, ?_⟩
  rw [h]
  exact h2

lemma EdgeExt2_addEdge {base : List (String × String × EdgeAttrs)} {nid old : String}
    {g : Graph} (hb : ∀ e ∈ base, e.1 ≠ nid) (hE : EdgeExt2 base nid old g)
    (t : String) (a : EdgeAttrs) (ht : t ≠ nid) (hto : t ≠ old) :
    EdgeExt2 base nid old (g.addEdge nid t a) := by
  obtain ⟨h1, h2⟩ := hE
  refine ⟨EdgeExt_addEdge hb h1 t a ht (fun hx => absurd hx hto), ?_⟩
  apply addEdge_mem_mono g nid t a _ h2
  rintro ⟨_, hx⟩
  exact hto (by exact hx.symm)

lemma EdgeExt_addMentions {base : List (String × String × EdgeAttrs)} {nid old : String}
    (hb : ∀ e ∈ base, e.1 ≠ nid) (hNid : nid.data.head? ≠ some 'e')
    (hOld : old.data.head? ≠ some 'e') :
    ∀ (l : List (String × String)) (g : Graph),
      EdgeExt base nid old g → EdgeExt base nid old (addMentions nid g l)
  | [], _ => fun h => h
  | (t, n) :: rest, g => by
      intro hE
      rw [addMentions]
      apply EdgeExt_addMentions hb hNid hOld rest
      apply EdgeExt_addEdge hb
      · apply EdgeExt_edges_eq _ hE
        split
        · rfl
        · exact addNode_edges _ _ _
      · exact (ne_of_head_ne hNid (makeEntityId_head t n)).symm
      · intro hx
        exact absurd hx.symm (ne_of_head_ne hOld (makeEntityId_head t n))

lemma EdgeExt_addMemory {base : List (String × String × EdgeAttrs)} {nid old : String}
    (hb : ∀ e ∈ base, e.1 ≠ nid) (hNid : nid.data.head? ≠ some 'e')
    (hOld : old.data.head? ≠ some 'e') (g : Graph) (content mtype : String)
    (pr sr : Option String) (status : String) (conf : ℚ) (impact : String)
    (eh ph : List String) (hE : EdgeExt base nid old g) :
    EdgeExt base nid old
      (g.addMemory nid content mtype pr sr status conf impact eh ph) := by
  unfold Graph.addMemory
  dsimp only
  apply EdgeExt_addMentions hb hNid hOld
  exact EdgeExt_edges_eq (addNode_edges g nid _) hE

lemma EdgeExt2_supersede {base : List (String × String × EdgeAttrs)} {nid old : String}
    {g : Graph} (hb : ∀ e ∈ base, e.1 ≠ nid) (hE : EdgeExt base nid old g)
    (hnew : g.hasNode nid = true) (hold : g.hasNode old = true) (hne : old ≠ nid) :
    EdgeExt2 base nid old (g.supersede nid old) := by
  unfold Graph.supersede
  apply EdgeExt2_edges_eq (updateMemoryStatus_edges _ old "superseded")
  unfold Graph.addRelationship
  rw [hnew, hold]
  dsimp only
  constructor
  · exact EdgeExt_addEdge hb hE old _ hne (fun _ => rfl)
  · exact addEdge_mem_self g nid old _

lemma EdgeExt2_storeAddRelationship {base : List (String × String × EdgeAttrs)}
    {nid old : String} (hb : ∀ e ∈ base, e.1 ≠ nid)
    (hNid : nid.data.head? ≠ some 'e') (hOld : old.data.head? ≠ some 'e')
    (st : SysState) (dst rel : String) (strength conf : ℚ) (ev : Option String)
    (hdst : dst.data.head? = some 'e')
    (hE : EdgeExt2 base nid old st.graph) :
    EdgeExt2 base nid old (storeAddRelationship st nid dst rel strength conf ev).1.graph := by
  unfold storeAddRelationship
  split
  · dsimp only
    unfold Graph.addRelationship
    split
    · exact hE
    · split
      · exact hE
      · dsimp only
        exact EdgeExt2_addEdge hb hE dst _ (ne_of_head_ne hNid hdst).symm
          (ne_of_head_ne hOld hdst).symm
  · exact hE

lemma EdgeExt2_storeAddEntity {base : List (String × String × EdgeAttrs)}
    {nid old : String} (st : SysState) (t n s : String) (p d : Option String)
    (hE : EdgeExt2 base nid old st.graph) :
    EdgeExt2 base nid old (storeAddEntity st t n s p d).1.graph := by
  unfold storeAddEntity
  split
  · dsimp only
    exact EdgeExt2_edges_eq (addNode_edges _ _ _) hE
  · exact hE

lemma EdgeExt2_addEntityAndRel {base : List (String × String × EdgeAttrs)}
    {nid old : String} (hb : ∀ e ∈ base, e.1 ≠ nid)
    (hNid : nid.data.head? ≠ some 'e') (hOld : old.data.head? ≠ some 'e')
    (st : SysState) (t n rel : String) (c : ℚ)
    (hE : EdgeExt2 base nid old st.graph) :
    EdgeExt2 base nid old (addEntityAndRel st nid t n rel c).graph := by
  unfold addEntityAndRel
  have hgE : EdgeExt2 base nid old (storeAddEntity st t n "active" none none).1.graph :=
    EdgeExt2_storeAddEntity st t n "active" none none hE
  rcases h : storeAddEntity st t n "active" none none with ⟨st1, eidOpt⟩
  rw [h] at hgE
  cases eidOpt with
  | none => exact hgE
  | some eid =>
      by_cases he : eid.isEmpty
      · simp only [he, if_true]
        exact hgE
      · simp only [he, Bool.false_eq_true, if_false, if_neg]
        have heid : eid = makeEntityId t n := by
          have h2 : (storeAddEntity st t n "active" none none).2 = some eid := by
            rw [h]
          unfold storeAddEntity at h2
          by_cases hty : t ∈ entityTypeValues
          · rw [if_pos hty] at h2
            injection h2 with h3
            exact h3.symm
          · rw [if_neg hty] at h2
            cases h2
        exact EdgeExt2_storeAddRelationship hb hNid hOld st1 eid rel 1 c none
          (heid ▸ makeEntityId_head t n) hgE

lemma EdgeExt2_extractGroup {base : List (String × String × EdgeAttrs)}
    {nid old : String} (hb : ∀ e ∈ base, e.1 ≠ nid)
    (hNid : nid.data.head? ≠ some 'e') (hOld : old.data.head? ≠ some 'e')
    (t rel : String) :
    ∀ (l : List (List String × ℚ)) (st : SysState),
      EdgeExt2 base nid old st.graph →
      EdgeExt2 base nid old (extractGroup nid t rel l st).graph
  | [], _ => fun h => h
  | (ms, conf) :: rest, st => by
      intro hE
      rw [extractGroup]
      apply EdgeExt2_extractGroup hb hNid hOld t rel rest
      apply foldl_pres (fun s : SysState => EdgeExt2 base nid old s.graph)
        (fun s name => addEntityAndRel s nid t name rel conf)
        (fun s name hs => EdgeExt2_addEntityAndRel hb hNid hOld s t name rel conf hs)
      exact hE

lemma EdgeExt2_tryEntityTypes {base : List (String × String × EdgeAttrs)}
    {nid old : String} (hb : ∀ e ∈ base, e.1 ≠ nid)
    (hNid : nid.data.head? ≠ some 'e') (hOld : old.data.head? ≠ some 'e')
    (target rel : String) :
    ∀ (l : List String) (st : SysState),
      EdgeExt2 base nid old st.graph →
      EdgeExt2 base nid old (tryEntityTypes nid target rel l st).graph
  | [], _ => fun h => h
  | t :: rest, st => by
      intro hE
      rw [tryEntityTypes]
      split
      · exact EdgeExt2_storeAddRelationship hb hNid hOld st _ rel 1 (3/5) none
          (entityPrefixed_head t (spacesToUnderscores (strLower target))) hE
      · exact EdgeExt2_tryEntityTypes hb hNid hOld target rel rest st hE

lemma EdgeExt2_relScan {base : List (String × String × EdgeAttrs)}
    {nid old : String} (hb : ∀ e ∈ base, e.1 ≠ nid)
    (hNid : nid.data.head? ≠ some 'e') (hOld : old.data.head? ≠ some 'e')
    (cl : String) (rt : String → List String) (st : SysState)
    (hE : EdgeExt2 base nid old st.graph) :
    EdgeExt2 base nid old (relScan nid cl rt st).graph := by
  unfold relScan
  apply foldl_pres (fun s : SysState => EdgeExt2 base nid old s.graph) _ _ _ st hE
  intro s kw hs
  by_cases hsub : substr kw.1 cl = true
  · simp only [hsub, if_true]
    rcases h : (rt kw.1).take 1 with _ | ⟨m, tail⟩
    · exact hs
    · show EdgeExt2 base nid old (if (strTake (strTrim m) 50).length > 3 then
          tryEntityTypes nid (strTake (strTrim m) 50) kw.2
            ["goal", "blocker", "pattern", "tool", "concept"] s
        else s).graph
      split
      · exact EdgeExt2_tryEntityTypes hb hNid hOld _ _ _ s hs
      · exact hs
  · simp only [hsub, Bool.false_eq_true, if_false, if_neg]
    exact hs

lemma EdgeExt2_autoExtract {base : List (String × String × EdgeAttrs)}
    {nid old : String} (hb : ∀ e ∈ base, e.1 ≠ nid)
    (hNid : nid.data.head? ≠ some 'e') (hOld : old.data.head? ≠ some 'e')
    (st : SysState) (content : String) (ex : ExtractOracle)
    (hE : EdgeExt2 base nid old st.graph) :
    EdgeExt2 base nid old (autoExtract st nid content ex).graph := by
  unfold autoExtract
  dsimp only
  apply EdgeExt2_relScan hb hNid hOld
  have h1 : EdgeExt2 base nid old (extractGroup nid "blocker" "blocked_by"
      (zipMatches ex.blockerMatches blockerPatternConfs)
      (extractGroup nid "goal" "motivated_by"
        (zipMatches ex.goalMatches goalPatternConfs) st)).graph :=
    EdgeExt2_extractGroup hb hNid hOld _ _ _ _
      (EdgeExt2_extractGroup hb hNid hOld _ _ _ _ hE)
  split
  · split
    · exact EdgeExt2_extractGroup hb hNid hOld _ _ _ _ h1
    · exact h1
  · exact h1

lemma find?_unique {α : Type} (p : α → Bool) (e0 : α) :
    ∀ l : List α, e0 ∈ l → p e0 = true → (∀ e ∈ l, p e = true → e = e0) →
      l.find? p = some e0
  | [] => by
      intro h
      cases h
  | x :: xs => by
      intro hmem hp huniq
      by_cases hx : p x = true
      · rw [List.find?_cons, hx]
        show some x = some e0
        rw [huniq x (List.mem_cons_self x xs) hx]
      · rw [List.find?_cons]
        rw [show p x = false from Bool.eq_false_iff.mpr hx]
        show xs.find? p = some e0
        rcases List.mem_cons.mp hmem with h1 | h1
        · exact absurd (h1 ▸ hp) hx
        · exact find?_unique p e0 xs h1 hp (fun e he hpe => huniq e (List.mem_cons_of_mem x he) hpe)

lemma firstSupersedesPred_old {base : List (String × String × EdgeAttrs)}
    {nid old : String} {g : Graph} (hE : EdgeExt2 base nid old g)
    (hNoSup : ∀ e ∈ base, ¬(e.2.1 = old ∧ e.2.2.edge_type = "supersedes")) :
    g.firstSupersedesPred old = some nid := by
  obtain ⟨⟨tail, hEq, hQ⟩, hmem⟩ := hE
  unfold Graph.firstSupersedesPred
  have hfind : g.edges.find?
      (fun e => decide (e.2.1 = old ∧ e.2.2.edge_type = "supersedes")) =
      some (nid, old, (⟨"supersedes", 1, 1, "auto", none, false⟩ : EdgeAttrs)) := by
    apply find?_unique
    · exact hmem
    · rw [decide_eq_true_eq]
      exact ⟨rfl, rfl⟩
    · intro e he hpe
      rw [decide_eq_true_eq] at hpe
      rw [hEq] at he
      rcases List.mem_append.mp he with h1 | h1
      · exact absurd hpe (hNoSup e h1)
      · obtain ⟨hq1, hq2, hq3⟩ := hQ e h1
        rcases e with ⟨s, t, a⟩
        have ht : t = old := hpe.1
        have ha : a = ⟨"supersedes", 1, 1, "auto", none, false⟩ := hq3 ht
        rw [show s = nid from hq1, ht, ha]
  rw [hfind]
  rfl

lemma firstSupersedesPred_nid {base : List (String × String × EdgeAttrs)}
    {nid old : String} {g : Graph} (hE : EdgeExt2 base nid old g)
    (hNoInto : ∀ e ∈ base, e.2.1 ≠ nid) :
    g.firstSupersedesPred nid = none := by
  obtain ⟨⟨tail, hEq, hQ⟩, _⟩ := hE
  unfold Graph.firstSupersedesPred
  have hfind : g.edges.find?
      (fun e => decide (e.2.1 = nid ∧ e.2.2.edge_type = "supersedes")) = none := by
    rw [List.find?_eq_none]
    intro e he
    rw [hEq] at he
    intro hpe
    rw [decide_eq_true_eq] at hpe
    rcases List.mem_append.mp he with h1 | h1
    · exact hNoInto e h1 hpe.1
    · exact (hQ e h1).2.1 hpe.1
  rw [hfind]
  rfl

lemma getCurrentVersion_two {g : Graph} {nid old : String}
    (h1 : g.firstSupersedesPred old = some nid)
    (h2 : g.firstSupersedesPred nid = none)
    (hne : nid ≠ old) (hlen : 1 ≤ g.nodes.length) :
    g.getCurrentVersion old = nid := by
  unfold Graph.getCurrentVersion
  obtain ⟨k, hk⟩ : ∃ k, g.nodes.length = k + 1 := ⟨g.nodes.length - 1, by omega⟩
  rw [hk]
  show Graph.currentVersionAux g (k + 1 + 1) old [old] = nid
  rw [Graph.currentVersionAux]
  simp only [h1]
  have hni : ¬ nid ∈ [old] := by
    rw [List.mem_singleton]
    exact hne
  rw [if_neg hni]
  rw [Graph.currentVersionAux]
  simp only [h2]

lemma recallOp_out_subset (st : SysState) (a : RecallArgs) (score : ScoreIn → ℚ)
    (vr : List (String × ℚ)) (now : ℕ) :
    ∀ x, x ∈ (recallOp st a score vr now).2.map (fun m => m.id) →
      x ∈ vr.map Prod.fst := by
  intro x hx
  rw [List.mem_map] at hx
  obtain ⟨m, hm, hxm⟩ := hx
  have hm2 : m ∈ recallSort (postFilterTypes a.memory_types
      (recallLoop score a (if a.hybrid_search then extractKeywords a.query else [])
        now vr st).2) := List.mem_of_mem_take hm
  have hm3 : m ∈ postFilterTypes a.memory_types
      (recallLoop score a (if a.hybrid_search then extractKeywords a.query else [])
        now vr st).2 := by
    exact ((List.perm_insertionSort relGe _).mem_iff).mp hm2
  have hm4 : m ∈ (recallLoop score a
      (if a.hybrid_search then extractKeywords a.query else []) now vr st).2 := by
    rcases hmt : a.memory_types with _ | ts
    · rw [hmt] at hm3
      exact hm3
    · rw [hmt] at hm3
      simp only [postFilterTypes] at hm3
      revert hm3
      split
      · intro hm3
        exact (List.mem_filter.mp hm3).1
      · intro hm3
        exact hm3
  have hid : x ∈ ((recallLoop score a
      (if a.hybrid_search then extractKeywords a.query else []) now vr st).2).map
        (fun r => r.id) := by
    rw [List.mem_map]
    exact ⟨m, hm4, hxm⟩
  rw [recallLoop_out_ids] at hid
  rw [List.mem_map] at hid
  obtain ⟨q, hq, hq1⟩ := hid
  rw [List.mem_map]
  exact ⟨q, (List.mem_filter.mp hq).1, hq1⟩

lemma recallOp_out_mem (st : SysState) (a : RecallArgs) (score : ScoreIn → ℚ)
    (vr : List (String × ℚ)) (now : ℕ) (hnone : a.memory_types = none)
    (hlen : vr.length ≤ a.limit) (id : String)
    (hin : id ∈ vr.map Prod.fst) (hrow : (lookupL st.mems id).isSome = true) :
    id ∈ (recallOp st a score vr now).2.map (fun m => m.id) := by
  have hpost : postFilterTypes a.memory_types
      (recallLoop score a (if a.hybrid_search then extractKeywords a.query else [])
        now vr st).2 =
      (recallLoop score a (if a.hybrid_search then extractKeywords a.query else [])
        now vr st).2 := by
    rw [hnone]
    rfl
  have hlen2 : (recallSort (postFilterTypes a.memory_types
      (recallLoop score a (if a.hybrid_search then extractKeywords a.query else [])
        now vr st).2)).length ≤ a.limit := by
    rw [hpost]
    show (List.insertionSort relGe _).length ≤ a.limit
    rw [(List.perm_insertionSort relGe _).length_eq]
    have hl3 : ((recallLoop score a
        (if a.hybrid_search then extractKeywords a.query else []) now vr st).2).length =
        ((recallLoop score a
          (if a.hybrid_search then extractKeywords a.query else []) now vr st).2.map
            (fun r => r.id)).length := by
      rw [List.length_map]
    rw [hl3, recallLoop_out_ids, List.length_map]
    exact le_trans (List.length_filter_le _ _) hlen
  show id ∈ ((recallSort (postFilterTypes a.memory_types
      (recallLoop score a (if a.hybrid_search then extractKeywords a.query else [])
        now vr st).2)).take a.limit).map (fun m => m.id)
  rw [List.take_of_length_le hlen2]
  have hid : id ∈ ((recallLoop score a
      (if a.hybrid_search then extractKeywords a.query else []) now vr st).2).map
        (fun r => r.id) := by
    rw [recallLoop_out_ids, List.mem_map]
    rw [List.mem_map] at hin
    obtain ⟨q, hq, hq1⟩ := hin
    refine ⟨q, ?_, hq1⟩
    rw [List.mem_filter]
    refine ⟨hq, ?_⟩
    rw [hq1, hrow]
  rw [hpost]
  exact (((List.perm_insertionSort relGe _).map (fun m => m.id)).mem_iff).mpr hid

/-- C3 amended: a successful superseding remember (embed and vector add
succeed, conflict check off, the swallowed vector delete succeeds) stores
the new id; the old record's superseded_by metadata is patched to the new
id, the old vector entry is gone, the GRAPH node of the old memory (the
record rows carry no status column) has status superseded, the graph
holds the supersedes edge at strength 1, get_current_version follows it
to the new id, and any subsequent recall whose vector answer is drawn
from the surviving vector entries returns the new id and never the old
one. -/
theorem c3_supersede_amended (st : SysState) (a : RememberArgs)
    (score : ScoreIn → ℚ) (cv : List (String × ℚ)) (delOk : String → Bool)
    (nid old : String) (now : ℕ) (ex : ExtractOracle) (r0 : MemRow) (n0 : GNode)
    (hcf : a.check_conflicts = false)
    (hsup : a.supersede = [old])
    (hdel : delOk old = true)
    (hRowOld : lookupL st.mems old = some r0)
    (hNodeOld : lookupL st.graph.nodes old = some n0)
    (hne : nid ≠ old)
    (hNidHead : nid.data.head? ≠ some 'e')
    (hOldHead : old.data.head? ≠ some 'e')
    (hNoSup : ∀ e ∈ st.graph.edges, ¬(e.2.1 = old ∧ e.2.2.edge_type = "supersedes"))
    (hNoInto : ∀ e ∈ st.graph.edges, e.2.1 ≠ nid)
    (hNoSrc : ∀ e ∈ st.graph.edges, e.1 ≠ nid) :
    (remember st a score cv true true delOk nid now ex).2 = RememberOut.stored nid
    ∧ (lookupL (remember st a score cv true true delOk nid now ex).1.mems old).map (fun r => r.superseded_by) = some (some nid)
    ∧ lookupL (remember st a score cv true true delOk nid now ex).1.vec old = none
    ∧ lookupL (remember st a score cv true true delOk nid now ex).1.graph.nodes old = some (setStatus n0 "superseded")
    ∧ (nid, old, (⟨"supersedes", 1, 1, "auto", none, false⟩ : EdgeAttrs)) ∈
        (remember st a score cv true true delOk nid now ex).1.graph.edges
    ∧ (remember st a score cv true true delOk nid now ex).1.graph.getCurrentVersion old = nid
    ∧ (∀ (a2 : RecallArgs) (score2 : ScoreIn → ℚ) (vr2 : List (String × ℚ)) (now2 : ℕ),
        a2.memory_types = none → vr2.length ≤ a2.limit →
        nid ∈ vr2.map Prod.fst →
        (∀ q ∈ vr2, (lookupL (remember st a score cv true true delOk nid now ex).1.vec q.1).isSome = true) →
        nid ∈ (recallOp (remember st a score cv true true delOk nid now ex).1 a2 score2 vr2 now2).2.map (fun m => m.id)
        ∧ old ∉ (recallOp (remember st a score cv true true delOk nid now ex).1 a2 score2 vr2 now2).2.map (fun m => m.id)) := by
  have hneO : old ≠ nid := fun h => hne h.symm
  have hRem : remember st a score cv true true delOk nid now ex =
      rememberWrite st a true true delOk nid now ex := by
    unfold remember
    rw [hcf]
    rfl
  have hW : rememberWrite st a true true delOk nid now ex =
      (autoExtract ⟨(patchSupersededBy nid (supersedePhase1 a.content delOk st [old]) [old]).mems ++ [(nid, (⟨a.content, a.memory_type, a.project, a.source_role, max 0 (min 1 a.importance), now, none, 0, 0, false, none, none⟩ : MemRow))], (patchSupersededBy nid (supersedePhase1 a.content delOk st [old]) [old]).log, (patchSupersededBy nid (supersedePhase1 a.content delOk st [old]) [old]).vec ++ [(nid, (⟨a.memory_type, a.project.getD "", a.source_role.getD "", max 0 (min 1 a.importance)⟩ : VecMeta))], Graph.supersede (Graph.addMemory (patchSupersededBy nid (supersedePhase1 a.content delOk st [old]) [old]).graph nid a.content a.memory_type a.project a.source_role "active" (max 0 (min 1 a.importance)) (if max 0 (min 1 a.importance) > 7/10 then "high" else if max 0 (min 1 a.importance) > 4/10 then "medium" else "low") ex.episodeHits ex.pathHits) nid old⟩ nid a.content ex, RememberOut.stored nid) := by
    unfold rememberWrite
    rw [hsup]
    rfl
  have hfin : (remember st a score cv true true delOk nid now ex).1 = autoExtract ⟨(patchSupersededBy nid (supersedePhase1 a.content delOk st [old]) [old]).mems ++ [(nid, (⟨a.content, a.memory_type, a.project, a.source_role, max 0 (min 1 a.importance), now, none, 0, 0, false, none, none⟩ : MemRow))], (patchSupersededBy nid (supersedePhase1 a.content delOk st [old]) [old]).log, (patchSupersededBy nid (supersedePhase1 a.content delOk st [old]) [old]).vec ++ [(nid, (⟨a.memory_type, a.project.getD "", a.source_role.getD "", max 0 (min 1 a.importance)⟩ : VecMeta))], Graph.supersede (Graph.addMemory (patchSupersededBy nid (supersedePhase1 a.content delOk st [old]) [old]).graph nid a.content a.memory_type a.project a.source_role "active" (max 0 (min 1 a.importance)) (if max 0 (min 1 a.importance) > 7/10 then "high" else if max 0 (min 1 a.importance) > 4/10 then "medium" else "low") ex.episodeHits ex.pathHits) nid old⟩ nid a.content ex := by
    rw [hRem, hW]
  have hout : (remember st a score cv true true delOk nid now ex).2 = RememberOut.stored nid := by
    rw [hRem, hW]
  have hS2graph : (patchSupersededBy nid (supersedePhase1 a.content delOk st [old]) [old]).graph = st.graph := by
    rw [patchSupersededBy_graph, supersedePhase1_graph]
  have hS2mems_old : lookupL (patchSupersededBy nid (supersedePhase1 a.content delOk st [old]) [old]).mems old = some { r0 with superseded_by := some nid } := by
    have h1 : lookupL (patchSupersededBy nid (supersedePhase1 a.content delOk st [old]) [old]).mems old =
        (lookupL (supersedePhase1 a.content delOk st [old]).mems old).map
          (fun r => { r with superseded_by := some nid }) := by
      show lookupL (updateMem (supersedePhase1 a.content delOk st [old]).mems old
        (fun r => { r with superseded_by := some nid })) old = _
      rw [lookupL_updateMem, if_pos rfl]
    have h2 : lookupL (supersedePhase1 a.content delOk st [old]).mems old =
        (lookupL st.mems old).map
          (fun r => { r with superseded_by := some ("pending:" ++ strTake a.content 50) }) := by
      show lookupL (updateMem st.mems old
        (fun r => { r with superseded_by := some ("pending:" ++ strTake a.content 50) })) old = _
      rw [lookupL_updateMem, if_pos rfl]
    rw [h1, h2, hRowOld]
    rfl
  have hS2vec_old : lookupL (patchSupersededBy nid (supersedePhase1 a.content delOk st [old]) [old]).vec old = none := by
    show lookupL (if delOk old = true then st.vec.filter (fun p => decide (p.1 ≠ old))
      else st.vec) old = none
    rw [if_pos hdel]
    exact lookupL_filter_self old st.vec
  have hfinMems : (remember st a score cv true true delOk nid now ex).1.mems = (patchSupersededBy nid (supersedePhase1 a.content delOk st [old]) [old]).mems ++ [(nid, (⟨a.content, a.memory_type, a.project, a.source_role, max 0 (min 1 a.importance), now, none, 0, 0, false, none, none⟩ : MemRow))] := by
    rw [hfin, autoExtract_mems]
  have hfinVec : (remember st a score cv true true delOk nid now ex).1.vec = (patchSupersededBy nid (supersedePhase1 a.content delOk st [old]) [old]).vec ++ [(nid, (⟨a.memory_type, a.project.getD "", a.source_role.getD "", max 0 (min 1 a.importance)⟩ : VecMeta))] := by
    rw [hfin, autoExtract_vec]
  have hvec_old : lookupL (remember st a score cv true true delOk nid now ex).1.vec old = none := by
    rw [hfinVec, lookupL_append, hS2vec_old]
    show lookupL [(nid, (⟨a.memory_type, a.project.getD "", a.source_role.getD "", max 0 (min 1 a.importance)⟩ : VecMeta))] old = none
    simp [lookupL, hne]
  have hmems_old : (lookupL (remember st a score cv true true delOk nid now ex).1.mems old).map (fun r => r.superseded_by) =
      some (some nid) := by
    rw [hfinMems, lookupL_append, hS2mems_old]
    rfl
  have hOldHas : st.graph.hasNode old = true := by
    unfold Graph.hasNode
    rw [hNodeOld]
    rfl
  have hGMHasOld : (Graph.addMemory (patchSupersededBy nid (supersedePhase1 a.content delOk st [old]) [old]).graph nid a.content a.memory_type a.project a.source_role "active" (max 0 (min 1 a.importance)) (if max 0 (min 1 a.importance) > 7/10 then "high" else if max 0 (min 1 a.importance) > 4/10 then "medium" else "low") ex.episodeHits ex.pathHits).hasNode old = true := by
    rw [hS2graph] at *
    exact addMemory_hasNode_mono st.graph nid a.content a.memory_type a.project
      a.source_role "active" (max 0 (min 1 a.importance)) _ ex.episodeHits ex.pathHits
      old hOldHas
  have hGMHasNid : (Graph.addMemory (patchSupersededBy nid (supersedePhase1 a.content delOk st [old]) [old]).graph nid a.content a.memory_type a.project a.source_role "active" (max 0 (min 1 a.importance)) (if max 0 (min 1 a.importance) > 7/10 then "high" else if max 0 (min 1 a.importance) > 4/10 then "medium" else "low") ex.episodeHits ex.pathHits).hasNode nid = true := by
    rw [hS2graph]
    exact addMemory_hasNode_self st.graph nid a.content a.memory_type a.project
      a.source_role "active" (max 0 (min 1 a.importance)) _ ex.episodeHits ex.pathHits
  have hGMnodes_old : lookupL (Graph.addMemory (patchSupersededBy nid (supersedePhase1 a.content delOk st [old]) [old]).graph nid a.content a.memory_type a.project a.source_role "active" (max 0 (min 1 a.importance)) (if max 0 (min 1 a.importance) > 7/10 then "high" else if max 0 (min 1 a.importance) > 4/10 then "medium" else "low") ex.episodeHits ex.pathHits).nodes old = some n0 := by
    rw [hS2graph]
    rw [addMemory_nodes_ne st.graph nid a.content a.memory_type a.project a.source_role
      "active" (max 0 (min 1 a.importance)) _ ex.episodeHits ex.pathHits old hOldHead hneO]
    exact hNodeOld
  have hnode_old : lookupL (remember st a score cv true true delOk nid now ex).1.graph.nodes old = some (setStatus n0 "superseded") := by
    rw [hfin]
    show lookupL (autoExtract ⟨(patchSupersededBy nid (supersedePhase1 a.content delOk st [old]) [old]).mems ++ [(nid, (⟨a.content, a.memory_type, a.project, a.source_role, max 0 (min 1 a.importance), now, none, 0, 0, false, none, none⟩ : MemRow))], (patchSupersededBy nid (supersedePhase1 a.content delOk st [old]) [old]).log, (patchSupersededBy nid (supersedePhase1 a.content delOk st [old]) [old]).vec ++ [(nid, (⟨a.memory_type, a.project.getD "", a.source_role.getD "", max 0 (min 1 a.importance)⟩ : VecMeta))], Graph.supersede (Graph.addMemory (patchSupersededBy nid (supersedePhase1 a.content delOk st [old]) [old]).graph nid a.content a.memory_type a.project a.source_role "active" (max 0 (min 1 a.importance)) (if max 0 (min 1 a.importance) > 7/10 then "high" else if max 0 (min 1 a.importance) > 4/10 then "medium" else "low") ex.episodeHits ex.pathHits) nid old⟩ nid a.content ex).graph.nodes old = _
    rw [autoExtract_nodes_ne _ _ _ _ old hOldHead]
    show lookupL (Graph.supersede (Graph.addMemory (patchSupersededBy nid (supersedePhase1 a.content delOk st [old]) [old]).graph nid a.content a.memory_type a.project a.source_role "active" (max 0 (min 1 a.importance)) (if max 0 (min 1 a.importance) > 7/10 then "high" else if max 0 (min 1 a.importance) > 4/10 then "medium" else "low") ex.episodeHits ex.pathHits) nid old).nodes old = _
    unfold Graph.supersede
    have hRnodes : (((Graph.addMemory (patchSupersededBy nid (supersedePhase1 a.content delOk st [old]) [old]).graph nid a.content a.memory_type a.project a.source_role "active" (max 0 (min 1 a.importance)) (if max 0 (min 1 a.importance) > 7/10 then "high" else if max 0 (min 1 a.importance) > 4/10 then "medium" else "low") ex.episodeHits ex.pathHits).addRelationship nid old "supersedes" 1 1 "auto" none false).1).nodes =
        (Graph.addMemory (patchSupersededBy nid (supersedePhase1 a.content delOk st [old]) [old]).graph nid a.content a.memory_type a.project a.source_role "active" (max 0 (min 1 a.importance)) (if max 0 (min 1 a.importance) > 7/10 then "high" else if max 0 (min 1 a.importance) > 4/10 then "medium" else "low") ex.episodeHits ex.pathHits).nodes := addRelationship_nodes _ _ _ _ _ _ _ _ _
    have hRhas : (((Graph.addMemory (patchSupersededBy nid (supersedePhase1 a.content delOk st [old]) [old]).graph nid a.content a.memory_type a.project a.source_role "active" (max 0 (min 1 a.importance)) (if max 0 (min 1 a.importance) > 7/10 then "high" else if max 0 (min 1 a.importance) > 4/10 then "medium" else "low") ex.episodeHits ex.pathHits).addRelationship nid old "supersedes" 1 1 "auto" none false).1).hasNode old = true := by
      unfold Graph.hasNode
      rw [hRnodes]
      unfold Graph.hasNode at hGMHasOld
      exact hGMHasOld
    rw [updateMemoryStatus_nodes _ _ _ hRhas old, if_pos rfl, hRnodes, hGMnodes_old]
    rfl
  have hE0 : EdgeExt st.graph.edges nid old st.graph := EdgeExt_refl st.graph nid old
  have hEM : EdgeExt st.graph.edges nid old (Graph.addMemory (patchSupersededBy nid (supersedePhase1 a.content delOk st [old]) [old]).graph nid a.content a.memory_type a.project a.source_role "active" (max 0 (min 1 a.importance)) (if max 0 (min 1 a.importance) > 7/10 then "high" else if max 0 (min 1 a.importance) > 4/10 then "medium" else "low") ex.episodeHits ex.pathHits) := by
    rw [hS2graph]
    exact EdgeExt_addMemory hNoSrc hNidHead hOldHead st.graph a.content a.memory_type
      a.project a.source_role "active" (max 0 (min 1 a.importance)) _
      ex.episodeHits ex.pathHits hE0
  have hES : EdgeExt2 st.graph.edges nid old (Graph.supersede (Graph.addMemory (patchSupersededBy nid (supersedePhase1 a.content delOk st [old]) [old]).graph nid a.content a.memory_type a.project a.source_role "active" (max 0 (min 1 a.importance)) (if max 0 (min 1 a.importance) > 7/10 then "high" else if max 0 (min 1 a.importance) > 4/10 then "medium" else "low") ex.episodeHits ex.pathHits) nid old) :=
    EdgeExt2_supersede hNoSrc hEM hGMHasNid hGMHasOld hneO
  have hEF : EdgeExt2 st.graph.edges nid old (remember st a score cv true true delOk nid now ex).1.graph := by
    rw [hfin]
    exact EdgeExt2_autoExtract hNoSrc hNidHead hOldHead ⟨(patchSupersededBy nid (supersedePhase1 a.content delOk st [old]) [old]).mems ++ [(nid, (⟨a.content, a.memory_type, a.project, a.source_role, max 0 (min 1 a.importance), now, none, 0, 0, false, none, none⟩ : MemRow))], (patchSupersededBy nid (supersedePhase1 a.content delOk st [old]) [old]).log, (patchSupersededBy nid (supersedePhase1 a.content delOk st [old]) [old]).vec ++ [(nid, (⟨a.memory_type, a.project.getD "", a.source_role.getD "", max 0 (min 1 a.importance)⟩ : VecMeta))], Graph.supersede (Graph.addMemory (patchSupersededBy nid (supersedePhase1 a.content delOk st [old]) [old]).graph nid a.content a.memory_type a.project a.source_role "active" (max 0 (min 1 a.importance)) (if max 0 (min 1 a.importance) > 7/10 then "high" else if max 0 (min 1 a.importance) > 4/10 then "medium" else "low") ex.episodeHits ex.pathHits) nid old⟩ a.content ex hES
  have hlenpos : 1 ≤ (remember st a score cv true true delOk nid now ex).1.graph.nodes.length := by
    have hmem : old ∈ (remember st a score cv true true delOk nid now ex).1.graph.nodes.map Prod.fst := by
      rw [← lookupL_isSome_iff, hnode_old]
      rfl
    have := List.length_pos_of_mem hmem
    rw [List.length_map] at this
    omega
  have hver : (remember st a score cv true true delOk nid now ex).1.graph.getCurrentVersion old = nid :=
    getCurrentVersion_two (firstSupersedesPred_old hEF hNoSup)
      (firstSupersedesPred_nid hEF hNoInto) hne hlenpos
  have hmems_nid : (lookupL (remember st a score cv true true delOk nid now ex).1.mems nid).isSome = true := by
    rw [hfinMems, lookupL_append]
    rcases lookupL (patchSupersededBy nid (supersedePhase1 a.content delOk st [old]) [old]).mems nid with _ | r1
    · show (lookupL [(nid, (⟨a.content, a.memory_type, a.project, a.source_role, max 0 (min 1 a.importance), now, none, 0, 0, false, none, none⟩ : MemRow))] nid).isSome = true
      simp [lookupL]
    · rfl
  refine ⟨hout, hmems_old, hvec_old, hnode_old, hEF.2, hver, ?_⟩
  intro a2 score2 vr2 now2 hnone hlen hinN hwf
  constructor
  · exact recallOp_out_mem _ a2 score2 vr2 now2 hnone hlen nid hinN hmems_nid
  · intro hmemO
    have hinO : old ∈ vr2.map Prod.fst :=
      recallOp_out_subset _ a2 score2 vr2 now2 old hmemO
    rw [List.mem_map] at hinO
    obtain ⟨q, hq, hq1⟩ := hinO
    have := hwf q hq
    rw [hq1, hvec_old] at this
    cases this

/-- C3 counterexample: the ChromaDB delete of the superseded id is
wrapped in try/except pass, so a failing delete is swallowed and the
remember still succeeds - the old id REMAINS in the vector index; and
the record row of the old memory carries no status field at all (the
memories table has no status column): only its superseded_by metadata is
patched, while the superseded status lives on the graph node. -/
theorem c3_swallowed_delete_counterexample :
    (remember c3State c3Args (fun _ => 1) [] true true (fun _ => false) "m2" 5 c3ex).2 = RememberOut.stored "m2"
    ∧ lookupL (remember c3State c3Args (fun _ => 1) [] true true (fun _ => false) "m2" 5 c3ex).1.vec "m1" = some ⟨"decision", "", "", 1⟩
    ∧ lookupL (remember c3State c3Args (fun _ => 1) [] true true (fun _ => false) "m2" 5 c3ex).1.mems "m1" =
        some ⟨"use X", "decision", none, none, 1, 0, none, 0, 0, false, some "m2", none⟩
    ∧ lookupL (remember c3State c3Args (fun _ => 1) [] true true (fun _ => false) "m2" 5 c3ex).1.graph.nodes "m1" =
        some (.memory ⟨"decision", none, none, "superseded", 1, "high", 0, none⟩) := by
  refine ⟨?_, ?_, ?_, ?_⟩ <;>
    norm_num +decide [remember, rememberWrite, supersedePhase1, patchSupersededBy,
      updateMem, lookupL, c3State, c3Args, c3Row, c3Node, c3ex,
      Graph.addMemory, Graph.addNode, Graph.hasNode, addMentions, extractEntities,
      knownEntities, containsLower, strLower, strUpper, pathHitOk, dedupEntities,
      dedupEntitiesAux, Graph.supersede, Graph.addRelationship, Graph.addEdge,
      Graph.updateMemoryStatus, setStatus, autoExtract, extractGroup, zipMatches,
      processMatches, acceptName, strTake, strTrim, relScan, relationshipKeywords,
      substr, infixB, tryEntityTypes, spacesToUnderscores, storeAddRelationship,
      storeAddEntity, addEntityAndRel, makeEntityId, goalPatternConfs,
      blockerPatternConfs, patternPatternConfs, entityTypeValues, relationTypeValues,
      reverseRelation]

theorem c3_supersede_amended_witness :
    (c3Args.check_conflicts = false ∧ c3Args.supersede = ["m1"] ∧
     lookupL c3State.mems "m1" = some c3Row ∧
     lookupL c3State.graph.nodes "m1" = some (.memory c3Node)) ∧
    ((remember c3State c3Args (fun _ => 1) [] true true (fun _ => true) "m2" 5 c3ex).2 =
       RememberOut.stored "m2"
     ∧ (remember c3State c3Args (fun _ => 1) [] true true (fun _ => true)
          "m2" 5 c3ex).1.graph.getCurrentVersion "m1" = "m2") := by
  have h1 : lookupL c3State.mems "m1" = some c3Row := by
    simp [c3State, lookupL]
  have h2 : lookupL c3State.graph.nodes "m1" = some (.memory c3Node) := by
    simp [c3State, lookupL]
  have hmain := c3_supersede_amended c3State c3Args (fun _ => 1) [] (fun _ => true)
    "m2" "m1" 5 c3ex c3Row (.memory c3Node) rfl rfl rfl h1 h2
    (by decide) (by decide) (by decide)
    (by intro e he; exact absurd he (List.not_mem_nil e))
    (by intro e he; exact absurd he (List.not_mem_nil e))
    (by intro e he; exact absurd he (List.not_mem_nil e))
  exact ⟨⟨rfl, rfl, h1, h2⟩, hmain.1, hmain.2.2.2.2.2.1⟩

end Engram
